import Mathlib

set_option linter.unusedVariables false

/-! Verification of the BusTub in-memory page cache: the LRU-K replacer
(src/buffer/lru_k_replacer.cpp) and the buffer pool manager
(src/buffer/buffer_pool_manager_instance.cpp), as a shallow embedding.
C++ ints (page_id_t, frame_id_t, pin counts) are modelled as Int,
std::unordered_map as association lists over Int keys, the std::list<size_t>
access histories as List Nat (front of the C++ list = head of the Lean list),
and the frame array as a List Page.  Disk traffic is recorded both as a trace
of events and as a map from page ids to the last bytes written. -/

/-- page_id_t is a C++ int; modelled as Int. -/
abbrev PageId := Int

/-- frame_id_t is a C++ int; modelled as Int. -/
abbrev FrameId := Int

/-- Modelled from the spec: the INVALID_PAGE_ID constant lives in a config header
that is not under src/; the spec calls it "a reserved sentinel (conventionally -1)"
and the source itself compares page ids against -1. -/
def INVALID_PAGE_ID : PageId := -1

/-- Modelled from the spec: pages are fixed size, "typically 4096 bytes". -/
def PAGE_SIZE : Nat := 4096

/-- Bytes of one page. -/
abbrev PageData := List Nat

/-- All-zero page contents. -/
def zeroPageData : PageData := List.replicate PAGE_SIZE 0

/-- Modelled from the spec: the Page frame record (page.h is not under src/): one
slot of the pool holding the resident page id (INVALID_PAGE_ID when empty), the
pin count, the dirty bit and the page bytes. -/
structure Page where
  page_id : PageId
  pin_count : Int
  is_dirty : Bool
  data : PageData
deriving Repr, DecidableEq

/-- Modelled from the spec: a frame is "empty" at start — no resident page, zero
pins, clean, zeroed bytes. -/
def defaultPage : Page :=
  { page_id := INVALID_PAGE_ID, pin_count := 0, is_dirty := false, data := zeroPageData }

/-- Modelled from the spec: Page::ResetMemory zeroes the frame's byte buffer
(and touches nothing else). -/
def Page.ResetMemory (p : Page) : Page :=
  { p with data := zeroPageData }

/-! Association lists standing in for std::unordered_map with Int keys.
Iteration order of an unordered_map is unspecified, so the list order carries
no meaning; lookups and erasures are by key. -/

/-- Key lookup in an association list (std::unordered_map::find). -/
def lookupKey {β : Type} (l : List (Int × β)) (k : Int) : Option β :=
  match l with
  | [] => none
  | e :: rest => if e.1 = k then some e.2 else lookupKey rest k

/-- Key removal from an association list (std::unordered_map::erase). -/
def eraseKey {β : Type} (l : List (Int × β)) (k : Int) : List (Int × β) :=
  match l with
  | [] => []
  | e :: rest => if e.1 = k then eraseKey rest k else e :: eraseKey rest k

/-- Insert-or-overwrite (std::unordered_map::operator[] followed by assignment). -/
def setKey {β : Type} (l : List (Int × β)) (k : Int) (v : β) : List (Int × β) :=
  (k, v) :: eraseKey l k

/-- Insert-if-absent (std::unordered_map::emplace: a key already present is
left untouched and nothing is inserted). -/
def emplaceKey {β : Type} (l : List (Int × β)) (k : Int) (v : β) : List (Int × β) :=
  if (lookupKey l k).isSome then l else (k, v) :: l

/-- Keys of an association list. -/
def keysOf {β : Type} (l : List (Int × β)) : List Int :=
  l.map Prod.fst

/-- Removal of every occurrence of an element from a list of frame ids
(std::unordered_map::erase on the evictable set, which has unique keys). -/
def removeAll (l : List Int) (k : Int) : List Int :=
  match l with
  | [] => []
  | x :: rest => if x = k then removeAll rest k else x :: removeAll rest k

/-! The LRU-K replacer, translated from src/buffer/lru_k_replacer.cpp. -/

/-- Access history of one frame: the recorded timestamps, oldest first
(access_history_t = std::list<size_t>; front = oldest). -/
abbrev AccessHistory := List Nat

/-- State of the LRU-K replacer: the bound on frame ids, the K parameter, the
logical clock, the preliminary queue (frames with fewer than K recorded
accesses), the LRU cache queue (mature frames, exactly the last K timestamps)
and the evictable set (evictable_ is an unordered_map used as a set: a frame id
is present exactly when its flag is set). -/
structure LRUKReplacer where
  replacer_size : Nat
  k : Nat
  clock : Nat
  preliminary_queue : List (FrameId × AccessHistory)
  lru_cache_queue : List (FrameId × AccessHistory)
  evictable : List FrameId
deriving Repr, DecidableEq

/-- Constructor LRUKReplacer(num_frames, k): empty queues, clock at zero. -/
def LRUKReplacer.mk0 (num_frames k : Nat) : LRUKReplacer :=
  { replacer_size := num_frames, k := k, clock := 0,
    preliminary_queue := [], lru_cache_queue := [], evictable := [] }

/-- Frame ids currently tracked by the replacer (keys of either queue). -/
def LRUKReplacer.trackedKeys (r : LRUKReplacer) : List FrameId :=
  keysOf r.preliminary_queue ++ keysOf r.lru_cache_queue

/-- Earliest recorded timestamp of a history: list.front(). The default value 0
is never consulted on a well-formed (nonempty) history. -/
def front (h : AccessHistory) : Nat := h.headD 0

/-- The victim-selection loop of LRUKReplacer::Evict over one queue: starting
from the accumulator (candidate frame id, reference clock), take any entry that
is evictable and whose earliest timestamp is strictly below the reference clock,
updating the accumulator. -/
def scanQueue (ev : List FrameId) (q : List (FrameId × AccessHistory))
    (acc : FrameId × Nat) : FrameId × Nat :=
  match q with
  | [] => acc
  | e :: rest =>
      scanQueue ev rest (if e.1 ∈ ev ∧ front e.2 < acc.2 then (e.1, front e.2) else acc)

/-- LRUKReplacer::Evict. Bumps the clock, returns none if nothing is tracked;
otherwise scans the preliminary queue for the evictable frame with the smallest
earliest timestamp and, if the scan found one, erases it from the preliminary
queue and the evictable set; otherwise continues the scan over the cache queue
(carrying the accumulator across, as the source reuses *frame_id and
reference_clock) and erases the winner, if any, from the cache queue and the
evictable set.  The C++ out-parameter/bool pair is modelled as Option. -/
def LRUKReplacer.Evict (r : LRUKReplacer) : Option FrameId × LRUKReplacer :=
  let r1 : LRUKReplacer := { r with clock := r.clock + 1 }
  if r1.preliminary_queue = [] ∧ r1.lru_cache_queue = [] then (none, r1)
  else
    let p := scanQueue r1.evictable r1.preliminary_queue (-1, r1.clock)
    if (lookupKey r1.preliminary_queue p.1).isSome then
      (some p.1, { r1 with preliminary_queue := eraseKey r1.preliminary_queue p.1,
                           evictable := removeAll r1.evictable p.1 })
    else
      let m := scanQueue r1.evictable r1.lru_cache_queue p
      if m.1 ≠ -1 then
        (some m.1, { r1 with lru_cache_queue := eraseKey r1.lru_cache_queue m.1,
                             evictable := removeAll r1.evictable m.1 })
      else (none, r1)

/-- LRUKReplacer::RecordAccess. Rejects frame_id ≥ replacer_size and frame_id = -1.
A mature frame drops its oldest timestamp and appends the new one; otherwise the
timestamp is appended to the (possibly fresh) preliminary history, and the frame
is promoted to the cache queue once the history reaches length K. -/
def LRUKReplacer.RecordAccess (r : LRUKReplacer) (frame_id : FrameId) : LRUKReplacer :=
  if (r.replacer_size : Int) ≤ frame_id ∨ frame_id = -1 then r
  else
    match lookupKey r.lru_cache_queue frame_id with
    | some h =>
        { r with lru_cache_queue := setKey r.lru_cache_queue frame_id (h.tail ++ [r.clock]),
                 clock := r.clock + 1 }
    | none =>
        let h := ((lookupKey r.preliminary_queue frame_id).getD []) ++ [r.clock]
        if r.k ≤ h.length then
          { r with lru_cache_queue := setKey r.lru_cache_queue frame_id h,
                   preliminary_queue := eraseKey r.preliminary_queue frame_id,
                   clock := r.clock + 1 }
        else
          { r with preliminary_queue := setKey r.preliminary_queue frame_id h,
                   clock := r.clock + 1 }

/-- LRUKReplacer::SetEvictable. Bumps the clock; a frame tracked by neither
queue is ignored; otherwise the evictable flag is set or cleared. -/
def LRUKReplacer.SetEvictable (r : LRUKReplacer) (frame_id : FrameId)
    (set_evictable : Bool) : LRUKReplacer :=
  let r1 : LRUKReplacer := { r with clock := r.clock + 1 }
  if (lookupKey r1.preliminary_queue frame_id).isNone ∧
     (lookupKey r1.lru_cache_queue frame_id).isNone then r1
  else if set_evictable then
    { r1 with evictable := if frame_id ∈ r1.evictable then r1.evictable
                           else frame_id :: r1.evictable }
  else
    { r1 with evictable := removeAll r1.evictable frame_id }

/-- LRUKReplacer::Remove. Bumps the clock and drops the frame from both queues
and from the evictable set. -/
def LRUKReplacer.Remove (r : LRUKReplacer) (frame_id : FrameId) : LRUKReplacer :=
  { r with clock := r.clock + 1,
           preliminary_queue := eraseKey r.preliminary_queue frame_id,
           lru_cache_queue := eraseKey r.lru_cache_queue frame_id,
           evictable := removeAll r.evictable frame_id }

/-- LRUKReplacer::Size: the number of evictable frames. -/
def LRUKReplacer.Size (r : LRUKReplacer) : Nat := r.evictable.length

/-! The buffer pool manager, translated from
src/buffer/buffer_pool_manager_instance.cpp. -/

/-- One synchronous DiskManager call issued by the pool. -/
inductive DiskEvent where
  | write (pid : PageId) (data : PageData)
  | read (pid : PageId)
  | deallocate (pid : PageId)
deriving Repr, DecidableEq

/-- State of a BufferPoolManagerInstance: the frame array pages_, the page
table, the free list, the replacer, the allocation counter next_page_id_,
plus the external disk modelled as the map of last-written bytes per page and
the chronological trace of DiskManager calls. -/
structure BufferPoolManagerInstance where
  pool_size : Nat
  pages : List Page
  page_table : List (PageId × FrameId)
  free_list : List FrameId
  replacer : LRUKReplacer
  next_page_id : PageId
  disk : List (PageId × PageData)
  trace : List DiskEvent
deriving Repr, DecidableEq

/-- Constructor BufferPoolManagerInstance(pool_size, disk_manager, replacer_k):
every frame starts empty and on the free list.  Modelled from the spec where
the source is in headers not under src/: next_page_id_ starts at 0 ("a simple
incrementing counter"; page ids are non-negative). -/
def mkBufferPool (pool_size replacer_k : Nat) : BufferPoolManagerInstance :=
  { pool_size := pool_size,
    pages := List.replicate pool_size defaultPage,
    page_table := [],
    free_list := (List.range pool_size).map (fun i => Int.ofNat i),
    replacer := LRUKReplacer.mk0 pool_size replacer_k,
    next_page_id := 0,
    disk := [],
    trace := [] }

/-- Reading pages_[f].  Out-of-range access is undefined behaviour in the
source; the model returns the empty frame there (such accesses are proved
unreachable from well-formed states). -/
def getPageAt (s : BufferPoolManagerInstance) (f : FrameId) : Page :=
  if 0 ≤ f then s.pages.getD f.toNat defaultPage else defaultPage

/-- Writing pages_[f]; out of range this is a no-op in the model. -/
def setPageAt (s : BufferPoolManagerInstance) (f : FrameId) (p : Page) :
    BufferPoolManagerInstance :=
  if 0 ≤ f then { s with pages := s.pages.set f.toNat p } else s

/-- Modelled from the spec: DiskManager::ReadPage returns the bytes last written
for the page; "undefined bytes permitted for never-written pages" (zero here). -/
def readDisk (disk : List (PageId × PageData)) (pid : PageId) : PageData :=
  (lookupKey disk pid).getD zeroPageData

/-- The scan at the top of NewPgImp/FetchPgImp counting frames whose pin count
is zero. -/
def numFreePages (s : BufferPoolManagerInstance) : Nat :=
  s.pages.countP (fun p => p.pin_count == 0)

/-- The frame-reclaim path shared by NewPgImp and FetchPgImp when the free list
is empty: ask the replacer to evict (the source does not check the result; a
failed Evict leaves frame_id = -1, which the model routes through the junk
frame), write the victim back if dirty and clear its dirty bit, zero its bytes,
and erase its page-table entry. -/
def evictAndPrepare (s : BufferPoolManagerInstance) :
    FrameId × BufferPoolManagerInstance :=
  let er := s.replacer.Evict
  let fid : FrameId := er.1.getD (-1)
  let s1 : BufferPoolManagerInstance := { s with replacer := er.2 }
  let epage := getPageAt s1 fid
  let s2 : BufferPoolManagerInstance :=
    if epage.is_dirty then
      setPageAt { s1 with disk := setKey s1.disk epage.page_id epage.data,
                          trace := s1.trace ++ [DiskEvent.write epage.page_id epage.data] }
        fid { epage with is_dirty := false }
    else s1
  let s3 := setPageAt s2 fid (getPageAt s2 fid).ResetMemory
  (fid, { s3 with page_table := eraseKey s3.page_table epage.page_id })

/-- Frame selection in NewPgImp/FetchPgImp: prefer the front of the free list,
otherwise reclaim by eviction. -/
def pickFrame (s : BufferPoolManagerInstance) : FrameId × BufferPoolManagerInstance :=
  match s.free_list with
  | f :: rest => (f, { s with free_list := rest })
  | [] => evictAndPrepare s

/-- The tail shared by NewPgImp and FetchPgImp: page_table_.emplace, then
page_id_/pin_count_ assignment on the frame. -/
def installPage (s : BufferPoolManagerInstance) (fid : FrameId) (pid : PageId) :
    BufferPoolManagerInstance :=
  let s1 : BufferPoolManagerInstance :=
    { s with page_table := emplaceKey s.page_table pid fid }
  setPageAt s1 fid { getPageAt s1 fid with page_id := pid, pin_count := 1 }

/-- The closing replacer calls shared by the install paths and the fetch hit
path: RecordAccess followed by SetEvictable(.., false). -/
def finishInstall (s : BufferPoolManagerInstance) (fid : FrameId) :
    BufferPoolManagerInstance :=
  { s with replacer := (s.replacer.RecordAccess fid).SetEvictable fid false }

/-- BufferPoolManagerInstance::NewPgImp.  Fails if no frame has pin count zero;
otherwise allocates the next page id, selects a frame (free list first, then
eviction with write-back), installs the new page pinned once, and registers the
access with the replacer.  Returns the new page id and the frame. -/
def NewPgImp (s : BufferPoolManagerInstance) :
    Option (PageId × FrameId) × BufferPoolManagerInstance :=
  if numFreePages s = 0 then (none, s)
  else
    let pid := s.next_page_id
    let s1 : BufferPoolManagerInstance := { s with next_page_id := s.next_page_id + 1 }
    let pr := pickFrame s1
    (some (pid, pr.1), finishInstall (installPage pr.2 pr.1 pid) pr.1)

/-- BufferPoolManagerInstance::FetchPgImp.  On a hit the pin count is bumped and
the access recorded; on a miss a frame is reclaimed exactly as in NewPgImp, the
page is read from disk into it, and it is returned pinned once. -/
def FetchPgImp (s : BufferPoolManagerInstance) (page_id : PageId) :
    Option FrameId × BufferPoolManagerInstance :=
  match lookupKey s.page_table page_id with
  | some fid =>
      let s1 := setPageAt s fid
        { getPageAt s fid with pin_count := (getPageAt s fid).pin_count + 1 }
      (some fid, finishInstall s1 fid)
  | none =>
      if numFreePages s = 0 then (none, s)
      else
        let pr := pickFrame s
        let s1 := installPage pr.2 pr.1 page_id
        let s2 : BufferPoolManagerInstance :=
          { s1 with trace := s1.trace ++ [DiskEvent.read page_id] }
        let s3 := setPageAt s2 pr.1
          { getPageAt s2 pr.1 with data := readDisk s2.disk page_id }
        (some pr.1, finishInstall s3 pr.1)

/-- BufferPoolManagerInstance::UnpinPgImp.  False if the page is not resident
or its pin count is not positive; otherwise the dirty bit is set when is_dirty
is true (and never cleared), the pin count is decremented, and the frame is
marked evictable when the count reaches zero. -/
def UnpinPgImp (s : BufferPoolManagerInstance) (page_id : PageId) (is_dirty : Bool) :
    Bool × BufferPoolManagerInstance :=
  match lookupKey s.page_table page_id with
  | none => (false, s)
  | some fid =>
      let page := getPageAt s fid
      if page.pin_count ≤ 0 then (false, s)
      else
        let page1 := if is_dirty then { page with is_dirty := is_dirty } else page
        let page2 := { page1 with pin_count := page1.pin_count - 1 }
        let s1 := setPageAt s fid page2
        let s2 : BufferPoolManagerInstance :=
          if page2.pin_count = 0 then
            { s1 with replacer := s1.replacer.SetEvictable fid true }
          else s1
        (true, s2)

/-- BufferPoolManagerInstance::FlushPgImp.  False on INVALID_PAGE_ID or a
non-resident page; otherwise writes the frame's bytes to disk (without touching
the dirty bit or any other pool state). -/
def FlushPgImp (s : BufferPoolManagerInstance) (page_id : PageId) :
    Bool × BufferPoolManagerInstance :=
  if page_id = -1 then (false, s)
  else
    match lookupKey s.page_table page_id with
    | none => (false, s)
    | some fid =>
        (true, { s with disk := setKey s.disk page_id (getPageAt s fid).data,
                        trace := s.trace ++ [DiskEvent.write page_id (getPageAt s fid).data] })

/-- BufferPoolManagerInstance::FlushAllPgsImp: FlushPgImp on every frame's
current page id, in frame order. -/
def FlushAllPgsImp (s : BufferPoolManagerInstance) : BufferPoolManagerInstance :=
  (List.range s.pool_size).foldl
    (fun s' i => (FlushPgImp s' (getPageAt s' (i : Int)).page_id).2) s

/-- BufferPoolManagerInstance::DeletePgImp.  True (no-op) if the page is not
resident; false if it is pinned; otherwise removes the frame from the replacer,
resets the frame, erases the page-table entry, appends the frame to the free
list, and tells the DiskManager the page id may be deallocated.  Modelled from
the spec: DeallocatePage (declared in a header not under src/) only informs the
DiskManager, recorded here as a trace event. -/
def DeletePgImp (s : BufferPoolManagerInstance) (page_id : PageId) :
    Bool × BufferPoolManagerInstance :=
  match lookupKey s.page_table page_id with
  | none => (true, s)
  | some fid =>
      if 0 < (getPageAt s fid).pin_count then (false, s)
      else
        let s1 : BufferPoolManagerInstance := { s with replacer := s.replacer.Remove fid }
        let s2 := setPageAt s1 fid
          { page_id := INVALID_PAGE_ID, pin_count := 0, is_dirty := false,
            data := zeroPageData }
        (true, { s2 with page_table := eraseKey s2.page_table page_id,
                         free_list := s2.free_list ++ [fid],
                         trace := s2.trace ++ [DiskEvent.deallocate page_id] })

/-! Executions: sequences of pool operations. -/

/-- One public pool operation together with its argument. -/
inductive PoolOp where
  | newPage : PoolOp
  | fetchPage (pid : PageId) : PoolOp
  | unpinPage (pid : PageId) (is_dirty : Bool) : PoolOp
  | flushPage (pid : PageId) : PoolOp
  | flushAllPages : PoolOp
  | deletePage (pid : PageId) : PoolOp
deriving Repr, DecidableEq

/-- The state transition of one pool operation (return values discarded). -/
def applyOp (s : BufferPoolManagerInstance) : PoolOp → BufferPoolManagerInstance
  | PoolOp.newPage => (NewPgImp s).2
  | PoolOp.fetchPage pid => (FetchPgImp s pid).2
  | PoolOp.unpinPage pid d => (UnpinPgImp s pid d).2
  | PoolOp.flushPage pid => (FlushPgImp s pid).2
  | PoolOp.flushAllPages => FlushAllPgsImp s
  | PoolOp.deletePage pid => (DeletePgImp s pid).2

/-- A whole sequence of pool operations, applied left to right. -/
def applyOps (ops : List PoolOp) (s : BufferPoolManagerInstance) :
    BufferPoolManagerInstance :=
  ops.foldl applyOp s

/-- States reachable from a freshly constructed pool by any sequence of pool
operations, with arbitrary arguments. -/
inductive ReachableAny : BufferPoolManagerInstance → Prop where
  | init (pool_size replacer_k : Nat) : ReachableAny (mkBufferPool pool_size replacer_k)
  | step {s : BufferPoolManagerInstance} (op : PoolOp) :
      ReachableAny s → ReachableAny (applyOp s op)

/-- Modelled from the spec: callers are out of scope, and the spec states its
invariants "for all interleavings of legal calls", with page ids non-negative
and produced by the monotonic allocator.  An operation is legal when FetchPage
is only asked for a page id that has already been allocated; every other
operation is legal with any argument. -/
def LegalOp (s : BufferPoolManagerInstance) : PoolOp → Prop
  | PoolOp.fetchPage pid => 0 ≤ pid ∧ pid < s.next_page_id
  | _ => True

/-- States reachable from a freshly constructed pool by legal call sequences. -/
inductive Reachable : BufferPoolManagerInstance → Prop where
  | init (pool_size replacer_k : Nat) : Reachable (mkBufferPool pool_size replacer_k)
  | step {s : BufferPoolManagerInstance} (op : PoolOp) :
      Reachable s → LegalOp s op → Reachable (applyOp s op)

/-- Well-formedness of a replacer state, as established by any reachable use of
the replacer: histories are nonempty with all earliest timestamps below the
clock, earliest timestamps are pairwise distinct (timestamps are unique by
construction), keys within each queue are distinct, the two queues are
disjoint, and no tracked frame id is the -1 sentinel. -/
def ReplacerWF (r : LRUKReplacer) : Prop :=
  (∀ e ∈ r.preliminary_queue ++ r.lru_cache_queue, e.2 ≠ [] ∧ front e.2 < r.clock) ∧
  ((r.preliminary_queue ++ r.lru_cache_queue).map (fun e => front e.2)).Nodup ∧
  (keysOf r.preliminary_queue).Nodup ∧
  (keysOf r.lru_cache_queue).Nodup ∧
  (∀ f ∈ keysOf r.preliminary_queue, f ∉ keysOf r.lru_cache_queue) ∧
  (∀ f ∈ r.trackedKeys, f ≠ -1)

/-- The inductive invariant of the buffer pool, maintained by every pool
operation with arbitrary arguments. -/
structure PoolInv (s : BufferPoolManagerInstance) : Prop where
  frames_len : s.pages.length = s.pool_size
  rep_size : s.replacer.replacer_size = s.pool_size
  table_frame : ∀ e ∈ s.page_table, 0 ≤ e.2 ∧ e.2 < (s.pool_size : Int) ∧
    (getPageAt s e.2).page_id = e.1
  table_keys_nodup : (keysOf s.page_table).Nodup
  free_range : ∀ f ∈ s.free_list, 0 ≤ f ∧ f < (s.pool_size : Int)
  free_nodup : s.free_list.Nodup
  free_default : ∀ f ∈ s.free_list, getPageAt s f = defaultPage
  free_untracked : ∀ f ∈ s.free_list, f ∉ s.replacer.trackedKeys
  resident_not_free : ∀ e ∈ s.page_table, e.2 ∉ s.free_list
  pins_nonneg : ∀ i : Nat, i < s.pool_size → 0 ≤ (getPageAt s (i : Int)).pin_count
  tracked_range : ∀ f ∈ s.replacer.trackedKeys, 0 ≤ f ∧ f < (s.pool_size : Int)
  resident_tracked : ∀ e ∈ s.page_table, e.2 ∈ s.replacer.trackedKeys
  evictable_tracked : ∀ f ∈ s.replacer.evictable, f ∈ s.replacer.trackedKeys
  evictable_pin0 : ∀ f ∈ s.replacer.evictable, (getPageAt s f).pin_count = 0
  pin0_covered : ∀ i : Nat, i < s.pool_size → (getPageAt s (i : Int)).pin_count = 0 →
    ((i : Int) ∈ s.free_list ∨ (i : Int) ∈ s.replacer.evictable)
  hist_wf : ∀ e ∈ s.replacer.preliminary_queue ++ s.replacer.lru_cache_queue,
    e.2 ≠ [] ∧ ∀ t ∈ e.2, t < s.replacer.clock
  prelim_nodup : (keysOf s.replacer.preliminary_queue).Nodup
  cache_nodup : (keysOf s.replacer.lru_cache_queue).Nodup
  queues_disjoint : ∀ f ∈ keysOf s.replacer.preliminary_queue,
    f ∉ keysOf s.replacer.lru_cache_queue

/-- The additional invariant available under legal call sequences (FetchPage
only asked for already-allocated page ids): page-table keys are allocated
non-negative page ids, and every frame holding a valid page id has its
page-table entry. -/
structure PoolInvL (s : BufferPoolManagerInstance) : Prop where
  next_nonneg : 0 ≤ s.next_page_id
  table_pid : ∀ e ∈ s.page_table, 0 ≤ e.1 ∧ e.1 < s.next_page_id
  table_complete : ∀ i : Nat, i < s.pool_size →
    (getPageAt s (i : Int)).page_id ≠ INVALID_PAGE_ID →
    ((getPageAt s (i : Int)).page_id, (i : Int)) ∈ s.page_table

/-- What frame selection (free list or eviction with write-back) guarantees
about the state it hands to the install path: the selected frame is in range,
clean, unpinned and zeroed, nothing in the page table, free list or replacer
refers to it any more, and everything else survives. -/
structure PickOut (s s1 : BufferPoolManagerInstance) (fid : FrameId) : Prop where
  fid_lb : 0 ≤ fid
  fid_ub : fid < (s.pool_size : Int)
  pool_size_eq : s1.pool_size = s.pool_size
  pages_len : s1.pages.length = s.pages.length
  next_eq : s1.next_page_id = s.next_page_id
  frame_other : ∀ g : FrameId, g ≠ fid → getPageAt s1 g = getPageAt s g
  frame_pin : (getPageAt s1 fid).pin_count = 0
  frame_dirty : (getPageAt s1 fid).is_dirty = false
  frame_data : (getPageAt s1 fid).data = zeroPageData
  table_sub : ∀ e ∈ s1.page_table, e ∈ s.page_table
  table_keys_sub : ∀ p ∈ keysOf s1.page_table, p ∈ keysOf s.page_table
  table_not_fid : ∀ e ∈ s1.page_table, e.2 ≠ fid
  table_nodup : (keysOf s1.page_table).Nodup
  free_sub : ∀ g ∈ s1.free_list, g ∈ s.free_list
  free_nodup1 : s1.free_list.Nodup
  free_not_fid : fid ∉ s1.free_list
  free_keep : ∀ g ∈ s.free_list, g ≠ fid → g ∈ s1.free_list
  rep_size1 : s1.replacer.replacer_size = s.replacer.replacer_size
  tracked_sub : ∀ g ∈ s1.replacer.trackedKeys, g ∈ s.replacer.trackedKeys
  tracked_keep : ∀ g ∈ s.replacer.trackedKeys, g ≠ fid → g ∈ s1.replacer.trackedKeys
  evictable_sub : ∀ g ∈ s1.replacer.evictable, g ∈ s.replacer.evictable
  evictable_not_fid : fid ∉ s1.replacer.evictable
  evictable_keep : ∀ g ∈ s.replacer.evictable, g ≠ fid → g ∈ s1.replacer.evictable
  hist_wf1 : ∀ e ∈ s1.replacer.preliminary_queue ++ s1.replacer.lru_cache_queue,
    e.2 ≠ [] ∧ ∀ t ∈ e.2, t < s1.replacer.clock
  prelim_nodup1 : (keysOf s1.replacer.preliminary_queue).Nodup
  cache_nodup1 : (keysOf s1.replacer.lru_cache_queue).Nodup
  queues_disjoint1 : ∀ f ∈ keysOf s1.replacer.preliminary_queue,
    f ∉ keysOf s1.replacer.lru_cache_queue

/-! Concrete states used to instantiate the claim theorems. -/

/-- A small well-formed replacer state: frame 0 is preliminary (one access at
time 5), frame 1 is mature (last two accesses at 3 and 7), both evictable. -/
def exampleReplacer : LRUKReplacer :=
  { replacer_size := 3, k := 2, clock := 10,
    preliminary_queue := [(0, [5])],
    lru_cache_queue := [(1, [3, 7])],
    evictable := [0, 1] }

/-- A pool of one frame after NewPage: page 0 resident in frame 0, pinned. -/
def smallPool1 : BufferPoolManagerInstance :=
  applyOp (mkBufferPool 1 2) PoolOp.newPage

/-- The same pool after UnpinPage(0, false): page 0 unpinned and evictable,
free list empty. -/
def smallPool2 : BufferPoolManagerInstance :=
  applyOp smallPool1 (PoolOp.unpinPage 0 false)

/-- A two-frame pool driven into a corrupted page table: FetchPage(7) before
page 7 is allocated installs a stale (7, 0) entry; seven NewPage/UnpinPage
rounds then advance the allocator to page id 7 with frame 0 still resident. -/
def emplaceClashState : BufferPoolManagerInstance :=
  applyOps
    [PoolOp.fetchPage 7,
     PoolOp.newPage, PoolOp.unpinPage 0 false,
     PoolOp.newPage, PoolOp.unpinPage 1 false,
     PoolOp.newPage, PoolOp.unpinPage 2 false,
     PoolOp.newPage, PoolOp.unpinPage 3 false,
     PoolOp.newPage, PoolOp.unpinPage 4 false,
     PoolOp.newPage, PoolOp.unpinPage 5 false,
     PoolOp.newPage, PoolOp.unpinPage 6 false]
    (mkBufferPool 2 2)

/-! Lemmas about the association-list operations. -/

theorem mem_eraseKey {β : Type} (l : List (Int × β)) (k : Int) (e : Int × β) :
    e ∈ eraseKey l k ↔ e ∈ l ∧ e.1 ≠ k := by
  induction l with
  | nil => simp [eraseKey]
  | cons x rest ih =>
      by_cases hx : x.1 = k
      · simp only [eraseKey, if_pos hx, ih, List.mem_cons]
        constructor
        · rintro ⟨h1, h2⟩; exact ⟨Or.inr h1, h2⟩
        · rintro ⟨h1 | h1, h2⟩
          · subst h1; exact absurd hx h2
          · exact ⟨h1, h2⟩
      · simp only [eraseKey, if_neg hx, List.mem_cons, ih]
        constructor
        · rintro (rfl | ⟨h1, h2⟩)
          · exact ⟨Or.inl rfl, hx⟩
          · exact ⟨Or.inr h1, h2⟩
        · rintro ⟨rfl | h1, h2⟩
          · exact Or.inl rfl
          · exact Or.inr ⟨h1, h2⟩

theorem eraseKey_sublist {β : Type} (l : List (Int × β)) (k : Int) :
    List.Sublist (eraseKey l k) l := by
  induction l with
  | nil => simp [eraseKey]
  | cons x rest ih =>
      by_cases hx : x.1 = k
      · simp only [eraseKey, if_pos hx]
        exact List.Sublist.cons x ih
      · simp only [eraseKey, if_neg hx]
        exact List.Sublist.cons₂ x ih

theorem mem_removeAll (l : List Int) (k x : Int) :
    x ∈ removeAll l k ↔ x ∈ l ∧ x ≠ k := by
  induction l with
  | nil => simp [removeAll]
  | cons y rest ih =>
      by_cases hy : y = k
      · simp only [removeAll, if_pos hy, ih, List.mem_cons]
        constructor
        · rintro ⟨h1, h2⟩; exact ⟨Or.inr h1, h2⟩
        · rintro ⟨rfl | h1, h2⟩
          · exact absurd hy h2
          · exact ⟨h1, h2⟩
      · simp only [removeAll, if_neg hy, List.mem_cons, ih]
        constructor
        · rintro (rfl | ⟨h1, h2⟩)
          · exact ⟨Or.inl rfl, hy⟩
          · exact ⟨Or.inr h1, h2⟩
        · rintro ⟨rfl | h1, h2⟩
          · exact Or.inl rfl
          · exact Or.inr ⟨h1, h2⟩

theorem removeAll_sublist (l : List Int) (k : Int) :
    List.Sublist (removeAll l k) l := by
  induction l with
  | nil => simp [removeAll]
  | cons y rest ih =>
      by_cases hy : y = k
      · simp only [removeAll, if_pos hy]; exact List.Sublist.cons y ih
      · simp only [removeAll, if_neg hy]; exact List.Sublist.cons₂ y ih

theorem lookupKey_eq_none {β : Type} (l : List (Int × β)) (k : Int) :
    lookupKey l k = none ↔ k ∉ keysOf l := by
  induction l with
  | nil => simp [lookupKey, keysOf]
  | cons x rest ih =>
      have hmem : k ∈ keysOf (x :: rest) ↔ k = x.1 ∨ k ∈ keysOf rest := by
        simp [keysOf]
      by_cases hx : x.1 = k
      · simp only [lookupKey, if_pos hx, hmem]
        constructor
        · intro h; cases h
        · intro h; exact absurd (Or.inl hx.symm) h
      · simp only [lookupKey, if_neg hx, hmem]
        rw [ih]
        constructor
        · intro h hk
          rcases hk with hk | hk
          · exact hx hk.symm
          · exact h hk
        · intro h hk
          exact h (Or.inr hk)

theorem lookupKey_isSome {β : Type} (l : List (Int × β)) (k : Int) :
    (lookupKey l k).isSome ↔ k ∈ keysOf l := by
  rcases h : lookupKey l k with _ | v
  · simp only [Option.isSome_none, Bool.false_eq_true, false_iff]
    exact (lookupKey_eq_none l k).1 h
  · simp only [Option.isSome_some, true_iff]
    by_contra hk
    rw [← lookupKey_eq_none l k] at hk
    rw [h] at hk; cases hk

theorem lookupKey_some_mem {β : Type} {l : List (Int × β)} {k : Int} {v : β}
    (h : lookupKey l k = some v) : (k, v) ∈ l := by
  induction l with
  | nil => simp [lookupKey] at h
  | cons x rest ih =>
      by_cases hx : x.1 = k
      · simp only [lookupKey, if_pos hx] at h
        obtain ⟨a, b⟩ := x
        simp only at hx
        cases h
        subst hx
        exact List.mem_cons_self _ _
      · simp only [lookupKey, if_neg hx] at h
        exact List.mem_cons_of_mem _ (ih h)

theorem mem_keysOf {β : Type} {l : List (Int × β)} {k : Int} :
    k ∈ keysOf l ↔ ∃ v, (k, v) ∈ l := by
  simp only [keysOf, List.mem_map]
  constructor
  · rintro ⟨⟨a, b⟩, hm, rfl⟩; exact ⟨b, hm⟩
  · rintro ⟨v, hv⟩; exact ⟨(k, v), hv, rfl⟩

theorem mem_lookupKey_isSome {β : Type} {l : List (Int × β)} {k : Int} {v : β}
    (h : (k, v) ∈ l) : (lookupKey l k).isSome := by
  rw [lookupKey_isSome]
  exact mem_keysOf.2 ⟨v, h⟩

theorem lookupKey_nodup_mem {β : Type} {l : List (Int × β)} {k : Int} {v : β}
    (hnd : (keysOf l).Nodup) (h : (k, v) ∈ l) : lookupKey l k = some v := by
  induction l with
  | nil => cases h
  | cons x rest ih =>
      simp only [keysOf, List.map_cons, List.nodup_cons] at hnd
      rcases List.mem_cons.1 h with rfl | hmem
      · simp [lookupKey]
      · have hx : x.1 ≠ k := by
          intro hk
          exact hnd.1 (hk ▸ (mem_keysOf.2 ⟨v, hmem⟩))
        simp only [lookupKey, if_neg hx]
        exact ih hnd.2 hmem

theorem mem_keysOf_eraseKey {β : Type} (l : List (Int × β)) (k j : Int) :
    j ∈ keysOf (eraseKey l k) ↔ j ∈ keysOf l ∧ j ≠ k := by
  constructor
  · intro h
    obtain ⟨v, hv⟩ := mem_keysOf.1 h
    have := (mem_eraseKey l k _).1 hv
    exact ⟨mem_keysOf.2 ⟨v, this.1⟩, this.2⟩
  · rintro ⟨h1, h2⟩
    obtain ⟨v, hv⟩ := mem_keysOf.1 h1
    exact mem_keysOf.2 ⟨v, (mem_eraseKey l k _).2 ⟨hv, h2⟩⟩

theorem keysOf_sublist_of_sublist {β : Type} {l l' : List (Int × β)}
    (h : List.Sublist l' l) : List.Sublist (keysOf l') (keysOf l) :=
  h.map Prod.fst

theorem nodup_keysOf_eraseKey {β : Type} {l : List (Int × β)} (k : Int)
    (h : (keysOf l).Nodup) : (keysOf (eraseKey l k)).Nodup :=
  (keysOf_sublist_of_sublist (eraseKey_sublist l k)).nodup h

theorem lookupKey_eraseKey_self {β : Type} (l : List (Int × β)) (k : Int) :
    lookupKey (eraseKey l k) k = none := by
  rw [lookupKey_eq_none]
  intro h
  exact ((mem_keysOf_eraseKey l k k).1 h).2 rfl

theorem lookupKey_eraseKey_ne {β : Type} (l : List (Int × β)) {k j : Int}
    (h : j ≠ k) : lookupKey (eraseKey l k) j = lookupKey l j := by
  induction l with
  | nil => simp [eraseKey]
  | cons x rest ih =>
      by_cases hx : x.1 = k
      · have hxj : x.1 ≠ j := by rw [hx]; exact fun hh => h hh.symm
        simp only [eraseKey, if_pos hx, lookupKey, if_neg hxj, ih]
      · by_cases hxj : x.1 = j
        · simp only [eraseKey, if_neg hx, lookupKey, if_pos hxj]
        · simp only [eraseKey, if_neg hx, lookupKey, if_neg hxj, ih]

theorem lookupKey_setKey_self {β : Type} (l : List (Int × β)) (k : Int) (v : β) :
    lookupKey (setKey l k v) k = some v := by
  simp [setKey, lookupKey]

theorem lookupKey_setKey_ne {β : Type} (l : List (Int × β)) {k j : Int} (v : β)
    (h : j ≠ k) : lookupKey (setKey l k v) j = lookupKey l j := by
  have hk : k ≠ j := fun hh => h hh.symm
  simp only [setKey, lookupKey, if_neg hk]
  exact lookupKey_eraseKey_ne l h

theorem mem_keysOf_setKey {β : Type} (l : List (Int × β)) (k : Int) (v : β) (j : Int) :
    j ∈ keysOf (setKey l k v) ↔ j = k ∨ j ∈ keysOf l := by
  simp only [setKey, keysOf, List.map_cons, List.mem_cons]
  constructor
  · rintro (rfl | h)
    · exact Or.inl rfl
    · exact Or.inr ((mem_keysOf_eraseKey l k j).1 h).1
  · rintro (rfl | h)
    · exact Or.inl rfl
    · by_cases hj : j = k
      · exact Or.inl hj
      · exact Or.inr ((mem_keysOf_eraseKey l k j).2 ⟨h, hj⟩)

theorem nodup_keysOf_setKey {β : Type} {l : List (Int × β)} (k : Int) (v : β)
    (h : (keysOf l).Nodup) : (keysOf (setKey l k v)).Nodup := by
  simp only [setKey, keysOf, List.map_cons, List.nodup_cons]
  refine ⟨fun hk => ?_, nodup_keysOf_eraseKey k h⟩
  exact ((mem_keysOf_eraseKey l k k).1 hk).2 rfl

theorem mem_setKey {β : Type} (l : List (Int × β)) (k : Int) (v : β) (e : Int × β) :
    e ∈ setKey l k v ↔ e = (k, v) ∨ (e ∈ l ∧ e.1 ≠ k) := by
  simp only [setKey, List.mem_cons, mem_eraseKey]

theorem emplaceKey_of_absent {β : Type} {l : List (Int × β)} {k : Int} (v : β)
    (h : lookupKey l k = none) : emplaceKey l k v = (k, v) :: l := by
  simp [emplaceKey, h]

theorem emplaceKey_of_present {β : Type} {l : List (Int × β)} {k : Int} (v : β)
    (h : (lookupKey l k).isSome) : emplaceKey l k v = l := by
  simp [emplaceKey, h]

/-! Lemmas about frame-array access. -/

theorem getD_set_self {α : Type} (l : List α) (i : Nat) (a d : α) (h : i < l.length) :
    (l.set i a).getD i d = a := by
  induction l generalizing i with
  | nil => cases h
  | cons x rest ih =>
      cases i with
      | zero => rfl
      | succ j =>
          simp only [List.set, List.getD, List.getElem?_cons_succ]
          have := ih j (Nat.lt_of_succ_lt_succ h)
          simpa [List.getD] using this

theorem getD_set_ne {α : Type} (l : List α) (i j : Nat) (a d : α) (h : i ≠ j) :
    (l.set i a).getD j d = l.getD j d := by
  induction l generalizing i j with
  | nil => rfl
  | cons x rest ih =>
      cases i with
      | zero =>
          cases j with
          | zero => exact absurd rfl h
          | succ j' => rfl
      | succ i' =>
          cases j with
          | zero => rfl
          | succ j' =>
              simp only [List.set, List.getD, List.getElem?_cons_succ]
              have := ih i' j' (fun hh => h (by rw [hh]))
              simpa [List.getD] using this

theorem getPageAt_pages_congr {s s' : BufferPoolManagerInstance}
    (h : s'.pages = s.pages) (f : FrameId) : getPageAt s' f = getPageAt s f := by
  simp [getPageAt, h]

theorem setPageAt_pool_size (s : BufferPoolManagerInstance) (f : FrameId) (p : Page) :
    (setPageAt s f p).pool_size = s.pool_size := by
  simp only [setPageAt]; split <;> rfl

theorem setPageAt_page_table (s : BufferPoolManagerInstance) (f : FrameId) (p : Page) :
    (setPageAt s f p).page_table = s.page_table := by
  simp only [setPageAt]; split <;> rfl

theorem setPageAt_free_list (s : BufferPoolManagerInstance) (f : FrameId) (p : Page) :
    (setPageAt s f p).free_list = s.free_list := by
  simp only [setPageAt]; split <;> rfl

theorem setPageAt_replacer (s : BufferPoolManagerInstance) (f : FrameId) (p : Page) :
    (setPageAt s f p).replacer = s.replacer := by
  simp only [setPageAt]; split <;> rfl

theorem setPageAt_next_page_id (s : BufferPoolManagerInstance) (f : FrameId) (p : Page) :
    (setPageAt s f p).next_page_id = s.next_page_id := by
  simp only [setPageAt]; split <;> rfl

theorem setPageAt_disk (s : BufferPoolManagerInstance) (f : FrameId) (p : Page) :
    (setPageAt s f p).disk = s.disk := by
  simp only [setPageAt]; split <;> rfl

theorem setPageAt_trace (s : BufferPoolManagerInstance) (f : FrameId) (p : Page) :
    (setPageAt s f p).trace = s.trace := by
  simp only [setPageAt]; split <;> rfl

theorem setPageAt_pages_length (s : BufferPoolManagerInstance) (f : FrameId) (p : Page) :
    (setPageAt s f p).pages.length = s.pages.length := by
  simp only [setPageAt]; split <;> simp

theorem getPageAt_setPageAt_self {s : BufferPoolManagerInstance} {f : FrameId} (p : Page)
    (h0 : 0 ≤ f) (hlt : f.toNat < s.pages.length) :
    getPageAt (setPageAt s f p) f = p := by
  simp only [setPageAt, if_pos h0, getPageAt, if_pos h0]
  exact getD_set_self _ _ _ _ hlt

theorem getPageAt_setPageAt_ne {s : BufferPoolManagerInstance} {f g : FrameId} (p : Page)
    (h : g ≠ f) : getPageAt (setPageAt s f p) g = getPageAt s g := by
  by_cases h0 : 0 ≤ f
  · by_cases hg : 0 ≤ g
    · simp only [setPageAt, if_pos h0, getPageAt, if_pos hg]
      refine getD_set_ne _ _ _ _ _ ?_
      intro heq
      apply h
      have : (g.toNat : Int) = (f.toNat : Int) := by rw [heq]
      rwa [Int.toNat_of_nonneg hg, Int.toNat_of_nonneg h0] at this
    · simp only [setPageAt, if_pos h0, getPageAt, if_neg hg]
  · simp only [setPageAt, if_neg h0]

theorem getPageAt_out_of_range {s : BufferPoolManagerInstance} {f : FrameId}
    (h : ¬(0 ≤ f ∧ f.toNat < s.pages.length)) : getPageAt s f = defaultPage := by
  by_cases h0 : 0 ≤ f
  · have hlen : ¬ f.toNat < s.pages.length := fun hc => h ⟨h0, hc⟩
    simp only [getPageAt, if_pos h0]
    rw [List.getD_eq_getElem?_getD, List.getElem?_eq_none (Nat.le_of_not_lt hlen)]
    rfl
  · simp [getPageAt, h0]

theorem setPageAt_out_of_range {s : BufferPoolManagerInstance} {f : FrameId} (p : Page)
    (h : ¬(0 ≤ f ∧ f.toNat < s.pages.length)) : (setPageAt s f p).pages = s.pages := by
  by_cases h0 : 0 ≤ f
  · have hlen : ¬ f.toNat < s.pages.length := fun hc => h ⟨h0, hc⟩
    simp only [setPageAt, if_pos h0]
    exact List.set_eq_of_length_le (Nat.le_of_not_lt hlen)
  · simp [setPageAt, h0]

theorem getPageAt_eq_getElem {s : BufferPoolManagerInstance} {i : Nat}
    (h : i < s.pages.length) : getPageAt s (i : Int) = s.pages[i] := by
  have h0 : (0 : Int) ≤ (i : Int) := Int.ofNat_nonneg i
  simp only [getPageAt, if_pos h0, Int.toNat_ofNat]
  rw [List.getD_eq_getElem?_getD, List.getElem?_eq_getElem h]
  rfl

theorem numFreePages_ne_zero {s : BufferPoolManagerInstance} (h : numFreePages s ≠ 0) :
    ∃ i : Nat, i < s.pages.length ∧ (getPageAt s (i : Int)).pin_count = 0 := by
  have hpos : 0 < s.pages.countP (fun p => p.pin_count == 0) :=
    Nat.pos_of_ne_zero h
  rw [List.countP_pos_iff] at hpos
  obtain ⟨a, hmem, ha⟩ := hpos
  obtain ⟨i, hi, hget⟩ := List.mem_iff_getElem.1 hmem
  refine ⟨i, hi, ?_⟩
  rw [getPageAt_eq_getElem hi, hget]
  simpa using ha

/-! Lemmas about the replacer operations. -/

theorem scanQueue_spec (ev : List FrameId) (q : List (FrameId × AccessHistory))
    (acc : FrameId × Nat) :
    (scanQueue ev q acc = acc ∨
      ((scanQueue ev q acc).1 ∈ ev ∧
        ∃ hh, ((scanQueue ev q acc).1, hh) ∈ q ∧ front hh = (scanQueue ev q acc).2)) ∧
    (scanQueue ev q acc).2 ≤ acc.2 ∧
    (∀ e ∈ q, e.1 ∈ ev → (scanQueue ev q acc).2 ≤ front e.2) := by
  induction q generalizing acc with
  | nil => simp [scanQueue]
  | cons e rest ih =>
      simp only [scanQueue]
      by_cases hc : e.1 ∈ ev ∧ front e.2 < acc.2
      · rw [if_pos hc]
        obtain ⟨ha, hb, hall⟩ := ih (e.1, front e.2)
        refine ⟨?_, le_trans hb (le_of_lt hc.2), ?_⟩
        · rcases ha with ha | ha
          · right
            rw [ha]
            exact ⟨hc.1, e.2, List.mem_cons_self e rest, rfl⟩
          · right
            obtain ⟨hmem, hh, hin, hfr⟩ := ha
            exact ⟨hmem, hh, List.mem_cons_of_mem _ hin, hfr⟩
        · intro x hx hxe
          rcases List.mem_cons.1 hx with rfl | hx
          · exact hb
          · exact hall x hx hxe
      · rw [if_neg hc]
        obtain ⟨ha, hb, hall⟩ := ih acc
        refine ⟨?_, hb, ?_⟩
        · rcases ha with ha | ha
          · exact Or.inl ha
          · right
            obtain ⟨hmem, hh, hin, hfr⟩ := ha
            exact ⟨hmem, hh, List.mem_cons_of_mem _ hin, hfr⟩
        · intro x hx hxe
          rcases List.mem_cons.1 hx with rfl | hx
          · have hnl : ¬ front x.2 < acc.2 := fun hlt => hc ⟨hxe, hlt⟩
            exact le_trans hb (Nat.le_of_not_lt hnl)
          · exact hall x hx hxe

theorem RecordAccess_reject {r : LRUKReplacer} {fid : FrameId}
    (h : (r.replacer_size : Int) ≤ fid ∨ fid = -1) : r.RecordAccess fid = r := by
  unfold LRUKReplacer.RecordAccess
  rw [if_pos h]

theorem RecordAccess_cache {r : LRUKReplacer} {fid : FrameId} {hh : AccessHistory}
    (hrej : ¬((r.replacer_size : Int) ≤ fid ∨ fid = -1))
    (hc : lookupKey r.lru_cache_queue fid = some hh) :
    r.RecordAccess fid =
      { r with lru_cache_queue := setKey r.lru_cache_queue fid (hh.tail ++ [r.clock]),
               clock := r.clock + 1 } := by
  unfold LRUKReplacer.RecordAccess
  rw [if_neg hrej, hc]

theorem RecordAccess_promote {r : LRUKReplacer} {fid : FrameId}
    (hrej : ¬((r.replacer_size : Int) ≤ fid ∨ fid = -1))
    (hc : lookupKey r.lru_cache_queue fid = none)
    (hk : r.k ≤ (((lookupKey r.preliminary_queue fid).getD []) ++ [r.clock]).length) :
    r.RecordAccess fid =
      { r with lru_cache_queue :=
                 setKey r.lru_cache_queue fid
                   (((lookupKey r.preliminary_queue fid).getD []) ++ [r.clock]),
               preliminary_queue := eraseKey r.preliminary_queue fid,
               clock := r.clock + 1 } := by
  unfold LRUKReplacer.RecordAccess
  rw [if_neg hrej, hc]
  simp only [if_pos hk]

theorem RecordAccess_prelim {r : LRUKReplacer} {fid : FrameId}
    (hrej : ¬((r.replacer_size : Int) ≤ fid ∨ fid = -1))
    (hc : lookupKey r.lru_cache_queue fid = none)
    (hk : ¬ r.k ≤ (((lookupKey r.preliminary_queue fid).getD []) ++ [r.clock]).length) :
    r.RecordAccess fid =
      { r with preliminary_queue :=
                 setKey r.preliminary_queue fid
                   (((lookupKey r.preliminary_queue fid).getD []) ++ [r.clock]),
               clock := r.clock + 1 } := by
  unfold LRUKReplacer.RecordAccess
  rw [if_neg hrej, hc]
  simp only [if_neg hk]

theorem RecordAccess_evictable (r : LRUKReplacer) (fid : FrameId) :
    (r.RecordAccess fid).evictable = r.evictable := by
  unfold LRUKReplacer.RecordAccess
  split
  · rfl
  · rcases hc : lookupKey r.lru_cache_queue fid with _ | hh
    · simp only [hc]
      split <;> rfl
    · simp only [hc]

theorem RecordAccess_replacer_size (r : LRUKReplacer) (fid : FrameId) :
    (r.RecordAccess fid).replacer_size = r.replacer_size := by
  unfold LRUKReplacer.RecordAccess
  split
  · rfl
  · rcases hc : lookupKey r.lru_cache_queue fid with _ | hh
    · simp only [hc]
      split <;> rfl
    · simp only [hc]

theorem RecordAccess_k (r : LRUKReplacer) (fid : FrameId) :
    (r.RecordAccess fid).k = r.k := by
  unfold LRUKReplacer.RecordAccess
  split
  · rfl
  · rcases hc : lookupKey r.lru_cache_queue fid with _ | hh
    · simp only [hc]
      split <;> rfl
    · simp only [hc]

theorem SetEvictable_untracked {r : LRUKReplacer} {fid : FrameId} (b : Bool)
    (h : fid ∉ r.trackedKeys) :
    r.SetEvictable fid b = { r with clock := r.clock + 1 } := by
  have h1 : fid ∉ keysOf r.preliminary_queue := fun hc =>
    h (List.mem_append.2 (Or.inl hc))
  have h2 : fid ∉ keysOf r.lru_cache_queue := fun hc =>
    h (List.mem_append.2 (Or.inr hc))
  unfold LRUKReplacer.SetEvictable
  rw [if_pos]
  constructor
  · simpa [Option.isNone_iff_eq_none] using (lookupKey_eq_none _ fid).2 h1
  · simpa [Option.isNone_iff_eq_none] using (lookupKey_eq_none _ fid).2 h2

theorem SetEvictable_guard_of_tracked {r : LRUKReplacer} {fid : FrameId}
    (h : fid ∈ r.trackedKeys) :
    ¬((lookupKey r.preliminary_queue fid).isNone ∧
      (lookupKey r.lru_cache_queue fid).isNone) := by
  rintro ⟨h1, h2⟩
  rcases List.mem_append.1 h with hc | hc
  · rw [Option.isNone_iff_eq_none, lookupKey_eq_none] at h1
    exact h1 hc
  · rw [Option.isNone_iff_eq_none, lookupKey_eq_none] at h2
    exact h2 hc

theorem SetEvictable_tracked_true {r : LRUKReplacer} {fid : FrameId}
    (h : fid ∈ r.trackedKeys) :
    r.SetEvictable fid true =
      { r with clock := r.clock + 1,
               evictable := if fid ∈ r.evictable then r.evictable
                            else fid :: r.evictable } := by
  unfold LRUKReplacer.SetEvictable
  rw [if_neg (SetEvictable_guard_of_tracked h)]
  rfl

theorem SetEvictable_tracked_false {r : LRUKReplacer} {fid : FrameId}
    (h : fid ∈ r.trackedKeys) :
    r.SetEvictable fid false =
      { r with clock := r.clock + 1,
               evictable := removeAll r.evictable fid } := by
  unfold LRUKReplacer.SetEvictable
  rw [if_neg (SetEvictable_guard_of_tracked h)]
  rfl

theorem Evict_eq (r : LRUKReplacer) :
    r.Evict =
      (if r.preliminary_queue = [] ∧ r.lru_cache_queue = [] then
        (none, { r with clock := r.clock + 1 })
      else if (lookupKey r.preliminary_queue
                 (scanQueue r.evictable r.preliminary_queue (-1, r.clock + 1)).1).isSome then
        (some (scanQueue r.evictable r.preliminary_queue (-1, r.clock + 1)).1,
          { r with clock := r.clock + 1,
                   preliminary_queue := eraseKey r.preliminary_queue
                     (scanQueue r.evictable r.preliminary_queue (-1, r.clock + 1)).1,
                   evictable := removeAll r.evictable
                     (scanQueue r.evictable r.preliminary_queue (-1, r.clock + 1)).1 })
      else if (scanQueue r.evictable r.lru_cache_queue
                 (scanQueue r.evictable r.preliminary_queue (-1, r.clock + 1))).1 ≠ -1 then
        (some (scanQueue r.evictable r.lru_cache_queue
                 (scanQueue r.evictable r.preliminary_queue (-1, r.clock + 1))).1,
          { r with clock := r.clock + 1,
                   lru_cache_queue := eraseKey r.lru_cache_queue
                     (scanQueue r.evictable r.lru_cache_queue
                       (scanQueue r.evictable r.preliminary_queue (-1, r.clock + 1))).1,
                   evictable := removeAll r.evictable
                     (scanQueue r.evictable r.lru_cache_queue
                       (scanQueue r.evictable r.preliminary_queue (-1, r.clock + 1))).1 })
      else (none, { r with clock := r.clock + 1 })) := rfl

theorem Evict_none_state {r r' : LRUKReplacer} (h : r.Evict = (none, r')) :
    r' = { r with clock := r.clock + 1 } := by
  rw [Evict_eq] at h
  by_cases h1 : r.preliminary_queue = [] ∧ r.lru_cache_queue = []
  · rw [if_pos h1] at h
    simp only [Prod.mk.injEq] at h
    exact h.2.symm
  · rw [if_neg h1] at h
    by_cases h2 : (lookupKey r.preliminary_queue
        (scanQueue r.evictable r.preliminary_queue (-1, r.clock + 1)).1).isSome
    · rw [if_pos h2] at h
      simp only [Prod.mk.injEq] at h
      exact absurd h.1 (by simp)
    · rw [if_neg h2] at h
      by_cases h3 : (scanQueue r.evictable r.lru_cache_queue
          (scanQueue r.evictable r.preliminary_queue (-1, r.clock + 1))).1 ≠ -1
      · rw [if_pos h3] at h
        simp only [Prod.mk.injEq] at h
        exact absurd h.1 (by simp)
      · rw [if_neg h3] at h
        simp only [Prod.mk.injEq] at h
        exact h.2.symm

theorem Evict_some_cases {r r' : LRUKReplacer} {f : FrameId}
    (hp1 : -1 ∉ keysOf r.preliminary_queue)
    (h : r.Evict = (some f, r')) :
    f ∈ r.evictable ∧
    ((∃ hh, (f, hh) ∈ r.preliminary_queue ∧
        r' = { r with
                clock := r.clock + 1,
                preliminary_queue := eraseKey r.preliminary_queue f,
                evictable := removeAll r.evictable f }) ∨
     (∃ hh, (f, hh) ∈ r.lru_cache_queue ∧
        r' = { r with
                clock := r.clock + 1,
                lru_cache_queue := eraseKey r.lru_cache_queue f,
                evictable := removeAll r.evictable f })) := by
  rw [Evict_eq] at h
  by_cases h1 : r.preliminary_queue = [] ∧ r.lru_cache_queue = []
  · rw [if_pos h1] at h
    simp only [Prod.mk.injEq] at h
    exact absurd h.1 (by simp)
  · rw [if_neg h1] at h
    by_cases h2 : (lookupKey r.preliminary_queue
        (scanQueue r.evictable r.preliminary_queue (-1, r.clock + 1)).1).isSome
    · rw [if_pos h2] at h
      simp only [Prod.mk.injEq, Option.some.injEq] at h
      obtain ⟨hf, hr'⟩ := h
      obtain ⟨hcase, _, _⟩ := scanQueue_spec r.evictable r.preliminary_queue (-1, r.clock + 1)
      rcases hcase with hacc | ⟨hev, hh, hmem, hfr⟩
      · exfalso
        rw [hacc] at h2
        exact hp1 ((lookupKey_isSome _ _).1 h2)
      · rw [hf] at hev hmem hr'
        exact ⟨hev, Or.inl ⟨hh, hmem, hr'.symm⟩⟩
    · rw [if_neg h2] at h
      by_cases h3 : (scanQueue r.evictable r.lru_cache_queue
          (scanQueue r.evictable r.preliminary_queue (-1, r.clock + 1))).1 ≠ -1
      · rw [if_pos h3] at h
        simp only [Prod.mk.injEq, Option.some.injEq] at h
        obtain ⟨hf, hr'⟩ := h
        obtain ⟨hcase, _, _⟩ :=
          scanQueue_spec r.evictable r.lru_cache_queue
            (scanQueue r.evictable r.preliminary_queue (-1, r.clock + 1))
        rcases hcase with hacc | ⟨hev, hh, hmem, hfr⟩
        · exfalso
          obtain ⟨hcase0, _, _⟩ :=
            scanQueue_spec r.evictable r.preliminary_queue (-1, r.clock + 1)
          rcases hcase0 with hacc0 | ⟨hev0, hh0, hmem0, hfr0⟩
          · rw [hacc, hacc0] at h3
            exact h3 rfl
          · exact h2 (mem_lookupKey_isSome hmem0)
        · rw [hf] at hev hmem hr'
          exact ⟨hev, Or.inr ⟨hh, hmem, hr'.symm⟩⟩
      · rw [if_neg h3] at h
        simp only [Prod.mk.injEq] at h
        exact absurd h.1 (by simp)

theorem Evict_success {r : LRUKReplacer}
    (hp1 : -1 ∉ keysOf r.preliminary_queue)
    (hp2 : -1 ∉ keysOf r.lru_cache_queue)
    (hfronts : ∀ e ∈ r.preliminary_queue ++ r.lru_cache_queue, front e.2 < r.clock + 1)
    {f : FrameId}
    (hf_ev : f ∈ r.evictable) (hf_tr : f ∈ r.trackedKeys) :
    ∃ g r', r.Evict = (some g, r') := by
  rw [Evict_eq]
  have h1 : ¬(r.preliminary_queue = [] ∧ r.lru_cache_queue = []) := by
    rintro ⟨ha, hb⟩
    rcases List.mem_append.1 hf_tr with hc | hc
    · rw [ha] at hc; simp [keysOf] at hc
    · rw [hb] at hc; simp [keysOf] at hc
  rw [if_neg h1]
  by_cases h2 : (lookupKey r.preliminary_queue
      (scanQueue r.evictable r.preliminary_queue (-1, r.clock + 1)).1).isSome
  · rw [if_pos h2]
    exact ⟨_, _, rfl⟩
  · rw [if_neg h2]
    have hpacc : scanQueue r.evictable r.preliminary_queue (-1, r.clock + 1) =
        (-1, r.clock + 1) := by
      obtain ⟨hcase, _, _⟩ := scanQueue_spec r.evictable r.preliminary_queue (-1, r.clock + 1)
      rcases hcase with hacc | ⟨hev, hh, hmem, hfr⟩
      · exact hacc
      · exact absurd (mem_lookupKey_isSome hmem) h2
    have hf_cache : f ∈ keysOf r.lru_cache_queue := by
      rcases List.mem_append.1 hf_tr with hc | hc
      · exfalso
        obtain ⟨v, hv⟩ := mem_keysOf.1 hc
        obtain ⟨_, _, hall⟩ := scanQueue_spec r.evictable r.preliminary_queue (-1, r.clock + 1)
        have hlt : front v < r.clock + 1 :=
          hfronts (f, v) (List.mem_append.2 (Or.inl hv))
        have hle := hall (f, v) hv hf_ev
        rw [hpacc] at hle
        exact absurd (Nat.lt_of_le_of_lt hle hlt) (Nat.lt_irrefl _)
      · exact hc
    obtain ⟨v, hv⟩ := mem_keysOf.1 hf_cache
    have h3 : (scanQueue r.evictable r.lru_cache_queue
        (scanQueue r.evictable r.preliminary_queue (-1, r.clock + 1))).1 ≠ -1 := by
      obtain ⟨hcase, _, hall⟩ :=
        scanQueue_spec r.evictable r.lru_cache_queue
          (scanQueue r.evictable r.preliminary_queue (-1, r.clock + 1))
      have hlt : front v < r.clock + 1 :=
        hfronts (f, v) (List.mem_append.2 (Or.inr hv))
      have hle := hall (f, v) hv hf_ev
      rcases hcase with hacc | ⟨hev, hh, hmem, hfr⟩
      · exfalso
        rw [hacc, hpacc] at hle
        exact absurd (Nat.lt_of_le_of_lt hle hlt) (Nat.lt_irrefl _)
      · intro hne
        rw [hne] at hmem
        exact hp2 (mem_keysOf.2 ⟨hh, hmem⟩)
    rw [if_pos h3]
    exact ⟨_, _, rfl⟩

/-! Characterization lemmas for the buffer pool operations. -/

theorem setPageAt_setPageAt (s : BufferPoolManagerInstance) (f : FrameId) (p q : Page) :
    setPageAt (setPageAt s f p) f q = setPageAt s f q := by
  by_cases h0 : 0 ≤ f
  · simp [setPageAt, h0, List.set_set]
  · simp [setPageAt, h0]

theorem pickFrame_free {s : BufferPoolManagerInstance} {c : FrameId} {rest : List FrameId}
    (h : s.free_list = c :: rest) :
    pickFrame s = (c, { s with free_list := rest }) := by
  unfold pickFrame
  rw [h]

theorem pickFrame_evict {s : BufferPoolManagerInstance} (h : s.free_list = []) :
    pickFrame s = evictAndPrepare s := by
  unfold pickFrame
  rw [h]

theorem evictAndPrepare_spec {s : BufferPoolManagerInstance} {e : FrameId}
    {rep' : LRUKReplacer} (hev : s.replacer.Evict = (some e, rep'))
    (h0 : 0 ≤ e) (hlen : e.toNat < s.pages.length) :
    evictAndPrepare s =
      (e, { s with
             replacer := rep',
             pages := s.pages.set e.toNat
               { getPageAt s e with is_dirty := false, data := zeroPageData },
             disk := if (getPageAt s e).is_dirty then
                 setKey s.disk (getPageAt s e).page_id (getPageAt s e).data
               else s.disk,
             trace := if (getPageAt s e).is_dirty then
                 s.trace ++ [DiskEvent.write (getPageAt s e).page_id (getPageAt s e).data]
               else s.trace,
             page_table := eraseKey s.page_table (getPageAt s e).page_id }) := by
  have hpg : getPageAt { s with replacer := rep' } e = getPageAt s e := rfl
  unfold evictAndPrepare
  rw [hev]
  simp only [Option.getD_some, hpg]
  by_cases hd : (getPageAt s e).is_dirty
  · rw [if_pos hd, if_pos hd, if_pos hd]
    have hstep : getPageAt
        (setPageAt
          { s with replacer := rep',
                   disk := setKey s.disk (getPageAt s e).page_id (getPageAt s e).data,
                   trace := s.trace ++
                     [DiskEvent.write (getPageAt s e).page_id (getPageAt s e).data] }
          e { getPageAt s e with is_dirty := false }) e =
        { getPageAt s e with is_dirty := false } :=
      getPageAt_setPageAt_self _ h0 hlen
    rw [hstep, setPageAt_setPageAt]
    simp [setPageAt, h0, Page.ResetMemory]
  · rw [if_neg hd, if_neg hd, if_neg hd]
    have hqe : (getPageAt { s with replacer := rep' } e).ResetMemory =
        { getPageAt s e with is_dirty := false, data := zeroPageData } := by
      rw [hpg]
      have : (getPageAt s e).is_dirty = false := Bool.eq_false_iff.2 hd
      simp [Page.ResetMemory, ← this]
    rw [hqe]
    simp [setPageAt, h0]

theorem installPage_eq (s : BufferPoolManagerInstance) (fid : FrameId) (pid : PageId) :
    installPage s fid pid =
      setPageAt { s with page_table := emplaceKey s.page_table pid fid } fid
        { getPageAt s fid with page_id := pid, pin_count := 1 } := rfl

theorem finishInstall_pages (s : BufferPoolManagerInstance) (fid : FrameId) :
    (finishInstall s fid).pages = s.pages := rfl

theorem finishInstall_page_table (s : BufferPoolManagerInstance) (fid : FrameId) :
    (finishInstall s fid).page_table = s.page_table := rfl

theorem finishInstall_free_list (s : BufferPoolManagerInstance) (fid : FrameId) :
    (finishInstall s fid).free_list = s.free_list := rfl

theorem finishInstall_replacer (s : BufferPoolManagerInstance) (fid : FrameId) :
    (finishInstall s fid).replacer = (s.replacer.RecordAccess fid).SetEvictable fid false := rfl

theorem finishInstall_next_page_id (s : BufferPoolManagerInstance) (fid : FrameId) :
    (finishInstall s fid).next_page_id = s.next_page_id := rfl

theorem finishInstall_disk (s : BufferPoolManagerInstance) (fid : FrameId) :
    (finishInstall s fid).disk = s.disk := rfl

theorem finishInstall_trace (s : BufferPoolManagerInstance) (fid : FrameId) :
    (finishInstall s fid).trace = s.trace := rfl

theorem finishInstall_pool_size (s : BufferPoolManagerInstance) (fid : FrameId) :
    (finishInstall s fid).pool_size = s.pool_size := rfl

theorem NewPgImp_fail {s : BufferPoolManagerInstance} (h : numFreePages s = 0) :
    NewPgImp s = (none, s) := by
  unfold NewPgImp
  rw [if_pos h]

theorem NewPgImp_succeed {s : BufferPoolManagerInstance} (h : ¬ numFreePages s = 0) :
    NewPgImp s =
      (some (s.next_page_id,
             (pickFrame { s with next_page_id := s.next_page_id + 1 }).1),
       finishInstall
         (installPage (pickFrame { s with next_page_id := s.next_page_id + 1 }).2
           (pickFrame { s with next_page_id := s.next_page_id + 1 }).1 s.next_page_id)
         (pickFrame { s with next_page_id := s.next_page_id + 1 }).1) := by
  unfold NewPgImp
  rw [if_neg h]

theorem FetchPgImp_hit {s : BufferPoolManagerInstance} {pid : PageId} {fid : FrameId}
    (h : lookupKey s.page_table pid = some fid) :
    FetchPgImp s pid =
      (some fid,
       finishInstall
         (setPageAt s fid
           { getPageAt s fid with pin_count := (getPageAt s fid).pin_count + 1 }) fid) := by
  unfold FetchPgImp
  rw [h]

theorem FetchPgImp_fail {s : BufferPoolManagerInstance} {pid : PageId}
    (h : lookupKey s.page_table pid = none) (hn : numFreePages s = 0) :
    FetchPgImp s pid = (none, s) := by
  unfold FetchPgImp
  rw [h, if_pos hn]

theorem FetchPgImp_miss {s : BufferPoolManagerInstance} {pid : PageId}
    (h : lookupKey s.page_table pid = none) (hn : ¬ numFreePages s = 0) :
    FetchPgImp s pid =
      (some (pickFrame s).1,
       finishInstall
         (setPageAt
           { installPage (pickFrame s).2 (pickFrame s).1 pid with
              trace := (installPage (pickFrame s).2 (pickFrame s).1 pid).trace ++
                [DiskEvent.read pid] }
           (pickFrame s).1
           { getPageAt (installPage (pickFrame s).2 (pickFrame s).1 pid) (pickFrame s).1 with
              data := readDisk (installPage (pickFrame s).2 (pickFrame s).1 pid).disk pid })
         (pickFrame s).1) := by
  unfold FetchPgImp
  rw [h, if_neg hn]
  rfl

theorem UnpinPgImp_not_resident {s : BufferPoolManagerInstance} {pid : PageId}
    (d : Bool) (h : lookupKey s.page_table pid = none) :
    UnpinPgImp s pid d = (false, s) := by
  unfold UnpinPgImp
  rw [h]

theorem UnpinPgImp_zero {s : BufferPoolManagerInstance} {pid : PageId} {fid : FrameId}
    (d : Bool) (h : lookupKey s.page_table pid = some fid)
    (hp : (getPageAt s fid).pin_count ≤ 0) :
    UnpinPgImp s pid d = (false, s) := by
  unfold UnpinPgImp
  rw [h]
  simp only [if_pos hp]

theorem UnpinPgImp_pos {s : BufferPoolManagerInstance} {pid : PageId} {fid : FrameId}
    (d : Bool) (h : lookupKey s.page_table pid = some fid)
    (hp : ¬ (getPageAt s fid).pin_count ≤ 0) :
    UnpinPgImp s pid d =
      (true,
       if (getPageAt s fid).pin_count - 1 = 0 then
         { setPageAt s fid
             { getPageAt s fid with is_dirty := d || (getPageAt s fid).is_dirty,
                                    pin_count := (getPageAt s fid).pin_count - 1 } with
            replacer := s.replacer.SetEvictable fid true }
       else
         setPageAt s fid
           { getPageAt s fid with is_dirty := d || (getPageAt s fid).is_dirty,
                                  pin_count := (getPageAt s fid).pin_count - 1 }) := by
  unfold UnpinPgImp
  rw [h]
  simp only [if_neg hp]
  have hpage : (if d then { getPageAt s fid with is_dirty := d } else getPageAt s fid) =
      { getPageAt s fid with is_dirty := d || (getPageAt s fid).is_dirty } := by
    cases d <;> simp
  rw [hpage]
  have hrep : (setPageAt s fid
      { getPageAt s fid with is_dirty := d || (getPageAt s fid).is_dirty,
                             pin_count := (getPageAt s fid).pin_count - 1 }).replacer =
      s.replacer := setPageAt_replacer _ _ _
  by_cases hz : (getPageAt s fid).pin_count - 1 = 0
  · rw [if_pos hz, if_pos hz, hrep]
  · rw [if_neg hz, if_neg hz]

theorem FlushPgImp_invalid (s : BufferPoolManagerInstance) :
    FlushPgImp s (-1) = (false, s) := by
  unfold FlushPgImp
  rw [if_pos rfl]

theorem FlushPgImp_not_resident {s : BufferPoolManagerInstance} {pid : PageId}
    (h0 : ¬ pid = -1) (h : lookupKey s.page_table pid = none) :
    FlushPgImp s pid = (false, s) := by
  unfold FlushPgImp
  rw [if_neg h0, h]

theorem FlushPgImp_resident {s : BufferPoolManagerInstance} {pid : PageId} {fid : FrameId}
    (h0 : ¬ pid = -1) (h : lookupKey s.page_table pid = some fid) :
    FlushPgImp s pid =
      (true, { s with disk := setKey s.disk pid (getPageAt s fid).data,
                      trace := s.trace ++ [DiskEvent.write pid (getPageAt s fid).data] }) := by
  unfold FlushPgImp
  rw [if_neg h0, h]

theorem DeletePgImp_not_resident {s : BufferPoolManagerInstance} {pid : PageId}
    (h : lookupKey s.page_table pid = none) :
    DeletePgImp s pid = (true, s) := by
  unfold DeletePgImp
  rw [h]

theorem DeletePgImp_pinned {s : BufferPoolManagerInstance} {pid : PageId} {fid : FrameId}
    (h : lookupKey s.page_table pid = some fid)
    (hp : 0 < (getPageAt s fid).pin_count) :
    DeletePgImp s pid = (false, s) := by
  unfold DeletePgImp
  rw [h]
  simp only [if_pos hp]

theorem DeletePgImp_ok {s : BufferPoolManagerInstance} {pid : PageId} {fid : FrameId}
    (h : lookupKey s.page_table pid = some fid)
    (hp : ¬ 0 < (getPageAt s fid).pin_count) (h0 : 0 ≤ fid) :
    DeletePgImp s pid =
      (true, { s with
                replacer := s.replacer.Remove fid,
                pages := s.pages.set fid.toNat defaultPage,
                page_table := eraseKey s.page_table pid,
                free_list := s.free_list ++ [fid],
                trace := s.trace ++ [DiskEvent.deallocate pid] }) := by
  unfold DeletePgImp
  rw [h]
  simp only [if_neg hp]
  simp [setPageAt, h0, defaultPage, INVALID_PAGE_ID]

/-! Effect of RecordAccess and SetEvictable on tracked keys, histories and key
distinctness. -/

theorem trackedKeys_RecordAccess {r : LRUKReplacer} {fid : FrameId}
    (hrej : ¬((r.replacer_size : Int) ≤ fid ∨ fid = -1)) (g : FrameId) :
    g ∈ (r.RecordAccess fid).trackedKeys ↔ (g = fid ∨ g ∈ r.trackedKeys) := by
  rcases hc : lookupKey r.lru_cache_queue fid with _ | hh
  · by_cases hk : r.k ≤ (((lookupKey r.preliminary_queue fid).getD []) ++ [r.clock]).length
    · rw [RecordAccess_promote hrej hc hk]
      simp only [LRUKReplacer.trackedKeys, List.mem_append, mem_keysOf_eraseKey,
        mem_keysOf_setKey]
      constructor
      · rintro (⟨h1, h2⟩ | (rfl | h1))
        · exact Or.inr (Or.inl h1)
        · exact Or.inl rfl
        · exact Or.inr (Or.inr h1)
      · rintro (rfl | h1)
        · exact Or.inr (Or.inl rfl)
        · rcases h1 with h2 | h2
          · by_cases hg : g = fid
            · exact Or.inr (Or.inl hg)
            · exact Or.inl ⟨h2, hg⟩
          · exact Or.inr (Or.inr h2)
    · rw [RecordAccess_prelim hrej hc hk]
      simp only [LRUKReplacer.trackedKeys, List.mem_append, mem_keysOf_setKey]
      constructor
      · rintro ((rfl | h1) | h1)
        · exact Or.inl rfl
        · exact Or.inr (Or.inl h1)
        · exact Or.inr (Or.inr h1)
      · rintro (rfl | h1)
        · exact Or.inl (Or.inl rfl)
        · rcases h1 with h2 | h2
          · exact Or.inl (Or.inr h2)
          · exact Or.inr h2
  · rw [RecordAccess_cache hrej hc]
    have hfidc : fid ∈ keysOf r.lru_cache_queue :=
      (lookupKey_isSome _ _).1 (by rw [hc]; rfl)
    simp only [LRUKReplacer.trackedKeys, List.mem_append, mem_keysOf_setKey]
    constructor
    · rintro (h1 | (rfl | h1))
      · exact Or.inr (Or.inl h1)
      · exact Or.inl rfl
      · exact Or.inr (Or.inr h1)
    · rintro (rfl | h1)
      · exact Or.inr (Or.inl rfl)
      · rcases h1 with h2 | h2
        · exact Or.inl h2
        · exact Or.inr (Or.inr h2)

theorem hist_wf_RecordAccess {r : LRUKReplacer}
    (hw : ∀ e ∈ r.preliminary_queue ++ r.lru_cache_queue,
      e.2 ≠ [] ∧ ∀ t ∈ e.2, t < r.clock) (fid : FrameId) :
    ∀ e ∈ (r.RecordAccess fid).preliminary_queue ++ (r.RecordAccess fid).lru_cache_queue,
      e.2 ≠ [] ∧ ∀ t ∈ e.2, t < (r.RecordAccess fid).clock := by
  have hnew : ∀ (h0 : AccessHistory), (∀ t ∈ h0, t < r.clock) →
      (h0 ++ [r.clock] ≠ [] ∧ ∀ t ∈ h0 ++ [r.clock], t < r.clock + 1) := by
    intro h0 hts
    refine ⟨by simp, fun t ht => ?_⟩
    rcases List.mem_append.1 ht with ht | ht
    · exact Nat.lt_succ_of_lt (hts t ht)
    · simp only [List.mem_singleton] at ht
      subst ht
      exact Nat.lt_succ_self _
  by_cases hrej : (r.replacer_size : Int) ≤ fid ∨ fid = -1
  · rw [RecordAccess_reject hrej]
    exact hw
  · rcases hc : lookupKey r.lru_cache_queue fid with _ | hh
    · by_cases hk : r.k ≤ (((lookupKey r.preliminary_queue fid).getD []) ++ [r.clock]).length
      · rw [RecordAccess_promote hrej hc hk]
        intro e he
        rcases List.mem_append.1 he with he | he
        · have := (mem_eraseKey _ _ _).1 he
          have h1 := hw e (List.mem_append.2 (Or.inl this.1))
          exact ⟨h1.1, fun t ht => Nat.lt_succ_of_lt (h1.2 t ht)⟩
        · rcases (mem_setKey _ _ _ _).1 he with he | he
          · subst he
            refine hnew _ ?_
            rcases hl : lookupKey r.preliminary_queue fid with _ | h0
            · simp
            · intro t ht
              simp only [hl, Option.getD_some] at ht
              exact (hw (fid, h0)
                (List.mem_append.2 (Or.inl (lookupKey_some_mem hl)))).2 t ht
          · have h1 := hw e (List.mem_append.2 (Or.inr he.1))
            exact ⟨h1.1, fun t ht => Nat.lt_succ_of_lt (h1.2 t ht)⟩
      · rw [RecordAccess_prelim hrej hc hk]
        intro e he
        rcases List.mem_append.1 he with he | he
        · rcases (mem_setKey _ _ _ _).1 he with he | he
          · subst he
            refine hnew _ ?_
            rcases hl : lookupKey r.preliminary_queue fid with _ | h0
            · simp
            · intro t ht
              simp only [hl, Option.getD_some] at ht
              exact (hw (fid, h0)
                (List.mem_append.2 (Or.inl (lookupKey_some_mem hl)))).2 t ht
          · have h1 := hw e (List.mem_append.2 (Or.inl he.1))
            exact ⟨h1.1, fun t ht => Nat.lt_succ_of_lt (h1.2 t ht)⟩
        · have h1 := hw e (List.mem_append.2 (Or.inr he))
          exact ⟨h1.1, fun t ht => Nat.lt_succ_of_lt (h1.2 t ht)⟩
    · rw [RecordAccess_cache hrej hc]
      intro e he
      rcases List.mem_append.1 he with he | he
      · have h1 := hw e (List.mem_append.2 (Or.inl he))
        exact ⟨h1.1, fun t ht => Nat.lt_succ_of_lt (h1.2 t ht)⟩
      · rcases (mem_setKey _ _ _ _).1 he with he | he
        · subst he
          refine hnew _ ?_
          intro t ht
          exact (hw (fid, hh)
            (List.mem_append.2 (Or.inr (lookupKey_some_mem hc)))).2 t
            (List.mem_of_mem_tail ht)
        · have h1 := hw e (List.mem_append.2 (Or.inr he.1))
          exact ⟨h1.1, fun t ht => Nat.lt_succ_of_lt (h1.2 t ht)⟩

theorem nodup_RecordAccess {r : LRUKReplacer} (fid : FrameId)
    (hp : (keysOf r.preliminary_queue).Nodup) (hc : (keysOf r.lru_cache_queue).Nodup) :
    (keysOf (r.RecordAccess fid).preliminary_queue).Nodup ∧
    (keysOf (r.RecordAccess fid).lru_cache_queue).Nodup := by
  by_cases hrej : (r.replacer_size : Int) ≤ fid ∨ fid = -1
  · rw [RecordAccess_reject hrej]
    exact ⟨hp, hc⟩
  · rcases hcq : lookupKey r.lru_cache_queue fid with _ | hh
    · by_cases hk : r.k ≤ (((lookupKey r.preliminary_queue fid).getD []) ++ [r.clock]).length
      · rw [RecordAccess_promote hrej hcq hk]
        exact ⟨nodup_keysOf_eraseKey fid hp, nodup_keysOf_setKey fid _ hc⟩
      · rw [RecordAccess_prelim hrej hcq hk]
        exact ⟨nodup_keysOf_setKey fid _ hp, hc⟩
    · rw [RecordAccess_cache hrej hcq]
      exact ⟨hp, nodup_keysOf_setKey fid _ hc⟩

theorem disjoint_RecordAccess {r : LRUKReplacer} (fid : FrameId)
    (hd : ∀ f ∈ keysOf r.preliminary_queue, f ∉ keysOf r.lru_cache_queue) :
    ∀ f ∈ keysOf (r.RecordAccess fid).preliminary_queue,
      f ∉ keysOf (r.RecordAccess fid).lru_cache_queue := by
  by_cases hrej : (r.replacer_size : Int) ≤ fid ∨ fid = -1
  · rw [RecordAccess_reject hrej]
    exact hd
  · rcases hcq : lookupKey r.lru_cache_queue fid with _ | hh
    · have hfid_nc : fid ∉ keysOf r.lru_cache_queue := (lookupKey_eq_none _ _).1 hcq
      by_cases hk : r.k ≤ (((lookupKey r.preliminary_queue fid).getD []) ++ [r.clock]).length
      · rw [RecordAccess_promote hrej hcq hk]
        intro f hf
        rw [mem_keysOf_eraseKey] at hf
        rw [mem_keysOf_setKey]
        rintro (rfl | h2)
        · exact hf.2 rfl
        · exact hd f hf.1 h2
      · rw [RecordAccess_prelim hrej hcq hk]
        intro f hf
        rw [mem_keysOf_setKey] at hf
        rcases hf with rfl | hf
        · exact hfid_nc
        · exact hd f hf
    · rw [RecordAccess_cache hrej hcq]
      intro f hf hmem
      rw [mem_keysOf_setKey] at hmem
      rcases hmem with rfl | hmem
      · exact hd f hf ((lookupKey_isSome _ _).1 (by rw [hcq]; rfl))
      · exact hd f hf hmem

theorem SetEvictable_queues (r : LRUKReplacer) (fid : FrameId) (b : Bool) :
    (r.SetEvictable fid b).preliminary_queue = r.preliminary_queue ∧
    (r.SetEvictable fid b).lru_cache_queue = r.lru_cache_queue ∧
    (r.SetEvictable fid b).replacer_size = r.replacer_size ∧
    (r.SetEvictable fid b).k = r.k ∧
    (r.SetEvictable fid b).clock = r.clock + 1 := by
  unfold LRUKReplacer.SetEvictable
  dsimp only
  split
  · exact ⟨rfl, rfl, rfl, rfl, rfl⟩
  · split
    · exact ⟨rfl, rfl, rfl, rfl, rfl⟩
    · exact ⟨rfl, rfl, rfl, rfl, rfl⟩

theorem trackedKeys_SetEvictable (r : LRUKReplacer) (fid : FrameId) (b : Bool) :
    (r.SetEvictable fid b).trackedKeys = r.trackedKeys := by
  obtain ⟨h1, h2, _, _, _⟩ := SetEvictable_queues r fid b
  simp [LRUKReplacer.trackedKeys, h1, h2]

theorem SetEvictable_false_evictable {r : LRUKReplacer} {fid : FrameId}
    (h : fid ∈ r.trackedKeys) :
    (r.SetEvictable fid false).evictable = removeAll r.evictable fid := by
  rw [SetEvictable_tracked_false h]

/-! The pool invariant: congruence, flush operations, initial state. -/

theorem PoolInv_congr {s s' : BufferPoolManagerInstance}
    (hps : s'.pool_size = s.pool_size) (hpg : s'.pages = s.pages)
    (hpt : s'.page_table = s.page_table) (hfl : s'.free_list = s.free_list)
    (hrp : s'.replacer = s.replacer) (inv : PoolInv s) : PoolInv s' := by
  have hget : ∀ f, getPageAt s' f = getPageAt s f := getPageAt_pages_congr hpg
  refine ⟨?_, ?_, ?_, ?_, ?_, ?_, ?_, ?_, ?_, ?_, ?_, ?_, ?_, ?_, ?_, ?_, ?_, ?_, ?_⟩
  · rw [hpg, hps]; exact inv.frames_len
  · rw [hrp, hps]; exact inv.rep_size
  · intro e he
    rw [hpt] at he
    rw [hps, hget]
    exact inv.table_frame e he
  · rw [hpt]; exact inv.table_keys_nodup
  · rw [hfl, hps]; exact inv.free_range
  · rw [hfl]; exact inv.free_nodup
  · intro f hf
    rw [hfl] at hf
    rw [hget]
    exact inv.free_default f hf
  · rw [hfl, hrp]; exact inv.free_untracked
  · intro e he
    rw [hpt] at he
    rw [hfl]
    exact inv.resident_not_free e he
  · intro i hi
    rw [hps] at hi
    rw [hget]
    exact inv.pins_nonneg i hi
  · rw [hrp, hps]; exact inv.tracked_range
  · rw [hpt, hrp]; exact inv.resident_tracked
  · rw [hrp]; exact inv.evictable_tracked
  · intro f hf
    rw [hrp] at hf
    rw [hget]
    exact inv.evictable_pin0 f hf
  · intro i hi hp
    rw [hps] at hi
    rw [hget] at hp
    rw [hfl, hrp]
    exact inv.pin0_covered i hi hp
  · rw [hrp]; exact inv.hist_wf
  · rw [hrp]; exact inv.prelim_nodup
  · rw [hrp]; exact inv.cache_nodup
  · rw [hrp]; exact inv.queues_disjoint

theorem FlushPgImp_core (s : BufferPoolManagerInstance) (pid : PageId) :
    (FlushPgImp s pid).2.pool_size = s.pool_size ∧
    (FlushPgImp s pid).2.pages = s.pages ∧
    (FlushPgImp s pid).2.page_table = s.page_table ∧
    (FlushPgImp s pid).2.free_list = s.free_list ∧
    (FlushPgImp s pid).2.replacer = s.replacer ∧
    (FlushPgImp s pid).2.next_page_id = s.next_page_id := by
  by_cases h0 : pid = -1
  · subst h0
    rw [FlushPgImp_invalid]
    exact ⟨rfl, rfl, rfl, rfl, rfl, rfl⟩
  · rcases h : lookupKey s.page_table pid with _ | fid
    · rw [FlushPgImp_not_resident h0 h]
      exact ⟨rfl, rfl, rfl, rfl, rfl, rfl⟩
    · rw [FlushPgImp_resident h0 h]
      exact ⟨rfl, rfl, rfl, rfl, rfl, rfl⟩

theorem flushFold_core (l : List Nat) (s : BufferPoolManagerInstance) :
    (l.foldl (fun s' i => (FlushPgImp s' (getPageAt s' (i : Int)).page_id).2) s).pool_size =
      s.pool_size ∧
    (l.foldl (fun s' i => (FlushPgImp s' (getPageAt s' (i : Int)).page_id).2) s).pages =
      s.pages ∧
    (l.foldl (fun s' i => (FlushPgImp s' (getPageAt s' (i : Int)).page_id).2) s).page_table =
      s.page_table ∧
    (l.foldl (fun s' i => (FlushPgImp s' (getPageAt s' (i : Int)).page_id).2) s).free_list =
      s.free_list ∧
    (l.foldl (fun s' i => (FlushPgImp s' (getPageAt s' (i : Int)).page_id).2) s).replacer =
      s.replacer ∧
    (l.foldl (fun s' i => (FlushPgImp s' (getPageAt s' (i : Int)).page_id).2) s).next_page_id =
      s.next_page_id := by
  induction l generalizing s with
  | nil => exact ⟨rfl, rfl, rfl, rfl, rfl, rfl⟩
  | cons i rest ih =>
      obtain ⟨c1, c2, c3, c4, c5, c6⟩ := ih (FlushPgImp s (getPageAt s (i : Int)).page_id).2
      obtain ⟨d1, d2, d3, d4, d5, d6⟩ := FlushPgImp_core s (getPageAt s (i : Int)).page_id
      exact ⟨c1.trans d1, c2.trans d2, c3.trans d3, c4.trans d4, c5.trans d5, c6.trans d6⟩

theorem FlushAllPgsImp_core (s : BufferPoolManagerInstance) :
    (FlushAllPgsImp s).pool_size = s.pool_size ∧
    (FlushAllPgsImp s).pages = s.pages ∧
    (FlushAllPgsImp s).page_table = s.page_table ∧
    (FlushAllPgsImp s).free_list = s.free_list ∧
    (FlushAllPgsImp s).replacer = s.replacer ∧
    (FlushAllPgsImp s).next_page_id = s.next_page_id := by
  unfold FlushAllPgsImp
  exact flushFold_core (List.range s.pool_size) s

theorem getD_replicate {α : Type} (n i : Nat) (a d : α) (h : i < n) :
    (List.replicate n a).getD i d = a := by
  induction n generalizing i with
  | zero => cases h
  | succ m ih =>
      rw [List.replicate_succ]
      cases i with
      | zero => rfl
      | succ j =>
          simp only [List.getD, List.getElem?_cons_succ]
          have := ih j (Nat.lt_of_succ_lt_succ h)
          simpa [List.getD] using this

theorem toNat_lt_of_int_lt {f : FrameId} {ps : Nat} (h0 : 0 ≤ f)
    (hlt : f < (ps : Int)) : f.toNat < ps := by
  have h3 : ((f.toNat : Int)) = f := Int.toNat_of_nonneg h0
  exact_mod_cast h3 ▸ hlt

theorem getPageAt_init (ps k : Nat) (f : FrameId) (h0 : 0 ≤ f)
    (hlt : f < (ps : Int)) : getPageAt (mkBufferPool ps k) f = defaultPage := by
  simp only [getPageAt, mkBufferPool, if_pos h0]
  exact getD_replicate _ _ _ _ (toNat_lt_of_int_lt h0 hlt)

theorem mem_init_free_list {ps k : Nat} {f : FrameId} :
    f ∈ (mkBufferPool ps k).free_list ↔ 0 ≤ f ∧ f < (ps : Int) := by
  show f ∈ (List.range ps).map (fun i => Int.ofNat i) ↔ _
  simp only [List.mem_map, List.mem_range]
  constructor
  · rintro ⟨i, hi, rfl⟩
    constructor
    · exact Int.ofNat_nonneg i
    · exact Int.ofNat_lt.mpr hi
  · rintro ⟨h0, hlt⟩
    refine ⟨f.toNat, toNat_lt_of_int_lt h0 hlt, ?_⟩
    exact_mod_cast Int.toNat_of_nonneg h0

theorem PoolInv_init (ps k : Nat) : PoolInv (mkBufferPool ps k) := by
  refine ⟨?_, ?_, ?_, ?_, ?_, ?_, ?_, ?_, ?_, ?_, ?_, ?_, ?_, ?_, ?_, ?_, ?_, ?_, ?_⟩
  · simp [mkBufferPool]
  · simp [mkBufferPool, LRUKReplacer.mk0]
  · intro e he; simp [mkBufferPool] at he
  · simp [mkBufferPool, keysOf]
  · intro f hf; exact mem_init_free_list.1 hf
  · show ((List.range ps).map (fun i => Int.ofNat i)).Nodup
    refine List.Nodup.map ?_ (List.nodup_range ps)
    intro a b hab
    exact Int.ofNat.inj hab
  · intro f hf
    obtain ⟨h0, hlt⟩ := mem_init_free_list.1 hf
    exact getPageAt_init ps k f h0 hlt
  · intro f hf
    simp [mkBufferPool, LRUKReplacer.mk0, LRUKReplacer.trackedKeys, keysOf]
  · intro e he; simp [mkBufferPool] at he
  · intro i hi
    rw [getPageAt_init ps k _ (Int.ofNat_nonneg i) (by exact_mod_cast hi)]
    simp [defaultPage]
  · intro f hf
    simp [mkBufferPool, LRUKReplacer.mk0, LRUKReplacer.trackedKeys, keysOf] at hf
  · intro e he; simp [mkBufferPool] at he
  · intro f hf; simp [mkBufferPool, LRUKReplacer.mk0] at hf
  · intro f hf; simp [mkBufferPool, LRUKReplacer.mk0] at hf
  · intro i hi hp
    refine Or.inl (mem_init_free_list.2 ⟨Int.ofNat_nonneg i, ?_⟩)
    exact_mod_cast hi
  · intro e he; simp [mkBufferPool, LRUKReplacer.mk0] at he
  · simp [mkBufferPool, LRUKReplacer.mk0, keysOf]
  · simp [mkBufferPool, LRUKReplacer.mk0, keysOf]
  · intro f hf; simp [mkBufferPool, LRUKReplacer.mk0, keysOf] at hf

theorem PoolInvL_init (ps k : Nat) : PoolInvL (mkBufferPool ps k) := by
  refine ⟨?_, ?_, ?_⟩
  · simp [mkBufferPool]
  · intro e he; simp [mkBufferPool] at he
  · intro i hi hne
    exfalso
    apply hne
    rw [getPageAt_init ps k _ (Int.ofNat_nonneg i) (by exact_mod_cast hi)]
    rfl

/-! Frame selection establishes PickOut. -/

theorem front_mem {h : AccessHistory} (hne : h ≠ []) : front h ∈ h := by
  cases h with
  | nil => exact absurd rfl hne
  | cons a t => exact List.mem_cons_self a t

theorem getPageAt_set_self {s s1 : BufferPoolManagerInstance} {f : FrameId} {p : Page}
    (hpg : s1.pages = s.pages.set f.toNat p) (hf0 : 0 ≤ f)
    (hlen : f.toNat < s.pages.length) : getPageAt s1 f = p := by
  simp only [getPageAt, if_pos hf0, hpg]
  exact getD_set_self _ _ _ _ hlen

theorem getPageAt_set_ne {s s1 : BufferPoolManagerInstance} {f : FrameId} {p : Page}
    (hpg : s1.pages = s.pages.set f.toNat p) (hf0 : 0 ≤ f) {g : FrameId} (hg : g ≠ f) :
    getPageAt s1 g = getPageAt s g := by
  by_cases hg0 : 0 ≤ g
  · simp only [getPageAt, if_pos hg0, hpg]
    refine getD_set_ne _ _ _ _ _ ?_
    intro heq
    apply hg
    have h1 := Int.toNat_of_nonneg hg0
    have h2 := Int.toNat_of_nonneg hf0
    rw [← h1, ← h2, heq]
  · simp only [getPageAt, if_neg hg0]

theorem pickFrame_ok {s : BufferPoolManagerInstance} (inv : PoolInv s)
    (hn : numFreePages s ≠ 0) :
    PickOut s (pickFrame s).2 (pickFrame s).1 := by
  rcases hfl : s.free_list with _ | ⟨c, rest⟩
  · -- free list empty: reclaim by eviction
    obtain ⟨i, hilen, hpin⟩ := numFreePages_ne_zero hn
    have hipool : i < s.pool_size := inv.frames_len ▸ hilen
    have hcov := inv.pin0_covered i hipool hpin
    rw [hfl] at hcov
    have hev_mem : (i : Int) ∈ s.replacer.evictable := by
      rcases hcov with hc | hc
      · cases hc
      · exact hc
    have htr : (i : Int) ∈ s.replacer.trackedKeys := inv.evictable_tracked _ hev_mem
    have hp1 : -1 ∉ keysOf s.replacer.preliminary_queue := by
      intro hmem
      have := inv.tracked_range (-1) (List.mem_append.2 (Or.inl hmem))
      exact absurd this.1 (by decide)
    have hp2 : -1 ∉ keysOf s.replacer.lru_cache_queue := by
      intro hmem
      have := inv.tracked_range (-1) (List.mem_append.2 (Or.inr hmem))
      exact absurd this.1 (by decide)
    have hfronts : ∀ e ∈ s.replacer.preliminary_queue ++ s.replacer.lru_cache_queue,
        front e.2 < s.replacer.clock + 1 := by
      intro e he
      obtain ⟨hne, hts⟩ := inv.hist_wf e he
      exact Nat.lt_succ_of_lt (hts _ (front_mem hne))
    obtain ⟨e, rep', hev⟩ := Evict_success hp1 hp2 hfronts hev_mem htr
    obtain ⟨he_ev, hcases⟩ := Evict_some_cases hp1 hev
    have he_tr : e ∈ s.replacer.trackedKeys := inv.evictable_tracked e he_ev
    have he_range := inv.tracked_range e he_tr
    have he_len : e.toNat < s.pages.length := by
      rw [inv.frames_len]
      exact toNat_lt_of_int_lt he_range.1 he_range.2
    rw [pickFrame_evict hfl, evictAndPrepare_spec hev he_range.1 he_len]
    dsimp only
    have hpgset : ({ s with
        replacer := rep',
        pages := s.pages.set e.toNat
          { getPageAt s e with is_dirty := false, data := zeroPageData },
        disk := if (getPageAt s e).is_dirty then
            setKey s.disk (getPageAt s e).page_id (getPageAt s e).data
          else s.disk,
        trace := if (getPageAt s e).is_dirty then
            s.trace ++ [DiskEvent.write (getPageAt s e).page_id (getPageAt s e).data]
          else s.trace,
        page_table := eraseKey s.page_table (getPageAt s e).page_id } :
        BufferPoolManagerInstance).pages =
        s.pages.set e.toNat
          { getPageAt s e with is_dirty := false, data := zeroPageData } := rfl
    have hfid_self := getPageAt_set_self hpgset he_range.1 he_len
    have hfid_ne := fun {g : FrameId} (hg : g ≠ e) => getPageAt_set_ne hpgset he_range.1 hg
    -- replacer facts shared by the two Evict cases
    have hrep_facts :
        rep'.replacer_size = s.replacer.replacer_size ∧
        (∀ g ∈ rep'.trackedKeys, g ∈ s.replacer.trackedKeys) ∧
        (∀ g ∈ s.replacer.trackedKeys, g ≠ e → g ∈ rep'.trackedKeys) ∧
        rep'.evictable = removeAll s.replacer.evictable e ∧
        (∀ x ∈ rep'.preliminary_queue ++ rep'.lru_cache_queue,
          x.2 ≠ [] ∧ ∀ t ∈ x.2, t < rep'.clock) ∧
        (keysOf rep'.preliminary_queue).Nodup ∧
        (keysOf rep'.lru_cache_queue).Nodup ∧
        (∀ f ∈ keysOf rep'.preliminary_queue, f ∉ keysOf rep'.lru_cache_queue) := by
      rcases hcases with ⟨hh, hmem, rfl⟩ | ⟨hh, hmem, rfl⟩
      · refine ⟨rfl, ?_, ?_, rfl, ?_, nodup_keysOf_eraseKey e inv.prelim_nodup,
          inv.cache_nodup, ?_⟩
        · intro g hg
          rcases List.mem_append.1 hg with hg | hg
          · exact List.mem_append.2 (Or.inl ((mem_keysOf_eraseKey _ _ _).1 hg).1)
          · exact List.mem_append.2 (Or.inr hg)
        · intro g hg hge
          rcases List.mem_append.1 hg with hg | hg
          · exact List.mem_append.2 (Or.inl ((mem_keysOf_eraseKey _ _ _).2 ⟨hg, hge⟩))
          · exact List.mem_append.2 (Or.inr hg)
        · intro x hx
          rcases List.mem_append.1 hx with hx | hx
          · refine inv.hist_wf x (List.mem_append.2 (Or.inl ?_)) |>.imp id
              (fun hts t ht => Nat.lt_succ_of_lt (hts t ht))
            exact ((mem_eraseKey _ _ _).1 hx).1
          · exact (inv.hist_wf x (List.mem_append.2 (Or.inr hx))).imp id
              (fun hts t ht => Nat.lt_succ_of_lt (hts t ht))
        · intro f hf
          rw [mem_keysOf_eraseKey] at hf
          exact inv.queues_disjoint f hf.1
      · refine ⟨rfl, ?_, ?_, rfl, ?_, inv.prelim_nodup,
          nodup_keysOf_eraseKey e inv.cache_nodup, ?_⟩
        · intro g hg
          rcases List.mem_append.1 hg with hg | hg
          · exact List.mem_append.2 (Or.inl hg)
          · exact List.mem_append.2 (Or.inr ((mem_keysOf_eraseKey _ _ _).1 hg).1)
        · intro g hg hge
          rcases List.mem_append.1 hg with hg | hg
          · exact List.mem_append.2 (Or.inl hg)
          · exact List.mem_append.2 (Or.inr ((mem_keysOf_eraseKey _ _ _).2 ⟨hg, hge⟩))
        · intro x hx
          rcases List.mem_append.1 hx with hx | hx
          · exact (inv.hist_wf x (List.mem_append.2 (Or.inl hx))).imp id
              (fun hts t ht => Nat.lt_succ_of_lt (hts t ht))
          · refine inv.hist_wf x (List.mem_append.2 (Or.inr ?_)) |>.imp id
              (fun hts t ht => Nat.lt_succ_of_lt (hts t ht))
            exact ((mem_eraseKey _ _ _).1 hx).1
        · intro f hf hmem2
          rw [mem_keysOf_eraseKey] at hmem2
          exact inv.queues_disjoint f hf hmem2.1
    obtain ⟨hsz, htr_sub, htr_keep, hevq, hhw, hnd1, hnd2, hdisj⟩ := hrep_facts
    refine ⟨he_range.1, he_range.2, rfl, by simp [hpgset], rfl, ?_, ?_, ?_, ?_,
      ?_, ?_, ?_, ?_, ?_, ?_, ?_, ?_, hsz, htr_sub, htr_keep, ?_, ?_, ?_, hhw,
      hnd1, hnd2, hdisj⟩
    · intro g hg
      exact hfid_ne hg
    · rw [hfid_self]
      exact inv.evictable_pin0 e he_ev
    · rw [hfid_self]
    · rw [hfid_self]
    · intro x hx
      exact ((mem_eraseKey _ _ _).1 hx).1
    · intro p hp
      exact ((mem_keysOf_eraseKey _ _ _).1 hp).1
    · intro x hx hx2
      have hx' := (mem_eraseKey _ _ _).1 hx
      have hagree := (inv.table_frame x hx'.1).2.2
      rw [hx2] at hagree
      exact hx'.2 hagree.symm
    · exact nodup_keysOf_eraseKey _ inv.table_keys_nodup
    · intro g hg
      exact hg
    · exact inv.free_nodup
    · intro hmem
      rw [hfl] at hmem
      cases hmem
    · intro g hg hge
      exact hg
    · rw [hevq]
      intro g hg
      exact ((mem_removeAll _ _ _).1 hg).1
    · rw [hevq]
      intro hmem
      exact ((mem_removeAll _ _ _).1 hmem).2 rfl
    · rw [hevq]
      intro g hg hge
      exact (mem_removeAll _ _ _).2 ⟨hg, hge⟩
  · -- free list nonempty: take its front
    rw [pickFrame_free hfl]
    have hc_mem : c ∈ s.free_list := by
      rw [hfl]
      exact List.mem_cons_self c rest
    have hrange := inv.free_range c hc_mem
    have hdef := inv.free_default c hc_mem
    have huntr := inv.free_untracked c hc_mem
    have hnd : (c :: rest).Nodup := hfl ▸ inv.free_nodup
    refine ⟨hrange.1, hrange.2, rfl, rfl, rfl, fun g _ => rfl, ?_, ?_, ?_,
      fun e he => he, fun p hp => hp, ?_, inv.table_keys_nodup, ?_, ?_, ?_, ?_,
      rfl, fun g hg => hg, fun g hg _ => hg, fun g hg => hg, ?_,
      fun g hg _ => hg, inv.hist_wf, inv.prelim_nodup, inv.cache_nodup,
      inv.queues_disjoint⟩
    · show (getPageAt s c).pin_count = 0
      rw [hdef]
      rfl
    · show (getPageAt s c).is_dirty = false
      rw [hdef]
      rfl
    · show (getPageAt s c).data = zeroPageData
      rw [hdef]
      rfl
    · intro e he
      intro he2
      apply inv.resident_not_free e he
      rw [he2]
      exact hc_mem
    · intro g hg
      rw [hfl]
      exact List.mem_cons_of_mem c hg
    · exact (List.nodup_cons.1 hnd).2
    · exact (List.nodup_cons.1 hnd).1
    · intro g hg hgc
      rw [hfl] at hg
      rcases List.mem_cons.1 hg with rfl | hg
      · exact absurd rfl hgc
      · exact hg
    · intro hmem
      exact huntr (inv.evictable_tracked c hmem)

theorem PoolInv_installed {s s1 s2 : BufferPoolManagerInstance} {fid : FrameId}
    {pid : PageId} {d : PageData}
    (inv : PoolInv s) (po : PickOut s s1 fid)
    (h2ps : s2.pool_size = s.pool_size)
    (h2len : s2.pages.length = s.pages.length)
    (h2fid : getPageAt s2 fid =
      { page_id := pid, pin_count := 1, is_dirty := false, data := d })
    (h2other : ∀ g : FrameId, g ≠ fid → getPageAt s2 g = getPageAt s1 g)
    (h2table : s2.page_table = emplaceKey s1.page_table pid fid)
    (h2free : s2.free_list = s1.free_list)
    (h2rep : s2.replacer = (s1.replacer.RecordAccess fid).SetEvictable fid false) :
    PoolInv s2 := by
  have hrej : ¬((s1.replacer.replacer_size : Int) ≤ fid ∨ fid = -1) := by
    rintro (h | h)
    · rw [po.rep_size1, inv.rep_size] at h
      exact absurd po.fid_ub (not_lt.2 h)
    · have := po.fid_lb
      rw [h] at this
      exact absurd this (by decide)
  have htracked2 : ∀ g, g ∈ s2.replacer.trackedKeys ↔
      (g = fid ∨ g ∈ s1.replacer.trackedKeys) := by
    intro g
    rw [h2rep, trackedKeys_SetEvictable]
    exact trackedKeys_RecordAccess hrej g
  have hfid_tr_RA : fid ∈ (s1.replacer.RecordAccess fid).trackedKeys :=
    (trackedKeys_RecordAccess hrej fid).2 (Or.inl rfl)
  have hev2 : s2.replacer.evictable = removeAll s1.replacer.evictable fid := by
    rw [h2rep, SetEvictable_false_evictable hfid_tr_RA, RecordAccess_evictable]
  have hmem2 : ∀ x, x ∈ s2.page_table → x = (pid, fid) ∨ x ∈ s1.page_table := by
    intro x hx
    rw [h2table] at hx
    unfold emplaceKey at hx
    split at hx
    · exact Or.inr hx
    · rcases List.mem_cons.1 hx with rfl | hx
      · exact Or.inl rfl
      · exact Or.inr hx
  have hframe1 : ∀ g : FrameId, g ≠ fid → getPageAt s2 g = getPageAt s g := by
    intro g hg
    rw [h2other g hg, po.frame_other g hg]
  obtain ⟨hq1, hq2, hqsz, _, hclk⟩ :=
    SetEvictable_queues (s1.replacer.RecordAccess fid) fid false
  refine ⟨?_, ?_, ?_, ?_, ?_, ?_, ?_, ?_, ?_, ?_, ?_, ?_, ?_, ?_, ?_, ?_, ?_, ?_, ?_⟩
  · rw [h2len, h2ps]
    exact inv.frames_len
  · rw [h2rep, hqsz, RecordAccess_replacer_size, po.rep_size1, inv.rep_size, h2ps]
  · intro x hx
    rcases hmem2 x hx with rfl | hx1
    · refine ⟨po.fid_lb, by rw [h2ps]; exact po.fid_ub, ?_⟩
      show (getPageAt s2 fid).page_id = pid
      rw [h2fid]
    · have hnf := po.table_not_fid x hx1
      have hs := inv.table_frame x (po.table_sub x hx1)
      refine ⟨hs.1, by rw [h2ps]; exact hs.2.1, ?_⟩
      rw [hframe1 x.2 hnf]
      exact hs.2.2
  · rw [h2table]
    unfold emplaceKey
    split
    · exact po.table_nodup
    · rename_i hns
      have hnone : lookupKey s1.page_table pid = none :=
        Option.not_isSome_iff_eq_none.1 hns
      show (pid :: keysOf s1.page_table).Nodup
      exact List.nodup_cons.2 ⟨(lookupKey_eq_none _ _).1 hnone, po.table_nodup⟩
  · intro f hf
    rw [h2free] at hf
    have := inv.free_range f (po.free_sub f hf)
    exact ⟨this.1, by rw [h2ps]; exact this.2⟩
  · rw [h2free]
    exact po.free_nodup1
  · intro f hf
    rw [h2free] at hf
    have hne : f ≠ fid := fun h => (h ▸ po.free_not_fid) hf
    rw [hframe1 f hne]
    exact inv.free_default f (po.free_sub f hf)
  · intro f hf
    rw [h2free] at hf
    intro htr
    rcases (htracked2 f).1 htr with rfl | htr1
    · exact po.free_not_fid hf
    · exact inv.free_untracked f (po.free_sub f hf) (po.tracked_sub f htr1)
  · intro x hx
    rw [h2free]
    rcases hmem2 x hx with rfl | hx1
    · exact po.free_not_fid
    · intro hmem
      exact inv.resident_not_free x (po.table_sub x hx1) (po.free_sub _ hmem)
  · intro i hi
    by_cases hif : (i : Int) = fid
    · rw [hif, h2fid]
      show (0 : Int) ≤ 1
      decide
    · rw [hframe1 _ hif]
      exact inv.pins_nonneg i (by rw [← h2ps]; exact hi)
  · intro g hg
    rcases (htracked2 g).1 hg with rfl | hg1
    · exact ⟨po.fid_lb, by rw [h2ps]; exact po.fid_ub⟩
    · have := inv.tracked_range g (po.tracked_sub g hg1)
      exact ⟨this.1, by rw [h2ps]; exact this.2⟩
  · intro x hx
    rcases hmem2 x hx with rfl | hx1
    · exact (htracked2 fid).2 (Or.inl rfl)
    · have htrs := inv.resident_tracked x (po.table_sub x hx1)
      have hnf := po.table_not_fid x hx1
      exact (htracked2 x.2).2 (Or.inr (po.tracked_keep x.2 htrs hnf))
  · intro g hg
    rw [hev2] at hg
    obtain ⟨hg1, hgne⟩ := (mem_removeAll _ _ _).1 hg
    have hgs := po.evictable_sub g hg1
    have := inv.evictable_tracked g hgs
    exact (htracked2 g).2 (Or.inr (po.tracked_keep g this hgne))
  · intro g hg
    rw [hev2] at hg
    obtain ⟨hg1, hgne⟩ := (mem_removeAll _ _ _).1 hg
    rw [hframe1 g hgne]
    exact inv.evictable_pin0 g (po.evictable_sub g hg1)
  · intro i hi hp
    by_cases hif : (i : Int) = fid
    · rw [hif, h2fid] at hp
      have hp' : (1 : Int) = 0 := hp
      exact absurd hp' (by decide)
    · rw [hframe1 _ hif] at hp
      rcases inv.pin0_covered i (by rw [← h2ps]; exact hi) hp with hc | hc
      · left
        rw [h2free]
        exact po.free_keep _ hc hif
      · right
        rw [hev2]
        exact (mem_removeAll _ _ _).2 ⟨po.evictable_keep _ hc hif, hif⟩
  · intro x hx
    rw [h2rep, hq1, hq2] at hx
    have hw := hist_wf_RecordAccess po.hist_wf1 fid x hx
    refine ⟨hw.1, fun t ht => ?_⟩
    rw [h2rep, hclk]
    exact Nat.lt_succ_of_lt (hw.2 t ht)
  · rw [h2rep, hq1]
    exact (nodup_RecordAccess fid po.prelim_nodup1 po.cache_nodup1).1
  · rw [h2rep, hq2]
    exact (nodup_RecordAccess fid po.prelim_nodup1 po.cache_nodup1).2
  · rw [h2rep, hq1, hq2]
    exact disjoint_RecordAccess fid po.queues_disjoint1

theorem installed_state_facts (s1 : BufferPoolManagerInstance) (fid : FrameId)
    (pid : PageId) (h0 : 0 ≤ fid) (hlen : fid.toNat < s1.pages.length) :
    (finishInstall (installPage s1 fid pid) fid).pool_size = s1.pool_size ∧
    (finishInstall (installPage s1 fid pid) fid).pages.length = s1.pages.length ∧
    getPageAt (finishInstall (installPage s1 fid pid) fid) fid =
      { getPageAt s1 fid with page_id := pid, pin_count := 1 } ∧
    (∀ g : FrameId, g ≠ fid →
      getPageAt (finishInstall (installPage s1 fid pid) fid) g = getPageAt s1 g) ∧
    (finishInstall (installPage s1 fid pid) fid).page_table =
      emplaceKey s1.page_table pid fid ∧
    (finishInstall (installPage s1 fid pid) fid).free_list = s1.free_list ∧
    (finishInstall (installPage s1 fid pid) fid).replacer =
      (s1.replacer.RecordAccess fid).SetEvictable fid false ∧
    (finishInstall (installPage s1 fid pid) fid).next_page_id = s1.next_page_id ∧
    (finishInstall (installPage s1 fid pid) fid).disk = s1.disk ∧
    (finishInstall (installPage s1 fid pid) fid).trace = s1.trace := by
  rw [installPage_eq]
  have hXpages : ({ s1 with page_table := emplaceKey s1.page_table pid fid } :
      BufferPoolManagerInstance).pages = s1.pages := rfl
  have hget := getPageAt_pages_congr
    (finishInstall_pages (setPageAt { s1 with page_table := emplaceKey s1.page_table pid fid }
      fid { getPageAt s1 fid with page_id := pid, pin_count := 1 }) fid)
  refine ⟨?_, ?_, ?_, ?_, ?_, ?_, ?_, ?_, ?_, ?_⟩
  · rw [finishInstall_pool_size, setPageAt_pool_size]
  · rw [finishInstall_pages, setPageAt_pages_length]
  · rw [hget]
    exact getPageAt_setPageAt_self _ h0 hlen
  · intro g hg
    rw [hget]
    exact getPageAt_setPageAt_ne _ hg
  · rw [finishInstall_page_table, setPageAt_page_table]
  · rw [finishInstall_free_list, setPageAt_free_list]
  · rw [finishInstall_replacer, setPageAt_replacer]
  · rw [finishInstall_next_page_id, setPageAt_next_page_id]
  · rw [finishInstall_disk, setPageAt_disk]
  · rw [finishInstall_trace, setPageAt_trace]

theorem PoolInv_NewPg {s : BufferPoolManagerInstance} (inv : PoolInv s) :
    PoolInv (NewPgImp s).2 := by
  by_cases hn : numFreePages s = 0
  · rw [NewPgImp_fail hn]
    exact inv
  · rw [NewPgImp_succeed hn]
    have inv' : PoolInv { s with next_page_id := s.next_page_id + 1 } :=
      @PoolInv_congr s { s with next_page_id := s.next_page_id + 1 } rfl rfl rfl rfl rfl inv
    have hn' : ¬ numFreePages { s with next_page_id := s.next_page_id + 1 } = 0 := hn
    have po := pickFrame_ok inv' hn'
    have hlen : (pickFrame { s with next_page_id := s.next_page_id + 1 }).1.toNat <
        (pickFrame { s with next_page_id := s.next_page_id + 1 }).2.pages.length := by
      rw [po.pages_len]
      have h2 : ({ s with next_page_id := s.next_page_id + 1 } :
          BufferPoolManagerInstance).pages.length = s.pool_size := inv.frames_len
      rw [h2]
      exact toNat_lt_of_int_lt po.fid_lb po.fid_ub
    obtain ⟨f1, f2, f3, f4, f5, f6, f7, f8, f9, f10⟩ :=
      installed_state_facts (pickFrame { s with next_page_id := s.next_page_id + 1 }).2
        (pickFrame { s with next_page_id := s.next_page_id + 1 }).1 s.next_page_id
        po.fid_lb hlen
    have hf3 : getPageAt
        (finishInstall (installPage (pickFrame { s with next_page_id := s.next_page_id + 1 }).2
          (pickFrame { s with next_page_id := s.next_page_id + 1 }).1 s.next_page_id)
          (pickFrame { s with next_page_id := s.next_page_id + 1 }).1)
        (pickFrame { s with next_page_id := s.next_page_id + 1 }).1 =
        { page_id := s.next_page_id, pin_count := 1, is_dirty := false,
          data := zeroPageData } := by
      rw [f3]
      have heta : getPageAt (pickFrame { s with next_page_id := s.next_page_id + 1 }).2
          (pickFrame { s with next_page_id := s.next_page_id + 1 }).1 =
          { page_id := (getPageAt (pickFrame { s with next_page_id := s.next_page_id + 1 }).2
              (pickFrame { s with next_page_id := s.next_page_id + 1 }).1).page_id,
            pin_count := (getPageAt (pickFrame { s with next_page_id := s.next_page_id + 1 }).2
              (pickFrame { s with next_page_id := s.next_page_id + 1 }).1).pin_count,
            is_dirty := false, data := zeroPageData } := by
        rw [← po.frame_dirty, ← po.frame_data]
      rw [heta]
    refine PoolInv_installed inv' po ?_ ?_ hf3 f4 f5 f6 f7
    · rw [f1, po.pool_size_eq]
    · rw [f2, po.pages_len]

theorem fetch_installed_state_facts (s1 : BufferPoolManagerInstance) (fid : FrameId)
    (pid : PageId) (h0 : 0 ≤ fid) (hlen : fid.toNat < s1.pages.length) :
    (finishInstall
        (setPageAt
          { installPage s1 fid pid with
             trace := (installPage s1 fid pid).trace ++ [DiskEvent.read pid] }
          fid
          { getPageAt (installPage s1 fid pid) fid with
             data := readDisk (installPage s1 fid pid).disk pid }) fid).pool_size =
      s1.pool_size ∧
    (finishInstall
        (setPageAt
          { installPage s1 fid pid with
             trace := (installPage s1 fid pid).trace ++ [DiskEvent.read pid] }
          fid
          { getPageAt (installPage s1 fid pid) fid with
             data := readDisk (installPage s1 fid pid).disk pid }) fid).pages.length =
      s1.pages.length ∧
    getPageAt (finishInstall
        (setPageAt
          { installPage s1 fid pid with
             trace := (installPage s1 fid pid).trace ++ [DiskEvent.read pid] }
          fid
          { getPageAt (installPage s1 fid pid) fid with
             data := readDisk (installPage s1 fid pid).disk pid }) fid) fid =
      { page_id := pid, pin_count := 1, is_dirty := (getPageAt s1 fid).is_dirty,
        data := readDisk s1.disk pid } ∧
    (∀ g : FrameId, g ≠ fid →
      getPageAt (finishInstall
        (setPageAt
          { installPage s1 fid pid with
             trace := (installPage s1 fid pid).trace ++ [DiskEvent.read pid] }
          fid
          { getPageAt (installPage s1 fid pid) fid with
             data := readDisk (installPage s1 fid pid).disk pid }) fid) g =
      getPageAt s1 g) ∧
    (finishInstall
        (setPageAt
          { installPage s1 fid pid with
             trace := (installPage s1 fid pid).trace ++ [DiskEvent.read pid] }
          fid
          { getPageAt (installPage s1 fid pid) fid with
             data := readDisk (installPage s1 fid pid).disk pid }) fid).page_table =
      emplaceKey s1.page_table pid fid ∧
    (finishInstall
        (setPageAt
          { installPage s1 fid pid with
             trace := (installPage s1 fid pid).trace ++ [DiskEvent.read pid] }
          fid
          { getPageAt (installPage s1 fid pid) fid with
             data := readDisk (installPage s1 fid pid).disk pid }) fid).free_list =
      s1.free_list ∧
    (finishInstall
        (setPageAt
          { installPage s1 fid pid with
             trace := (installPage s1 fid pid).trace ++ [DiskEvent.read pid] }
          fid
          { getPageAt (installPage s1 fid pid) fid with
             data := readDisk (installPage s1 fid pid).disk pid }) fid).replacer =
      (s1.replacer.RecordAccess fid).SetEvictable fid false ∧
    (finishInstall
        (setPageAt
          { installPage s1 fid pid with
             trace := (installPage s1 fid pid).trace ++ [DiskEvent.read pid] }
          fid
          { getPageAt (installPage s1 fid pid) fid with
             data := readDisk (installPage s1 fid pid).disk pid }) fid).next_page_id =
      s1.next_page_id ∧
    (finishInstall
        (setPageAt
          { installPage s1 fid pid with
             trace := (installPage s1 fid pid).trace ++ [DiskEvent.read pid] }
          fid
          { getPageAt (installPage s1 fid pid) fid with
             data := readDisk (installPage s1 fid pid).disk pid }) fid).disk = s1.disk ∧
    (finishInstall
        (setPageAt
          { installPage s1 fid pid with
             trace := (installPage s1 fid pid).trace ++ [DiskEvent.read pid] }
          fid
          { getPageAt (installPage s1 fid pid) fid with
             data := readDisk (installPage s1 fid pid).disk pid }) fid).trace =
      s1.trace ++ [DiskEvent.read pid] := by
  have hIlen : (installPage s1 fid pid).pages.length = s1.pages.length := by
    rw [installPage_eq, setPageAt_pages_length]
  have hIfid : getPageAt (installPage s1 fid pid) fid =
      { getPageAt s1 fid with page_id := pid, pin_count := 1 } := by
    rw [installPage_eq]
    exact getPageAt_setPageAt_self _ h0 hlen
  have hIother : ∀ g : FrameId, g ≠ fid →
      getPageAt (installPage s1 fid pid) g = getPageAt s1 g := by
    intro g hg
    rw [installPage_eq]
    exact getPageAt_setPageAt_ne _ hg
  have hItable : (installPage s1 fid pid).page_table = emplaceKey s1.page_table pid fid := by
    rw [installPage_eq, setPageAt_page_table]
  have hIfree : (installPage s1 fid pid).free_list = s1.free_list := by
    rw [installPage_eq, setPageAt_free_list]
  have hIrep : (installPage s1 fid pid).replacer = s1.replacer := by
    rw [installPage_eq, setPageAt_replacer]
  have hInext : (installPage s1 fid pid).next_page_id = s1.next_page_id := by
    rw [installPage_eq, setPageAt_next_page_id]
  have hIdisk : (installPage s1 fid pid).disk = s1.disk := by
    rw [installPage_eq, setPageAt_disk]
  have hItrace : (installPage s1 fid pid).trace = s1.trace := by
    rw [installPage_eq, setPageAt_trace]
  have hMpages : ({ installPage s1 fid pid with
      trace := (installPage s1 fid pid).trace ++ [DiskEvent.read pid] } :
      BufferPoolManagerInstance).pages = (installPage s1 fid pid).pages := rfl
  have hMlen : ({ installPage s1 fid pid with
      trace := (installPage s1 fid pid).trace ++ [DiskEvent.read pid] } :
      BufferPoolManagerInstance).pages.length = s1.pages.length := by
    rw [hMpages, hIlen]
  have hget := getPageAt_pages_congr
    (finishInstall_pages (setPageAt
      { installPage s1 fid pid with
         trace := (installPage s1 fid pid).trace ++ [DiskEvent.read pid] } fid
      { getPageAt (installPage s1 fid pid) fid with
         data := readDisk (installPage s1 fid pid).disk pid }) fid)
  refine ⟨?_, ?_, ?_, ?_, ?_, ?_, ?_, ?_, ?_, ?_⟩
  · rw [finishInstall_pool_size, setPageAt_pool_size]
    show (installPage s1 fid pid).pool_size = s1.pool_size
    rw [installPage_eq, setPageAt_pool_size]
  · rw [finishInstall_pages, setPageAt_pages_length, hMlen]
  · rw [hget]
    have := getPageAt_setPageAt_self (s := { installPage s1 fid pid with
        trace := (installPage s1 fid pid).trace ++ [DiskEvent.read pid] })
      { getPageAt (installPage s1 fid pid) fid with
         data := readDisk (installPage s1 fid pid).disk pid } h0 (by rw [hMlen]; exact hlen)
    rw [this, hIfid, hIdisk]
  · intro g hg
    rw [hget, getPageAt_setPageAt_ne _ hg]
    show getPageAt (installPage s1 fid pid) g = getPageAt s1 g
    exact hIother g hg
  · rw [finishInstall_page_table, setPageAt_page_table]
    show (installPage s1 fid pid).page_table = _
    exact hItable
  · rw [finishInstall_free_list, setPageAt_free_list]
    show (installPage s1 fid pid).free_list = _
    exact hIfree
  · rw [finishInstall_replacer, setPageAt_replacer]
    show ((installPage s1 fid pid).replacer.RecordAccess fid).SetEvictable fid false = _
    rw [hIrep]
  · rw [finishInstall_next_page_id, setPageAt_next_page_id]
    show (installPage s1 fid pid).next_page_id = _
    exact hInext
  · rw [finishInstall_disk, setPageAt_disk]
    show (installPage s1 fid pid).disk = _
    exact hIdisk
  · rw [finishInstall_trace, setPageAt_trace]
    show (installPage s1 fid pid).trace ++ [DiskEvent.read pid] = _
    rw [hItrace]

theorem PoolInv_FetchPg {s : BufferPoolManagerInstance} (pid : PageId)
    (inv : PoolInv s) : PoolInv (FetchPgImp s pid).2 := by
  rcases h : lookupKey s.page_table pid with _ | fid
  · by_cases hn : numFreePages s = 0
    · rw [FetchPgImp_fail h hn]
      exact inv
    · rw [FetchPgImp_miss h hn]
      have po := pickFrame_ok inv hn
      have hlen : (pickFrame s).1.toNat < (pickFrame s).2.pages.length := by
        rw [po.pages_len, inv.frames_len]
        exact toNat_lt_of_int_lt po.fid_lb po.fid_ub
      obtain ⟨f1, f2, f3, f4, f5, f6, f7, f8, f9, f10⟩ :=
        fetch_installed_state_facts (pickFrame s).2 (pickFrame s).1 pid po.fid_lb hlen
      have hf3 : getPageAt
          (finishInstall
            (setPageAt
              { installPage (pickFrame s).2 (pickFrame s).1 pid with
                 trace := (installPage (pickFrame s).2 (pickFrame s).1 pid).trace ++
                   [DiskEvent.read pid] }
              (pickFrame s).1
              { getPageAt (installPage (pickFrame s).2 (pickFrame s).1 pid)
                  (pickFrame s).1 with
                 data := readDisk (installPage (pickFrame s).2 (pickFrame s).1 pid).disk
                   pid }) (pickFrame s).1) (pickFrame s).1 =
          { page_id := pid, pin_count := 1, is_dirty := false,
            data := readDisk (pickFrame s).2.disk pid } := by
        rw [f3, po.frame_dirty]
      refine PoolInv_installed inv po ?_ ?_ hf3 f4 f5 f6 f7
      · rw [f1, po.pool_size_eq]
      · rw [f2, po.pages_len]
  · -- hit path
    rw [FetchPgImp_hit h]
    have hmem : (pid, fid) ∈ s.page_table := lookupKey_some_mem h
    have hb := inv.table_frame _ hmem
    have htr : fid ∈ s.replacer.trackedKeys := inv.resident_tracked _ hmem
    have hlen : fid.toNat < s.pages.length := by
      rw [inv.frames_len]
      exact toNat_lt_of_int_lt hb.1 hb.2.1
    have hnotfree : fid ∉ s.free_list := inv.resident_not_free _ hmem
    have hpin0 : 0 ≤ (getPageAt s fid).pin_count := by
      have h1 := inv.pins_nonneg fid.toNat (by
        rw [← inv.frames_len]
        exact hlen)
      rwa [Int.toNat_of_nonneg hb.1] at h1
    have hrej : ¬((s.replacer.replacer_size : Int) ≤ fid ∨ fid = -1) := by
      rintro (hc | hc)
      · rw [inv.rep_size] at hc
        exact absurd hb.2.1 (not_lt.2 hc)
      · have h1 : (0 : Int) ≤ fid := hb.1
        rw [hc] at h1
        exact absurd h1 (by decide)
    have hfid_tr_RA : fid ∈ (s.replacer.RecordAccess fid).trackedKeys :=
      (trackedKeys_RecordAccess hrej fid).2 (Or.inl rfl)
    obtain ⟨hq1, hq2, hqsz, _, hclk⟩ :=
      SetEvictable_queues (s.replacer.RecordAccess fid) fid false
    have hget := getPageAt_pages_congr
      (finishInstall_pages (setPageAt s fid
        { getPageAt s fid with pin_count := (getPageAt s fid).pin_count + 1 }) fid)
    have hfid2 : getPageAt (finishInstall (setPageAt s fid
        { getPageAt s fid with pin_count := (getPageAt s fid).pin_count + 1 }) fid) fid =
        { getPageAt s fid with pin_count := (getPageAt s fid).pin_count + 1 } := by
      rw [hget]
      exact getPageAt_setPageAt_self _ hb.1 hlen
    have hother2 : ∀ g : FrameId, g ≠ fid →
        getPageAt (finishInstall (setPageAt s fid
          { getPageAt s fid with pin_count := (getPageAt s fid).pin_count + 1 }) fid) g =
        getPageAt s g := by
      intro g hg
      rw [hget]
      exact getPageAt_setPageAt_ne _ hg
    have htable2 : (finishInstall (setPageAt s fid
        { getPageAt s fid with pin_count := (getPageAt s fid).pin_count + 1 }) fid).page_table =
        s.page_table := by
      rw [finishInstall_page_table, setPageAt_page_table]
    have hfree2 : (finishInstall (setPageAt s fid
        { getPageAt s fid with pin_count := (getPageAt s fid).pin_count + 1 }) fid).free_list =
        s.free_list := by
      rw [finishInstall_free_list, setPageAt_free_list]
    have hrep2 : (finishInstall (setPageAt s fid
        { getPageAt s fid with pin_count := (getPageAt s fid).pin_count + 1 }) fid).replacer =
        (s.replacer.RecordAccess fid).SetEvictable fid false := by
      rw [finishInstall_replacer, setPageAt_replacer]
    have hps2 : (finishInstall (setPageAt s fid
        { getPageAt s fid with pin_count := (getPageAt s fid).pin_count + 1 }) fid).pool_size =
        s.pool_size := by
      rw [finishInstall_pool_size, setPageAt_pool_size]
    have hlen2 : (finishInstall (setPageAt s fid
        { getPageAt s fid with pin_count := (getPageAt s fid).pin_count + 1 }) fid).pages.length =
        s.pages.length := by
      rw [finishInstall_pages, setPageAt_pages_length]
    have htracked2 : ∀ g, g ∈ (finishInstall (setPageAt s fid
        { getPageAt s fid with pin_count := (getPageAt s fid).pin_count + 1 }) fid).replacer.trackedKeys ↔
        (g = fid ∨ g ∈ s.replacer.trackedKeys) := by
      intro g
      rw [hrep2, trackedKeys_SetEvictable]
      exact trackedKeys_RecordAccess hrej g
    have hev2 : (finishInstall (setPageAt s fid
        { getPageAt s fid with pin_count := (getPageAt s fid).pin_count + 1 }) fid).replacer.evictable =
        removeAll s.replacer.evictable fid := by
      rw [hrep2, SetEvictable_false_evictable hfid_tr_RA, RecordAccess_evictable]
    refine ⟨?_, ?_, ?_, ?_, ?_, ?_, ?_, ?_, ?_, ?_, ?_, ?_, ?_, ?_, ?_, ?_, ?_, ?_, ?_⟩
    · rw [hlen2, hps2]
      exact inv.frames_len
    · rw [hrep2, hqsz, RecordAccess_replacer_size, inv.rep_size, hps2]
    · intro x hx
      rw [htable2] at hx
      have hxs := inv.table_frame x hx
      refine ⟨hxs.1, by rw [hps2]; exact hxs.2.1, ?_⟩
      by_cases hxf : x.2 = fid
      · rw [hxf, hfid2]
        show (getPageAt s fid).page_id = x.1
        rw [← hxf]
        exact hxs.2.2
      · rw [hother2 x.2 hxf]
        exact hxs.2.2
    · rw [htable2]
      exact inv.table_keys_nodup
    · intro f hf
      rw [hfree2] at hf
      have := inv.free_range f hf
      exact ⟨this.1, by rw [hps2]; exact this.2⟩
    · rw [hfree2]
      exact inv.free_nodup
    · intro f hf
      rw [hfree2] at hf
      have hne : f ≠ fid := fun hc => hnotfree (hc ▸ hf)
      rw [hother2 f hne]
      exact inv.free_default f hf
    · intro f hf
      rw [hfree2] at hf
      intro hc
      rcases (htracked2 f).1 hc with rfl | hc1
      · exact hnotfree hf
      · exact inv.free_untracked f hf hc1
    · intro x hx
      rw [htable2] at hx
      rw [hfree2]
      exact inv.resident_not_free x hx
    · intro i hi
      by_cases hif : (i : Int) = fid
      · rw [hif, hfid2]
        show 0 ≤ (getPageAt s fid).pin_count + 1
        omega
      · rw [hother2 _ hif]
        exact inv.pins_nonneg i (by rw [← hps2]; exact hi)
    · intro g hg
      rcases (htracked2 g).1 hg with rfl | hg1
      · exact ⟨hb.1, by rw [hps2]; exact hb.2.1⟩
      · have := inv.tracked_range g hg1
        exact ⟨this.1, by rw [hps2]; exact this.2⟩
    · intro x hx
      rw [htable2] at hx
      exact (htracked2 x.2).2 (Or.inr (inv.resident_tracked x hx))
    · intro g hg
      rw [hev2] at hg
      obtain ⟨hg1, hgne⟩ := (mem_removeAll _ _ _).1 hg
      exact (htracked2 g).2 (Or.inr (inv.evictable_tracked g hg1))
    · intro g hg
      rw [hev2] at hg
      obtain ⟨hg1, hgne⟩ := (mem_removeAll _ _ _).1 hg
      rw [hother2 g hgne]
      exact inv.evictable_pin0 g hg1
    · intro i hi hp
      by_cases hif : (i : Int) = fid
      · rw [hif, hfid2] at hp
        have hp' : (getPageAt s fid).pin_count + 1 = 0 := hp
        omega
      · rw [hother2 _ hif] at hp
        rcases inv.pin0_covered i (by rw [← hps2]; exact hi) hp with hc | hc
        · left
          rw [hfree2]
          exact hc
        · right
          rw [hev2]
          exact (mem_removeAll _ _ _).2 ⟨hc, hif⟩
    · intro x hx
      rw [hrep2, hq1, hq2] at hx
      have hw := hist_wf_RecordAccess inv.hist_wf fid x hx
      refine ⟨hw.1, fun t ht => ?_⟩
      rw [hrep2, hclk]
      exact Nat.lt_succ_of_lt (hw.2 t ht)
    · rw [hrep2, hq1]
      exact (nodup_RecordAccess fid inv.prelim_nodup inv.cache_nodup).1
    · rw [hrep2, hq2]
      exact (nodup_RecordAccess fid inv.prelim_nodup inv.cache_nodup).2
    · rw [hrep2, hq1, hq2]
      exact disjoint_RecordAccess fid inv.queues_disjoint

theorem PoolInv_Unpin {s : BufferPoolManagerInstance} (pid : PageId) (d : Bool)
    (inv : PoolInv s) : PoolInv (UnpinPgImp s pid d).2 := by
  rcases h : lookupKey s.page_table pid with _ | fid
  · rw [UnpinPgImp_not_resident d h]
    exact inv
  · by_cases hp : (getPageAt s fid).pin_count ≤ 0
    · rw [UnpinPgImp_zero d h hp]
      exact inv
    · rw [UnpinPgImp_pos d h hp]
      have hmem : (pid, fid) ∈ s.page_table := lookupKey_some_mem h
      have hb := inv.table_frame _ hmem
      have htr : fid ∈ s.replacer.trackedKeys := inv.resident_tracked _ hmem
      have hlen : fid.toNat < s.pages.length := by
        rw [inv.frames_len]
        exact toNat_lt_of_int_lt hb.1 hb.2.1
      have hnotfree : fid ∉ s.free_list := inv.resident_not_free _ hmem
      have hspfid : getPageAt (setPageAt s fid
          { getPageAt s fid with is_dirty := d || (getPageAt s fid).is_dirty,
                                 pin_count := (getPageAt s fid).pin_count - 1 }) fid =
          { getPageAt s fid with is_dirty := d || (getPageAt s fid).is_dirty,
                                 pin_count := (getPageAt s fid).pin_count - 1 } :=
        getPageAt_setPageAt_self _ hb.1 hlen
      have hspother : ∀ g : FrameId, g ≠ fid → getPageAt (setPageAt s fid
          { getPageAt s fid with is_dirty := d || (getPageAt s fid).is_dirty,
                                 pin_count := (getPageAt s fid).pin_count - 1 }) g =
          getPageAt s g := fun g hg => getPageAt_setPageAt_ne _ hg
      by_cases hz : (getPageAt s fid).pin_count - 1 = 0
      · rw [if_pos hz]
        set sp := setPageAt s fid
          { getPageAt s fid with is_dirty := d || (getPageAt s fid).is_dirty,
                                 pin_count := (getPageAt s fid).pin_count - 1 } with hsp
        have hrep : ({ sp with replacer := s.replacer.SetEvictable fid true } :
            BufferPoolManagerInstance).replacer = s.replacer.SetEvictable fid true := rfl
        have hreptr : s.replacer.SetEvictable fid true =
            { s.replacer with
                clock := s.replacer.clock + 1,
                evictable := (if fid ∈ s.replacer.evictable then s.replacer.evictable
                  else fid :: s.replacer.evictable) } :=
          SetEvictable_tracked_true htr
        have hget2 : ∀ g, getPageAt ({ sp with
            replacer := s.replacer.SetEvictable fid true } : BufferPoolManagerInstance) g =
            getPageAt sp g := fun g => rfl
        have hevmem : ∀ g, g ∈ (if fid ∈ s.replacer.evictable then s.replacer.evictable
            else fid :: s.replacer.evictable) ↔ (g = fid ∨ g ∈ s.replacer.evictable) := by
          intro g
          split
          · rename_i hin
            constructor
            · exact fun hg => Or.inr hg
            · rintro (rfl | hg)
              · exact hin
              · exact hg
          · constructor
            · intro hg
              rcases List.mem_cons.1 hg with rfl | hg
              · exact Or.inl rfl
              · exact Or.inr hg
            · rintro (rfl | hg)
              · exact List.mem_cons_self _ _
              · exact List.mem_cons_of_mem _ hg
        refine ⟨?_, ?_, ?_, ?_, ?_, ?_, ?_, ?_, ?_, ?_, ?_, ?_, ?_, ?_, ?_, ?_, ?_, ?_, ?_⟩
        · show sp.pages.length = sp.pool_size
          rw [hsp, setPageAt_pages_length, setPageAt_pool_size]
          exact inv.frames_len
        · rw [hrep, hreptr]
          show s.replacer.replacer_size = sp.pool_size
          rw [hsp, setPageAt_pool_size]
          exact inv.rep_size
        · intro x hx
          have hx' : x ∈ s.page_table := by
            rw [hsp] at hx
            rwa [setPageAt_page_table] at hx
          have hxs := inv.table_frame x hx'
          refine ⟨hxs.1, ?_, ?_⟩
          · show x.2 < (sp.pool_size : Int)
            rw [hsp, setPageAt_pool_size]
            exact hxs.2.1
          · rw [hget2]
            by_cases hxf : x.2 = fid
            · rw [hxf, hspfid]
              show (getPageAt s fid).page_id = x.1
              rw [← hxf]
              exact hxs.2.2
            · rw [hspother x.2 hxf]
              exact hxs.2.2
        · show (keysOf sp.page_table).Nodup
          rw [hsp, setPageAt_page_table]
          exact inv.table_keys_nodup
        · intro f hf
          have hf' : f ∈ s.free_list := by
            rw [hsp] at hf
            rwa [setPageAt_free_list] at hf
          have := inv.free_range f hf'
          refine ⟨this.1, ?_⟩
          show f < (sp.pool_size : Int)
          rw [hsp, setPageAt_pool_size]
          exact this.2
        · show sp.free_list.Nodup
          rw [hsp, setPageAt_free_list]
          exact inv.free_nodup
        · intro f hf
          have hf' : f ∈ s.free_list := by
            rw [hsp] at hf
            rwa [setPageAt_free_list] at hf
          have hne : f ≠ fid := fun hc => hnotfree (hc ▸ hf')
          rw [hget2, hspother f hne]
          exact inv.free_default f hf'
        · intro f hf
          have hf' : f ∈ s.free_list := by
            rw [hsp] at hf
            rwa [setPageAt_free_list] at hf
          rw [hrep, hreptr]
          show f ∉ LRUKReplacer.trackedKeys _
          show f ∉ keysOf s.replacer.preliminary_queue ++ keysOf s.replacer.lru_cache_queue
          exact inv.free_untracked f hf'
        · intro x hx
          have hx' : x ∈ s.page_table := by
            rw [hsp] at hx
            rwa [setPageAt_page_table] at hx
          show x.2 ∉ sp.free_list
          rw [hsp, setPageAt_free_list]
          exact inv.resident_not_free x hx'
        · intro i hi
          have hi' : i < s.pool_size := by
            rw [hsp, setPageAt_pool_size] at hi
            exact hi
          rw [hget2]
          by_cases hif : (i : Int) = fid
          · rw [hif, hspfid]
            show 0 ≤ (getPageAt s fid).pin_count - 1
            omega
          · rw [hspother _ hif]
            exact inv.pins_nonneg i hi'
        · intro g hg
          rw [hrep, hreptr] at hg
          have hg' : g ∈ s.replacer.trackedKeys := hg
          have := inv.tracked_range g hg'
          refine ⟨this.1, ?_⟩
          show g < (sp.pool_size : Int)
          rw [hsp, setPageAt_pool_size]
          exact this.2
        · intro x hx
          have hx' : x ∈ s.page_table := by
            rw [hsp] at hx
            rwa [setPageAt_page_table] at hx
          rw [hrep, hreptr]
          exact inv.resident_tracked x hx'
        · intro g hg
          rw [hrep, hreptr] at hg
          have hg' := (hevmem g).1 hg
          rw [hrep, hreptr]
          show g ∈ LRUKReplacer.trackedKeys s.replacer
          rcases hg' with rfl | hg'
          · exact htr
          · exact inv.evictable_tracked g hg'
        · intro g hg
          rw [hrep, hreptr] at hg
          have hg' := (hevmem g).1 hg
          rw [hget2]
          rcases hg' with rfl | hg'
          · rw [hspfid]
            exact hz
          · by_cases hgf : g = fid
            · rw [hgf, hspfid]
              exact hz
            · rw [hspother g hgf]
              exact inv.evictable_pin0 g hg'
        · intro i hi hp2
          have hi' : i < s.pool_size := by
            rw [hsp, setPageAt_pool_size] at hi
            exact hi
          rw [hget2] at hp2
          rw [hrep, hreptr]
          by_cases hif : (i : Int) = fid
          · right
            rw [hif]
            exact (hevmem fid).2 (Or.inl rfl)
          · rw [hspother _ hif] at hp2
            rcases inv.pin0_covered i hi' hp2 with hc | hc
            · left
              show (i : Int) ∈ sp.free_list
              rw [hsp, setPageAt_free_list]
              exact hc
            · right
              exact (hevmem _).2 (Or.inr hc)
        · intro x hx
          rw [hrep, hreptr] at hx
          have hx' : x ∈ s.replacer.preliminary_queue ++ s.replacer.lru_cache_queue := hx
          obtain ⟨h1, h2⟩ := inv.hist_wf x hx'
          refine ⟨h1, fun t ht => ?_⟩
          rw [hrep, hreptr]
          exact Nat.lt_succ_of_lt (h2 t ht)
        · rw [hrep, hreptr]
          exact inv.prelim_nodup
        · rw [hrep, hreptr]
          exact inv.cache_nodup
        · rw [hrep, hreptr]
          exact inv.queues_disjoint
      · rw [if_neg hz]
        have hev0 : ∀ g ∈ s.replacer.evictable, g ≠ fid := by
          intro g hg hc
          have := inv.evictable_pin0 g hg
          rw [hc] at this
          omega
        refine ⟨?_, ?_, ?_, ?_, ?_, ?_, ?_, ?_, ?_, ?_, ?_, ?_, ?_, ?_, ?_, ?_, ?_, ?_, ?_⟩
        · rw [setPageAt_pages_length, setPageAt_pool_size]
          exact inv.frames_len
        · rw [setPageAt_replacer, setPageAt_pool_size]
          exact inv.rep_size
        · intro x hx
          rw [setPageAt_page_table] at hx
          have hxs := inv.table_frame x hx
          refine ⟨hxs.1, by rw [setPageAt_pool_size]; exact hxs.2.1, ?_⟩
          by_cases hxf : x.2 = fid
          · rw [hxf, hspfid]
            show (getPageAt s fid).page_id = x.1
            rw [← hxf]
            exact hxs.2.2
          · rw [hspother x.2 hxf]
            exact hxs.2.2
        · rw [setPageAt_page_table]
          exact inv.table_keys_nodup
        · intro f hf
          rw [setPageAt_free_list] at hf
          have := inv.free_range f hf
          exact ⟨this.1, by rw [setPageAt_pool_size]; exact this.2⟩
        · rw [setPageAt_free_list]
          exact inv.free_nodup
        · intro f hf
          rw [setPageAt_free_list] at hf
          have hne : f ≠ fid := fun hc => hnotfree (hc ▸ hf)
          rw [hspother f hne]
          exact inv.free_default f hf
        · intro f hf
          rw [setPageAt_free_list] at hf
          rw [setPageAt_replacer]
          exact inv.free_untracked f hf
        · intro x hx
          rw [setPageAt_page_table] at hx
          rw [setPageAt_free_list]
          exact inv.resident_not_free x hx
        · intro i hi
          rw [setPageAt_pool_size] at hi
          by_cases hif : (i : Int) = fid
          · rw [hif, hspfid]
            show 0 ≤ (getPageAt s fid).pin_count - 1
            omega
          · rw [hspother _ hif]
            exact inv.pins_nonneg i hi
        · intro g hg
          rw [setPageAt_replacer] at hg
          have := inv.tracked_range g hg
          exact ⟨this.1, by rw [setPageAt_pool_size]; exact this.2⟩
        · intro x hx
          rw [setPageAt_page_table] at hx
          rw [setPageAt_replacer]
          exact inv.resident_tracked x hx
        · intro g hg
          rw [setPageAt_replacer] at hg
          rw [setPageAt_replacer]
          exact inv.evictable_tracked g hg
        · intro g hg
          rw [setPageAt_replacer] at hg
          rw [hspother g (hev0 g hg)]
          exact inv.evictable_pin0 g hg
        · intro i hi hp2
          rw [setPageAt_pool_size] at hi
          rw [setPageAt_free_list, setPageAt_replacer]
          by_cases hif : (i : Int) = fid
          · rw [hif, hspfid] at hp2
            have hp2' : (getPageAt s fid).pin_count - 1 = 0 := hp2
            exact absurd hp2' hz
          · rw [hspother _ hif] at hp2
            exact inv.pin0_covered i hi hp2
        · intro x hx
          rw [setPageAt_replacer] at hx
          obtain ⟨h1, h2⟩ := inv.hist_wf x hx
          refine ⟨h1, fun t ht => ?_⟩
          rw [setPageAt_replacer]
          exact h2 t ht
        · rw [setPageAt_replacer]
          exact inv.prelim_nodup
        · rw [setPageAt_replacer]
          exact inv.cache_nodup
        · rw [setPageAt_replacer]
          exact inv.queues_disjoint

theorem PoolInv_Delete {s : BufferPoolManagerInstance} (pid : PageId)
    (inv : PoolInv s) : PoolInv (DeletePgImp s pid).2 := by
  rcases h : lookupKey s.page_table pid with _ | fid
  · rw [DeletePgImp_not_resident h]
    exact inv
  · by_cases hp : 0 < (getPageAt s fid).pin_count
    · rw [DeletePgImp_pinned h hp]
      exact inv
    · have hmem : (pid, fid) ∈ s.page_table := lookupKey_some_mem h
      have hb := inv.table_frame _ hmem
      have hb1 : (0 : Int) ≤ fid := hb.1
      have hb2 : fid < (s.pool_size : Int) := hb.2.1
      have hpid : (getPageAt s fid).page_id = pid := hb.2.2
      have hlen : fid.toNat < s.pages.length := by
        rw [inv.frames_len]
        exact toNat_lt_of_int_lt hb1 hb2
      have hnotfree : fid ∉ s.free_list := inv.resident_not_free _ hmem
      rw [DeletePgImp_ok h hp hb1]
      have hpg : ({ s with
          replacer := s.replacer.Remove fid,
          pages := s.pages.set fid.toNat defaultPage,
          page_table := eraseKey s.page_table pid,
          free_list := s.free_list ++ [fid],
          trace := s.trace ++ [DiskEvent.deallocate pid] } :
          BufferPoolManagerInstance).pages = s.pages.set fid.toNat defaultPage := rfl
      have hfid' := getPageAt_set_self hpg hb1 hlen
      have hother' := fun {g : FrameId} (hg : g ≠ fid) => getPageAt_set_ne hpg hb1 hg
      have htracked' : ∀ g, g ∈ (s.replacer.Remove fid).trackedKeys ↔
          (g ∈ s.replacer.trackedKeys ∧ g ≠ fid) := by
        intro g
        show g ∈ keysOf (eraseKey s.replacer.preliminary_queue fid) ++
          keysOf (eraseKey s.replacer.lru_cache_queue fid) ↔ _
        rw [List.mem_append, mem_keysOf_eraseKey, mem_keysOf_eraseKey]
        show _ ↔ g ∈ keysOf s.replacer.preliminary_queue ++
          keysOf s.replacer.lru_cache_queue ∧ g ≠ fid
        rw [List.mem_append]
        tauto
      have hkeyfid : ∀ x ∈ eraseKey s.page_table pid, x.2 ≠ fid := by
        intro x hx hc
        obtain ⟨hx1, hx2⟩ := (mem_eraseKey _ _ _).1 hx
        have := (inv.table_frame x hx1).2.2
        rw [hc, hpid] at this
        exact hx2 this.symm
      have hfreemem : ∀ g : FrameId, g ∈ s.free_list ++ [fid] ↔
          (g ∈ s.free_list ∨ g = fid) := by
        intro g
        rw [List.mem_append, List.mem_singleton]
      refine ⟨?_, ?_, ?_, ?_, ?_, ?_, ?_, ?_, ?_, ?_, ?_, ?_, ?_, ?_, ?_, ?_, ?_, ?_, ?_⟩
      · show (s.pages.set fid.toNat defaultPage).length = s.pool_size
        rw [List.length_set]
        exact inv.frames_len
      · show (s.replacer.Remove fid).replacer_size = s.pool_size
        show s.replacer.replacer_size = s.pool_size
        exact inv.rep_size
      · intro x hx
        have hx' := (mem_eraseKey _ _ _).1 hx
        have hxs := inv.table_frame x hx'.1
        refine ⟨hxs.1, hxs.2.1, ?_⟩
        rw [hother' (hkeyfid x hx)]
        exact hxs.2.2
      · exact nodup_keysOf_eraseKey _ inv.table_keys_nodup
      · intro f hf
        rcases (hfreemem f).1 hf with hf1 | rfl
        · exact inv.free_range f hf1
        · exact ⟨hb1, hb2⟩
      · refine List.Nodup.append inv.free_nodup (List.nodup_singleton fid) ?_
        intro a ha hb'
        rw [List.mem_singleton] at hb'
        subst hb'
        exact hnotfree ha
      · intro f hf
        rcases (hfreemem f).1 hf with hf1 | rfl
        · have hne : f ≠ fid := fun hc => hnotfree (hc ▸ hf1)
          rw [hother' hne]
          exact inv.free_default f hf1
        · rw [hfid']
      · intro f hf
        intro hc
        have hc' := (htracked' f).1 hc
        rcases (hfreemem f).1 hf with hf1 | rfl
        · exact inv.free_untracked f hf1 hc'.1
        · exact hc'.2 rfl
      · intro x hx
        intro hc
        rcases (hfreemem x.2).1 hc with hc1 | hc1
        · exact inv.resident_not_free x ((mem_eraseKey _ _ _).1 hx).1 hc1
        · exact hkeyfid x hx hc1
      · intro i hi
        by_cases hif : (i : Int) = fid
        · rw [hif, hfid']
          decide
        · rw [hother' hif]
          exact inv.pins_nonneg i hi
      · intro g hg
        have hg' := (htracked' g).1 hg
        exact inv.tracked_range g hg'.1
      · intro x hx
        have hx' := (mem_eraseKey _ _ _).1 hx
        exact (htracked' x.2).2 ⟨inv.resident_tracked x hx'.1, hkeyfid x hx⟩
      · intro g hg
        have hg' := (mem_removeAll _ _ _).1 hg
        exact (htracked' g).2 ⟨inv.evictable_tracked g hg'.1, hg'.2⟩
      · intro g hg
        have hg' := (mem_removeAll _ _ _).1 hg
        rw [hother' hg'.2]
        exact inv.evictable_pin0 g hg'.1
      · intro i hi hp2
        by_cases hif : (i : Int) = fid
        · left
          rw [hif]
          exact (hfreemem fid).2 (Or.inr rfl)
        · rw [hother' hif] at hp2
          rcases inv.pin0_covered i hi hp2 with hc | hc
          · left
            exact (hfreemem _).2 (Or.inl hc)
          · right
            exact (mem_removeAll _ _ _).2 ⟨hc, hif⟩
      · intro x hx
        have hx' : x ∈ eraseKey s.replacer.preliminary_queue fid ++
            eraseKey s.replacer.lru_cache_queue fid := hx
        have hxin : x ∈ s.replacer.preliminary_queue ++ s.replacer.lru_cache_queue := by
          rcases List.mem_append.1 hx' with hc | hc
          · exact List.mem_append.2 (Or.inl ((mem_eraseKey _ _ _).1 hc).1)
          · exact List.mem_append.2 (Or.inr ((mem_eraseKey _ _ _).1 hc).1)
        obtain ⟨h1, h2⟩ := inv.hist_wf x hxin
        refine ⟨h1, fun t ht => ?_⟩
        show t < s.replacer.clock + 1
        exact Nat.lt_succ_of_lt (h2 t ht)
      · exact nodup_keysOf_eraseKey _ inv.prelim_nodup
      · exact nodup_keysOf_eraseKey _ inv.cache_nodup
      · intro f hf
        show f ∉ keysOf (eraseKey s.replacer.lru_cache_queue fid)
        have hf' := (mem_keysOf_eraseKey _ _ _).1 hf
        rw [mem_keysOf_eraseKey]
        rintro ⟨hc, _⟩
        exact inv.queues_disjoint f hf'.1 hc

theorem PoolInv_FlushPg {s : BufferPoolManagerInstance} (pid : PageId)
    (inv : PoolInv s) : PoolInv (FlushPgImp s pid).2 := by
  obtain ⟨c1, c2, c3, c4, c5, _⟩ := FlushPgImp_core s pid
  exact @PoolInv_congr s (FlushPgImp s pid).2 c1 c2 c3 c4 c5 inv

theorem PoolInv_FlushAll {s : BufferPoolManagerInstance}
    (inv : PoolInv s) : PoolInv (FlushAllPgsImp s) := by
  obtain ⟨c1, c2, c3, c4, c5, _⟩ := FlushAllPgsImp_core s
  exact @PoolInv_congr s (FlushAllPgsImp s) c1 c2 c3 c4 c5 inv

theorem PoolInv_applyOp {s : BufferPoolManagerInstance} (inv : PoolInv s)
    (op : PoolOp) : PoolInv (applyOp s op) := by
  cases op with
  | newPage => exact PoolInv_NewPg inv
  | fetchPage pid => exact PoolInv_FetchPg pid inv
  | unpinPage pid d => exact PoolInv_Unpin pid d inv
  | flushPage pid => exact PoolInv_FlushPg pid inv
  | flushAllPages => exact PoolInv_FlushAll inv
  | deletePage pid => exact PoolInv_Delete pid inv

theorem ReachableAny_PoolInv {s : BufferPoolManagerInstance}
    (h : ReachableAny s) : PoolInv s := by
  induction h with
  | init ps k => exact PoolInv_init ps k
  | step op hr ih => exact PoolInv_applyOp ih op

theorem Reachable_ReachableAny {s : BufferPoolManagerInstance}
    (h : Reachable s) : ReachableAny s := by
  induction h with
  | init ps k => exact ReachableAny.init ps k
  | step op hr hl ih => exact ReachableAny.step op ih

/-! The additional invariant for legal call sequences. -/

theorem PoolInvL_congr {s s' : BufferPoolManagerInstance}
    (hps : s'.pool_size = s.pool_size) (hpg : s'.pages = s.pages)
    (hpt : s'.page_table = s.page_table) (hnx : s'.next_page_id = s.next_page_id)
    (invL : PoolInvL s) : PoolInvL s' := by
  have hget : ∀ f, getPageAt s' f = getPageAt s f := getPageAt_pages_congr hpg
  refine ⟨?_, ?_, ?_⟩
  · rw [hnx]; exact invL.next_nonneg
  · intro e he
    rw [hpt] at he
    rw [hnx]
    exact invL.table_pid e he
  · intro i hi hne
    rw [hps] at hi
    rw [hget] at hne
    rw [hget, hpt]
    exact invL.table_complete i hi hne

theorem pickFrame_keepL {s : BufferPoolManagerInstance} (inv : PoolInv s)
    (invL : PoolInvL s) (hn : numFreePages s ≠ 0) :
    ∀ x ∈ s.page_table, x.2 ≠ (pickFrame s).1 → x ∈ (pickFrame s).2.page_table := by
  rcases hfl : s.free_list with _ | ⟨c, rest⟩
  · obtain ⟨i, hilen, hpin⟩ := numFreePages_ne_zero hn
    have hipool : i < s.pool_size := inv.frames_len ▸ hilen
    have hcov := inv.pin0_covered i hipool hpin
    rw [hfl] at hcov
    have hev_mem : (i : Int) ∈ s.replacer.evictable := by
      rcases hcov with hc | hc
      · cases hc
      · exact hc
    have htr : (i : Int) ∈ s.replacer.trackedKeys := inv.evictable_tracked _ hev_mem
    have hp1 : -1 ∉ keysOf s.replacer.preliminary_queue := by
      intro hmem
      have := inv.tracked_range (-1) (List.mem_append.2 (Or.inl hmem))
      exact absurd this.1 (by decide)
    have hp2 : -1 ∉ keysOf s.replacer.lru_cache_queue := by
      intro hmem
      have := inv.tracked_range (-1) (List.mem_append.2 (Or.inr hmem))
      exact absurd this.1 (by decide)
    have hfronts : ∀ e ∈ s.replacer.preliminary_queue ++ s.replacer.lru_cache_queue,
        front e.2 < s.replacer.clock + 1 := by
      intro e he
      obtain ⟨hne, hts⟩ := inv.hist_wf e he
      exact Nat.lt_succ_of_lt (hts _ (front_mem hne))
    obtain ⟨e, rep', hev⟩ := Evict_success hp1 hp2 hfronts hev_mem htr
    obtain ⟨he_ev, hcases⟩ := Evict_some_cases hp1 hev
    have he_tr : e ∈ s.replacer.trackedKeys := inv.evictable_tracked e he_ev
    have he_range := inv.tracked_range e he_tr
    have he_len : e.toNat < s.pages.length := by
      rw [inv.frames_len]
      exact toNat_lt_of_int_lt he_range.1 he_range.2
    rw [pickFrame_evict hfl, evictAndPrepare_spec hev he_range.1 he_len]
    dsimp only
    intro x hx hxne
    show x ∈ eraseKey s.page_table (getPageAt s e).page_id
    rw [mem_eraseKey]
    refine ⟨hx, ?_⟩
    by_cases hpidneg : (getPageAt s e).page_id = -1
    · rw [hpidneg]
      intro hc
      have hpidx := invL.table_pid x hx
      rw [hc] at hpidx
      exact absurd hpidx.1 (by decide)
    · intro hc
      have hco := invL.table_complete e.toNat
        (by
          rw [← inv.frames_len]
          exact he_len)
        (by
          rw [Int.toNat_of_nonneg he_range.1]
          exact hpidneg)
      rw [Int.toNat_of_nonneg he_range.1] at hco
      have h1 := lookupKey_nodup_mem inv.table_keys_nodup hco
      have hx2 : (x.1, x.2) ∈ s.page_table := hx
      have h2 := lookupKey_nodup_mem inv.table_keys_nodup hx2
      rw [hc] at h2
      have := h2.symm.trans h1
      exact hxne (Option.some.inj this)
  · rw [pickFrame_free hfl]
    exact fun x hx _ => hx

theorem PoolInvL_NewPg {s : BufferPoolManagerInstance} (inv : PoolInv s)
    (invL : PoolInvL s) : PoolInvL (NewPgImp s).2 := by
  by_cases hn : numFreePages s = 0
  · rw [NewPgImp_fail hn]
    exact invL
  · rw [NewPgImp_succeed hn]
    have inv' : PoolInv { s with next_page_id := s.next_page_id + 1 } :=
      @PoolInv_congr s { s with next_page_id := s.next_page_id + 1 } rfl rfl rfl rfl rfl inv
    have invL' : PoolInvL { s with next_page_id := s.next_page_id + 1 } := by
      refine ⟨?_, ?_, ?_⟩
      · show 0 ≤ s.next_page_id + 1
        exact le_trans invL.next_nonneg (le_of_lt (lt_add_one _))
      · intro e he
        have h1 := invL.table_pid e he
        show 0 ≤ e.1 ∧ e.1 < s.next_page_id + 1
        exact ⟨h1.1, lt_trans h1.2 (lt_add_one _)⟩
      · exact invL.table_complete
    have hn' : ¬ numFreePages { s with next_page_id := s.next_page_id + 1 } = 0 := hn
    have po := pickFrame_ok inv' hn'
    have hkeep := pickFrame_keepL inv' invL' hn'
    have hlen : (pickFrame { s with next_page_id := s.next_page_id + 1 }).1.toNat <
        (pickFrame { s with next_page_id := s.next_page_id + 1 }).2.pages.length := by
      rw [po.pages_len]
      have h2 : ({ s with next_page_id := s.next_page_id + 1 } :
          BufferPoolManagerInstance).pages.length = s.pool_size := inv.frames_len
      rw [h2]
      exact toNat_lt_of_int_lt po.fid_lb po.fid_ub
    obtain ⟨f1, f2, f3, f4, f5, f6, f7, f8, f9, f10⟩ :=
      installed_state_facts (pickFrame { s with next_page_id := s.next_page_id + 1 }).2
        (pickFrame { s with next_page_id := s.next_page_id + 1 }).1 s.next_page_id
        po.fid_lb hlen
    have hnext2 : (finishInstall (installPage
        (pickFrame { s with next_page_id := s.next_page_id + 1 }).2
        (pickFrame { s with next_page_id := s.next_page_id + 1 }).1 s.next_page_id)
        (pickFrame { s with next_page_id := s.next_page_id + 1 }).1).next_page_id =
        s.next_page_id + 1 := by
      rw [f8, po.next_eq]
    have habsent : lookupKey
        (pickFrame { s with next_page_id := s.next_page_id + 1 }).2.page_table
        s.next_page_id = none := by
      rw [lookupKey_eq_none]
      intro hmem
      have hmem' := po.table_keys_sub _ hmem
      obtain ⟨v, hv⟩ := mem_keysOf.1 hmem'
      have := invL.table_pid _ hv
      have h1 : s.next_page_id < s.next_page_id := this.2
      exact absurd h1 (lt_irrefl _)
    have htable2 := f5.trans (emplaceKey_of_absent _ habsent)
    refine ⟨?_, ?_, ?_⟩
    · rw [hnext2]
      exact le_trans invL.next_nonneg (le_of_lt (lt_add_one _))
    · intro x hx
      rw [htable2] at hx
      rw [hnext2]
      rcases List.mem_cons.1 hx with rfl | hx
      · exact ⟨invL.next_nonneg, lt_add_one _⟩
      · have h1 := invL.table_pid x (po.table_sub x hx)
        exact ⟨h1.1, lt_trans h1.2 (lt_add_one _)⟩
    · intro i hi hne
      rw [f1, po.pool_size_eq] at hi
      have hi' : i < s.pool_size := hi
      have hsg : ∀ g : FrameId,
          getPageAt ({ s with next_page_id := s.next_page_id + 1 } :
            BufferPoolManagerInstance) g = getPageAt s g := fun g => rfl
      by_cases hif : (i : Int) = (pickFrame { s with next_page_id := s.next_page_id + 1 }).1
      · rw [hif, f3]
        show (s.next_page_id,
          (pickFrame { s with next_page_id := s.next_page_id + 1 }).1) ∈ _
        rw [htable2]
        exact List.mem_cons_self _ _
      · rw [f4 _ hif] at hne ⊢
        rw [po.frame_other _ hif] at hne ⊢
        rw [hsg] at hne ⊢
        have hco := invL.table_complete i hi' hne
        rw [htable2]
        refine List.mem_cons_of_mem _ ?_
        exact hkeep _ hco hif

theorem PoolInvL_FetchPg {s : BufferPoolManagerInstance} {pid : PageId}
    (inv : PoolInv s) (invL : PoolInvL s) (hl : 0 ≤ pid ∧ pid < s.next_page_id) :
    PoolInvL (FetchPgImp s pid).2 := by
  rcases h : lookupKey s.page_table pid with _ | fid
  · by_cases hn : numFreePages s = 0
    · rw [FetchPgImp_fail h hn]
      exact invL
    · rw [FetchPgImp_miss h hn]
      have po := pickFrame_ok inv hn
      have hkeep := pickFrame_keepL inv invL hn
      have hlen : (pickFrame s).1.toNat < (pickFrame s).2.pages.length := by
        rw [po.pages_len, inv.frames_len]
        exact toNat_lt_of_int_lt po.fid_lb po.fid_ub
      obtain ⟨f1, f2, f3, f4, f5, f6, f7, f8, f9, f10⟩ :=
        fetch_installed_state_facts (pickFrame s).2 (pickFrame s).1 pid po.fid_lb hlen
      have habsent : lookupKey (pickFrame s).2.page_table pid = none := by
        rw [lookupKey_eq_none]
        intro hmem
        exact ((lookupKey_eq_none _ _).1 h) (po.table_keys_sub _ hmem)
      have htable2 := f5.trans (emplaceKey_of_absent _ habsent)
      have hnext2 := f8.trans po.next_eq
      refine ⟨?_, ?_, ?_⟩
      · rw [hnext2]
        exact invL.next_nonneg
      · intro x hx
        rw [htable2] at hx
        rw [hnext2]
        rcases List.mem_cons.1 hx with rfl | hx
        · exact hl
        · exact invL.table_pid x (po.table_sub x hx)
      · intro i hi hne
        rw [f1, po.pool_size_eq] at hi
        by_cases hif : (i : Int) = (pickFrame s).1
        · rw [hif, f3]
          show (pid, (pickFrame s).1) ∈ _
          rw [htable2]
          exact List.mem_cons_self _ _
        · rw [f4 _ hif] at hne ⊢
          rw [po.frame_other _ hif] at hne ⊢
          have hco := invL.table_complete i hi hne
          rw [htable2]
          exact List.mem_cons_of_mem _ (hkeep _ hco hif)
  · rw [FetchPgImp_hit h]
    have hmem : (pid, fid) ∈ s.page_table := lookupKey_some_mem h
    have hb := inv.table_frame _ hmem
    have hlen : fid.toNat < s.pages.length := by
      rw [inv.frames_len]
      exact toNat_lt_of_int_lt hb.1 hb.2.1
    have hget := getPageAt_pages_congr
      (finishInstall_pages (setPageAt s fid
        { getPageAt s fid with pin_count := (getPageAt s fid).pin_count + 1 }) fid)
    have hfid2 : getPageAt (finishInstall (setPageAt s fid
        { getPageAt s fid with pin_count := (getPageAt s fid).pin_count + 1 }) fid) fid =
        { getPageAt s fid with pin_count := (getPageAt s fid).pin_count + 1 } := by
      rw [hget]
      exact getPageAt_setPageAt_self _ hb.1 hlen
    have hother2 : ∀ g : FrameId, g ≠ fid →
        getPageAt (finishInstall (setPageAt s fid
          { getPageAt s fid with pin_count := (getPageAt s fid).pin_count + 1 }) fid) g =
        getPageAt s g := by
      intro g hg
      rw [hget]
      exact getPageAt_setPageAt_ne _ hg
    have htable2 : (finishInstall (setPageAt s fid
        { getPageAt s fid with pin_count := (getPageAt s fid).pin_count + 1 }) fid).page_table =
        s.page_table := by
      rw [finishInstall_page_table, setPageAt_page_table]
    have hnext2 : (finishInstall (setPageAt s fid
        { getPageAt s fid with pin_count := (getPageAt s fid).pin_count + 1 }) fid).next_page_id =
        s.next_page_id := by
      rw [finishInstall_next_page_id, setPageAt_next_page_id]
    have hps2 : (finishInstall (setPageAt s fid
        { getPageAt s fid with pin_count := (getPageAt s fid).pin_count + 1 }) fid).pool_size =
        s.pool_size := by
      rw [finishInstall_pool_size, setPageAt_pool_size]
    refine ⟨?_, ?_, ?_⟩
    · rw [hnext2]
      exact invL.next_nonneg
    · intro x hx
      rw [htable2] at hx
      rw [hnext2]
      exact invL.table_pid x hx
    · intro i hi hne
      rw [hps2] at hi
      rw [htable2]
      by_cases hif : (i : Int) = fid
      · rw [hif, hfid2] at hne ⊢
        show ((getPageAt s fid).page_id, fid) ∈ s.page_table
        have hne' : (getPageAt s fid).page_id ≠ INVALID_PAGE_ID := hne
        have hco := invL.table_complete i hi (by rw [hif]; exact hne')
        rw [hif] at hco
        exact hco
      · rw [hother2 _ hif] at hne ⊢
        exact invL.table_complete i hi hne

theorem PoolInvL_Unpin {s : BufferPoolManagerInstance} (pid : PageId) (d : Bool)
    (inv : PoolInv s) (invL : PoolInvL s) : PoolInvL (UnpinPgImp s pid d).2 := by
  rcases h : lookupKey s.page_table pid with _ | fid
  · rw [UnpinPgImp_not_resident d h]
    exact invL
  · by_cases hp : (getPageAt s fid).pin_count ≤ 0
    · rw [UnpinPgImp_zero d h hp]
      exact invL
    · rw [UnpinPgImp_pos d h hp]
      have hmem : (pid, fid) ∈ s.page_table := lookupKey_some_mem h
      have hb := inv.table_frame _ hmem
      have hlen : fid.toNat < s.pages.length := by
        rw [inv.frames_len]
        exact toNat_lt_of_int_lt hb.1 hb.2.1
      have hspfid : getPageAt (setPageAt s fid
          { getPageAt s fid with is_dirty := d || (getPageAt s fid).is_dirty,
                                 pin_count := (getPageAt s fid).pin_count - 1 }) fid =
          { getPageAt s fid with is_dirty := d || (getPageAt s fid).is_dirty,
                                 pin_count := (getPageAt s fid).pin_count - 1 } :=
        getPageAt_setPageAt_self _ hb.1 hlen
      have hspother : ∀ g : FrameId, g ≠ fid → getPageAt (setPageAt s fid
          { getPageAt s fid with is_dirty := d || (getPageAt s fid).is_dirty,
                                 pin_count := (getPageAt s fid).pin_count - 1 }) g =
          getPageAt s g := fun g hg => getPageAt_setPageAt_ne _ hg
      have hLsp : PoolInvL (setPageAt s fid
          { getPageAt s fid with is_dirty := d || (getPageAt s fid).is_dirty,
                                 pin_count := (getPageAt s fid).pin_count - 1 }) := by
        refine ⟨?_, ?_, ?_⟩
        · rw [setPageAt_next_page_id]
          exact invL.next_nonneg
        · intro x hx
          rw [setPageAt_page_table] at hx
          rw [setPageAt_next_page_id]
          exact invL.table_pid x hx
        · intro i hi hne
          rw [setPageAt_pool_size] at hi
          rw [setPageAt_page_table]
          by_cases hif : (i : Int) = fid
          · rw [hif, hspfid] at hne ⊢
            show ((getPageAt s fid).page_id, fid) ∈ s.page_table
            have hne' : (getPageAt s fid).page_id ≠ INVALID_PAGE_ID := hne
            have hco := invL.table_complete i hi (by rw [hif]; exact hne')
            rw [hif] at hco
            exact hco
          · rw [hspother _ hif] at hne ⊢
            exact invL.table_complete i hi hne
      by_cases hz : (getPageAt s fid).pin_count - 1 = 0
      · rw [if_pos hz]
        refine ⟨?_, ?_, ?_⟩
        · exact hLsp.next_nonneg
        · exact hLsp.table_pid
        · exact hLsp.table_complete
      · rw [if_neg hz]
        exact hLsp

theorem PoolInvL_Delete {s : BufferPoolManagerInstance} (pid : PageId)
    (inv : PoolInv s) (invL : PoolInvL s) : PoolInvL (DeletePgImp s pid).2 := by
  rcases h : lookupKey s.page_table pid with _ | fid
  · rw [DeletePgImp_not_resident h]
    exact invL
  · by_cases hp : 0 < (getPageAt s fid).pin_count
    · rw [DeletePgImp_pinned h hp]
      exact invL
    · have hmem : (pid, fid) ∈ s.page_table := lookupKey_some_mem h
      have hb := inv.table_frame _ hmem
      have hb1 : (0 : Int) ≤ fid := hb.1
      have hlen : fid.toNat < s.pages.length := by
        rw [inv.frames_len]
        exact toNat_lt_of_int_lt hb1 hb.2.1
      rw [DeletePgImp_ok h hp hb1]
      have hpg : ({ s with
          replacer := s.replacer.Remove fid,
          pages := s.pages.set fid.toNat defaultPage,
          page_table := eraseKey s.page_table pid,
          free_list := s.free_list ++ [fid],
          trace := s.trace ++ [DiskEvent.deallocate pid] } :
          BufferPoolManagerInstance).pages = s.pages.set fid.toNat defaultPage := rfl
      have hfid' := getPageAt_set_self hpg hb1 hlen
      have hother' := fun {g : FrameId} (hg : g ≠ fid) => getPageAt_set_ne hpg hb1 hg
      refine ⟨?_, ?_, ?_⟩
      · exact invL.next_nonneg
      · intro x hx
        exact invL.table_pid x ((mem_eraseKey _ _ _).1 hx).1
      · intro i hi hne
        by_cases hif : (i : Int) = fid
        · rw [hif, hfid'] at hne
          exact absurd rfl hne
        · rw [hother' hif] at hne ⊢
          have hco := invL.table_complete i hi hne
          show _ ∈ eraseKey s.page_table pid
          rw [mem_eraseKey]
          refine ⟨hco, ?_⟩
          intro hc
          have hc' : (getPageAt s (i : Int)).page_id = pid := hc
          have h1 := lookupKey_nodup_mem inv.table_keys_nodup hco
          rw [hc'] at h1
          rw [h] at h1
          exact hif (Option.some.inj h1.symm)

theorem PoolInvL_FlushPg {s : BufferPoolManagerInstance} (pid : PageId)
    (invL : PoolInvL s) : PoolInvL (FlushPgImp s pid).2 := by
  obtain ⟨c1, c2, c3, _, _, c6⟩ := FlushPgImp_core s pid
  exact @PoolInvL_congr s (FlushPgImp s pid).2 c1 c2 c3 c6 invL

theorem PoolInvL_FlushAll {s : BufferPoolManagerInstance}
    (invL : PoolInvL s) : PoolInvL (FlushAllPgsImp s) := by
  obtain ⟨c1, c2, c3, _, _, c6⟩ := FlushAllPgsImp_core s
  exact @PoolInvL_congr s (FlushAllPgsImp s) c1 c2 c3 c6 invL

theorem PoolInvL_applyOp {s : BufferPoolManagerInstance} (inv : PoolInv s)
    (invL : PoolInvL s) {op : PoolOp} (hl : LegalOp s op) :
    PoolInvL (applyOp s op) := by
  cases op with
  | newPage => exact PoolInvL_NewPg inv invL
  | fetchPage pid => exact PoolInvL_FetchPg inv invL hl
  | unpinPage pid d => exact PoolInvL_Unpin pid d inv invL
  | flushPage pid => exact PoolInvL_FlushPg pid invL
  | flushAllPages => exact PoolInvL_FlushAll invL
  | deletePage pid => exact PoolInvL_Delete pid inv invL

theorem Reachable_PoolInvL {s : BufferPoolManagerInstance}
    (h : Reachable s) : PoolInvL s := by
  induction h with
  | init ps k => exact PoolInvL_init ps k
  | step op hr hl ih =>
      exact PoolInvL_applyOp (ReachableAny_PoolInv (Reachable_ReachableAny hr)) ih hl

/-! Helpers for the claim theorems. -/

theorem evict_ready {s : BufferPoolManagerInstance} (inv : PoolInv s)
    (hn : numFreePages s ≠ 0) (hfl : s.free_list = []) :
    ∃ e rep', s.replacer.Evict = (some e, rep') ∧ 0 ≤ e ∧ e < (s.pool_size : Int) ∧
      e.toNat < s.pages.length := by
  obtain ⟨i, hilen, hpin⟩ := numFreePages_ne_zero hn
  have hipool : i < s.pool_size := inv.frames_len ▸ hilen
  have hcov := inv.pin0_covered i hipool hpin
  rw [hfl] at hcov
  have hev_mem : (i : Int) ∈ s.replacer.evictable := by
    rcases hcov with hc | hc
    · cases hc
    · exact hc
  have htr : (i : Int) ∈ s.replacer.trackedKeys := inv.evictable_tracked _ hev_mem
  have hp1 : -1 ∉ keysOf s.replacer.preliminary_queue := by
    intro hmem
    have := inv.tracked_range (-1) (List.mem_append.2 (Or.inl hmem))
    exact absurd this.1 (by decide)
  have hp2 : -1 ∉ keysOf s.replacer.lru_cache_queue := by
    intro hmem
    have := inv.tracked_range (-1) (List.mem_append.2 (Or.inr hmem))
    exact absurd this.1 (by decide)
  have hfronts : ∀ e ∈ s.replacer.preliminary_queue ++ s.replacer.lru_cache_queue,
      front e.2 < s.replacer.clock + 1 := by
    intro e he
    obtain ⟨hne, hts⟩ := inv.hist_wf e he
    exact Nat.lt_succ_of_lt (hts _ (front_mem hne))
  obtain ⟨e, rep', hev⟩ := Evict_success hp1 hp2 hfronts hev_mem htr
  obtain ⟨he_ev, _⟩ := Evict_some_cases hp1 hev
  have he_tr : e ∈ s.replacer.trackedKeys := inv.evictable_tracked e he_ev
  have he_range := inv.tracked_range e he_tr
  refine ⟨e, rep', hev, he_range.1, he_range.2, ?_⟩
  rw [inv.frames_len]
  exact toNat_lt_of_int_lt he_range.1 he_range.2

theorem evictAndPrepare_next (s : BufferPoolManagerInstance) :
    (evictAndPrepare s).2.next_page_id = s.next_page_id := by
  unfold evictAndPrepare
  dsimp only
  by_cases hd : (getPageAt { s with replacer := s.replacer.Evict.2 }
      (s.replacer.Evict.1.getD (-1))).is_dirty
  · rw [if_pos hd]
    show (setPageAt _ _ _).next_page_id = s.next_page_id
    rw [setPageAt_next_page_id, setPageAt_next_page_id]
  · rw [if_neg hd]
    show (setPageAt _ _ _).next_page_id = s.next_page_id
    rw [setPageAt_next_page_id]

theorem pickFrame_next (s : BufferPoolManagerInstance) :
    (pickFrame s).2.next_page_id = s.next_page_id := by
  rcases h : s.free_list with _ | ⟨c, rest⟩
  · rw [pickFrame_evict h]
    exact evictAndPrepare_next s
  · rw [pickFrame_free h]

theorem DeletePgImp_next (s : BufferPoolManagerInstance) (pid : PageId) :
    (DeletePgImp s pid).2.next_page_id = s.next_page_id := by
  rcases h : lookupKey s.page_table pid with _ | fid
  · rw [DeletePgImp_not_resident h]
  · by_cases hp : 0 < (getPageAt s fid).pin_count
    · rw [DeletePgImp_pinned h hp]
    · unfold DeletePgImp
      rw [h]
      simp only [if_neg hp]
      show (setPageAt _ _ _).next_page_id = s.next_page_id
      rw [setPageAt_next_page_id]

theorem UnpinPgImp_next (s : BufferPoolManagerInstance) (pid : PageId) (d : Bool) :
    (UnpinPgImp s pid d).2.next_page_id = s.next_page_id := by
  rcases h : lookupKey s.page_table pid with _ | fid
  · rw [UnpinPgImp_not_resident d h]
  · by_cases hp : (getPageAt s fid).pin_count ≤ 0
    · rw [UnpinPgImp_zero d h hp]
    · rw [UnpinPgImp_pos d h hp]
      by_cases hz : (getPageAt s fid).pin_count - 1 = 0
      · rw [if_pos hz]
        show (setPageAt _ _ _).next_page_id = s.next_page_id
        rw [setPageAt_next_page_id]
      · rw [if_neg hz]
        rw [setPageAt_next_page_id]

theorem applyOp_next_le (s : BufferPoolManagerInstance) (op : PoolOp) :
    s.next_page_id ≤ (applyOp s op).next_page_id := by
  cases op with
  | newPage =>
      show s.next_page_id ≤ (NewPgImp s).2.next_page_id
      by_cases hn : numFreePages s = 0
      · rw [NewPgImp_fail hn]
      · rw [NewPgImp_succeed hn]
        have h1 : (finishInstall (installPage
            (pickFrame { s with next_page_id := s.next_page_id + 1 }).2
            (pickFrame { s with next_page_id := s.next_page_id + 1 }).1 s.next_page_id)
            (pickFrame { s with next_page_id := s.next_page_id + 1 }).1).next_page_id =
            s.next_page_id + 1 := by
          rw [finishInstall_next_page_id, installPage_eq, setPageAt_next_page_id]
          show (pickFrame { s with next_page_id := s.next_page_id + 1 }).2.next_page_id = _
          rw [pickFrame_next]
        rw [h1]
        exact le_of_lt (lt_add_one _)
  | fetchPage pid =>
      show s.next_page_id ≤ (FetchPgImp s pid).2.next_page_id
      rcases h : lookupKey s.page_table pid with _ | fid
      · by_cases hn : numFreePages s = 0
        · rw [FetchPgImp_fail h hn]
        · rw [FetchPgImp_miss h hn]
          have h1 : (finishInstall
              (setPageAt
                { installPage (pickFrame s).2 (pickFrame s).1 pid with
                   trace := (installPage (pickFrame s).2 (pickFrame s).1 pid).trace ++
                     [DiskEvent.read pid] }
                (pickFrame s).1
                { getPageAt (installPage (pickFrame s).2 (pickFrame s).1 pid)
                    (pickFrame s).1 with
                   data := readDisk (installPage (pickFrame s).2 (pickFrame s).1 pid).disk
                     pid }) (pickFrame s).1).next_page_id = s.next_page_id := by
            rw [finishInstall_next_page_id, setPageAt_next_page_id]
            show (installPage (pickFrame s).2 (pickFrame s).1 pid).next_page_id = _
            rw [installPage_eq, setPageAt_next_page_id]
            show (pickFrame s).2.next_page_id = _
            rw [pickFrame_next]
          rw [h1]
      · rw [FetchPgImp_hit h]
        have h1 : (finishInstall (setPageAt s fid
            { getPageAt s fid with pin_count := (getPageAt s fid).pin_count + 1 })
            fid).next_page_id = s.next_page_id := by
          rw [finishInstall_next_page_id, setPageAt_next_page_id]
        rw [h1]
  | unpinPage pid d =>
      show s.next_page_id ≤ (UnpinPgImp s pid d).2.next_page_id
      rw [UnpinPgImp_next]
  | flushPage pid =>
      show s.next_page_id ≤ (FlushPgImp s pid).2.next_page_id
      rw [(FlushPgImp_core s pid).2.2.2.2.2]
  | flushAllPages =>
      show s.next_page_id ≤ (FlushAllPgsImp s).next_page_id
      rw [(FlushAllPgsImp_core s).2.2.2.2.2]
  | deletePage pid =>
      show s.next_page_id ≤ (DeletePgImp s pid).2.next_page_id
      rw [DeletePgImp_next]

theorem applyOps_next_le (ops : List PoolOp) (s : BufferPoolManagerInstance) :
    s.next_page_id ≤ (applyOps ops s).next_page_id := by
  induction ops generalizing s with
  | nil => exact le_refl _
  | cons op rest ih =>
      have h1 : applyOps (op :: rest) s = applyOps rest (applyOp s op) := rfl
      rw [h1]
      exact le_trans (applyOp_next_le s op) (ih (applyOp s op))

theorem ReachableAny_applyOps {s : BufferPoolManagerInstance} (h : ReachableAny s)
    (ops : List PoolOp) : ReachableAny (applyOps ops s) := by
  induction ops generalizing s with
  | nil => exact h
  | cons op rest ih =>
      have h1 : applyOps (op :: rest) s = applyOps rest (applyOp s op) := rfl
      rw [h1]
      exact ih (ReachableAny.step op h)

theorem eq_of_front_eq {q : List (FrameId × AccessHistory)}
    (hnd : (q.map (fun e => front e.2)).Nodup) :
    ∀ a ∈ q, ∀ b ∈ q, front a.2 = front b.2 → a = b := by
  induction q with
  | nil => intro a ha; cases ha
  | cons x rest ih =>
      simp only [List.map_cons, List.nodup_cons] at hnd
      intro a ha b hb hf
      rcases List.mem_cons.1 ha with ha1 | ha2
      · rcases List.mem_cons.1 hb with hb1 | hb2
        · rw [ha1, hb1]
        · exfalso
          apply hnd.1
          rw [← ha1, hf]
          exact List.mem_map_of_mem _ hb2
      · rcases List.mem_cons.1 hb with hb1 | hb2
        · exfalso
          apply hnd.1
          rw [← hb1, ← hf]
          exact List.mem_map_of_mem _ ha2
        · exact ih hnd.2 a ha2 b hb2 hf

/-! The claim theorems. -/

/-- C1: For every replacer state, Evict returns a frame id only when at least
one tracked frame is marked evictable, and then it returns: if any evictable
preliminary frame (fewer than K recorded accesses) exists, the evictable
preliminary frame whose earliest recorded timestamp is smallest; otherwise,
if any evictable mature frame exists, the evictable mature frame whose
earliest retained timestamp (the K-th most recent) is smallest; otherwise it
returns none. The returned frame is removed from all replacer state (history,
partition membership, evictable flag). Stated over replacer states that are
well formed in the sense established by every reachable use (ReplacerWF). -/
theorem claim_C1_evict_policy (r : LRUKReplacer) (hwf : ReplacerWF r) :
    (∀ f r', r.Evict = (some f, r') → f ∈ r.evictable ∧ f ∈ r.trackedKeys) ∧
    ((∃ e ∈ r.preliminary_queue, e.1 ∈ r.evictable) →
      ∃ f hh r', r.Evict = (some f, r') ∧ (f, hh) ∈ r.preliminary_queue ∧
        f ∈ r.evictable ∧
        ∀ e ∈ r.preliminary_queue, e.1 ∈ r.evictable → e.1 ≠ f →
          front hh < front e.2) ∧
    ((∀ e ∈ r.preliminary_queue, e.1 ∉ r.evictable) →
      (∃ e ∈ r.lru_cache_queue, e.1 ∈ r.evictable) →
      ∃ f hh r', r.Evict = (some f, r') ∧ (f, hh) ∈ r.lru_cache_queue ∧
        f ∈ r.evictable ∧
        ∀ e ∈ r.lru_cache_queue, e.1 ∈ r.evictable → e.1 ≠ f →
          front hh < front e.2) ∧
    ((∀ e ∈ r.preliminary_queue ++ r.lru_cache_queue, e.1 ∉ r.evictable) →
      r.Evict.1 = none) ∧
    (∀ f r', r.Evict = (some f, r') →
      f ∉ keysOf r'.preliminary_queue ∧ f ∉ keysOf r'.lru_cache_queue ∧
        f ∉ r'.evictable) := by
  obtain ⟨hw1, hw2, hw3, hw4, hw5, hw6⟩ := hwf
  have hp1 : -1 ∉ keysOf r.preliminary_queue := by
    intro hmem
    exact hw6 (-1) (List.mem_append.2 (Or.inl hmem)) rfl
  have hp2 : -1 ∉ keysOf r.lru_cache_queue := by
    intro hmem
    exact hw6 (-1) (List.mem_append.2 (Or.inr hmem)) rfl
  have hndp : (r.preliminary_queue.map (fun e => front e.2)).Nodup := by
    rw [List.map_append] at hw2
    exact hw2.of_append_left
  have hndc : (r.lru_cache_queue.map (fun e => front e.2)).Nodup := by
    rw [List.map_append] at hw2
    exact hw2.of_append_right
  refine ⟨?_, ?_, ?_, ?_, ?_⟩
  · intro f r' h
    obtain ⟨hev, hcase⟩ := Evict_some_cases hp1 h
    refine ⟨hev, ?_⟩
    rcases hcase with ⟨hh, hmem, _⟩ | ⟨hh, hmem, _⟩
    · exact List.mem_append.2 (Or.inl (mem_keysOf.2 ⟨hh, hmem⟩))
    · exact List.mem_append.2 (Or.inr (mem_keysOf.2 ⟨hh, hmem⟩))
  · rintro ⟨e0, he0mem, he0ev⟩
    obtain ⟨hcase, hble, hall⟩ :=
      scanQueue_spec r.evictable r.preliminary_queue (-1, r.clock + 1)
    have he0lt : front e0.2 < r.clock + 1 :=
      Nat.lt_succ_of_lt (hw1 e0 (List.mem_append.2 (Or.inl he0mem))).2
    have hlt : (scanQueue r.evictable r.preliminary_queue (-1, r.clock + 1)).2 <
        r.clock + 1 :=
      Nat.lt_of_le_of_lt (hall e0 he0mem he0ev) he0lt
    rcases hcase with hacc | ⟨hpev, hh, hpmem, hfr⟩
    · exfalso
      rw [hacc] at hlt
      exact Nat.lt_irrefl _ hlt
    · have h1 : ¬(r.preliminary_queue = [] ∧ r.lru_cache_queue = []) := by
        rintro ⟨ha, _⟩
        rw [ha] at he0mem
        cases he0mem
      have h2 : (lookupKey r.preliminary_queue
          (scanQueue r.evictable r.preliminary_queue (-1, r.clock + 1)).1).isSome :=
        mem_lookupKey_isSome hpmem
      have hEv : r.Evict =
          (some (scanQueue r.evictable r.preliminary_queue (-1, r.clock + 1)).1,
            { r with clock := r.clock + 1,
                     preliminary_queue := eraseKey r.preliminary_queue
                       (scanQueue r.evictable r.preliminary_queue (-1, r.clock + 1)).1,
                     evictable := removeAll r.evictable
                       (scanQueue r.evictable r.preliminary_queue
                         (-1, r.clock + 1)).1 }) := by
        rw [Evict_eq, if_neg h1, if_pos h2]
      refine ⟨_, hh, _, hEv, hpmem, hpev, ?_⟩
      intro e hemem heev hene
      have hle := hall e hemem heev
      rw [← hfr] at hle
      refine Nat.lt_of_le_of_ne hle ?_
      intro hfeq
      have heq := eq_of_front_eq hndp
        ((scanQueue r.evictable r.preliminary_queue (-1, r.clock + 1)).1, hh)
        hpmem e hemem hfeq
      exact hene (by rw [← heq])
  · rintro hnop ⟨e0, he0mem, he0ev⟩
    obtain ⟨hcase, hble, hall⟩ :=
      scanQueue_spec r.evictable r.preliminary_queue (-1, r.clock + 1)
    have hpacc : scanQueue r.evictable r.preliminary_queue (-1, r.clock + 1) =
        (-1, r.clock + 1) := by
      rcases hcase with hacc | ⟨hpev, hh, hpmem, _⟩
      · exact hacc
      · exact absurd hpev (hnop _ hpmem)
    have h1 : ¬(r.preliminary_queue = [] ∧ r.lru_cache_queue = []) := by
      rintro ⟨_, hb⟩
      rw [hb] at he0mem
      cases he0mem
    have h2 : ¬(lookupKey r.preliminary_queue
        (scanQueue r.evictable r.preliminary_queue (-1, r.clock + 1)).1).isSome := by
      rw [hpacc]
      rw [(lookupKey_eq_none _ _).2 hp1]
      simp
    obtain ⟨hcasem, hmle, hallm⟩ :=
      scanQueue_spec r.evictable r.lru_cache_queue
        (scanQueue r.evictable r.preliminary_queue (-1, r.clock + 1))
    have he0lt : front e0.2 < r.clock + 1 :=
      Nat.lt_succ_of_lt (hw1 e0 (List.mem_append.2 (Or.inr he0mem))).2
    have hltm : (scanQueue r.evictable r.lru_cache_queue
        (scanQueue r.evictable r.preliminary_queue (-1, r.clock + 1))).2 <
        r.clock + 1 :=
      Nat.lt_of_le_of_lt (hallm e0 he0mem he0ev) he0lt
    rcases hcasem with hmacc | ⟨hmev, hh, hmmem, hfrm⟩
    · exfalso
      rw [hmacc, hpacc] at hltm
      exact Nat.lt_irrefl _ hltm
    · have h3 : (scanQueue r.evictable r.lru_cache_queue
          (scanQueue r.evictable r.preliminary_queue (-1, r.clock + 1))).1 ≠ -1 := by
        intro hne
        rw [hne] at hmmem
        exact hp2 (mem_keysOf.2 ⟨hh, hmmem⟩)
      have hEv : r.Evict =
          (some (scanQueue r.evictable r.lru_cache_queue
              (scanQueue r.evictable r.preliminary_queue (-1, r.clock + 1))).1,
            { r with clock := r.clock + 1,
                     lru_cache_queue := eraseKey r.lru_cache_queue
                       (scanQueue r.evictable r.lru_cache_queue
                         (scanQueue r.evictable r.preliminary_queue
                           (-1, r.clock + 1))).1,
                     evictable := removeAll r.evictable
                       (scanQueue r.evictable r.lru_cache_queue
                         (scanQueue r.evictable r.preliminary_queue
                           (-1, r.clock + 1))).1 }) := by
        rw [Evict_eq, if_neg h1, if_neg h2, if_pos h3]
      refine ⟨_, hh, _, hEv, hmmem, hmev, ?_⟩
      intro e hemem heev hene
      have hle := hallm e hemem heev
      rw [← hfrm] at hle
      refine Nat.lt_of_le_of_ne hle ?_
      intro hfeq
      have heq := eq_of_front_eq hndc
        ((scanQueue r.evictable r.lru_cache_queue
          (scanQueue r.evictable r.preliminary_queue (-1, r.clock + 1))).1, hh)
        hmmem e hemem hfeq
      exact hene (by rw [← heq])
  · intro hno
    by_cases h1 : r.preliminary_queue = [] ∧ r.lru_cache_queue = []
    · rw [Evict_eq, if_pos h1]
    · obtain ⟨hcase, _, _⟩ :=
        scanQueue_spec r.evictable r.preliminary_queue (-1, r.clock + 1)
      have hpacc : scanQueue r.evictable r.preliminary_queue (-1, r.clock + 1) =
          (-1, r.clock + 1) := by
        rcases hcase with hacc | ⟨hpev, hh, hpmem, _⟩
        · exact hacc
        · exact absurd hpev (hno _ (List.mem_append.2 (Or.inl hpmem)))
      have h2 : ¬(lookupKey r.preliminary_queue
          (scanQueue r.evictable r.preliminary_queue (-1, r.clock + 1)).1).isSome := by
        rw [hpacc]
        rw [(lookupKey_eq_none _ _).2 hp1]
        simp
      obtain ⟨hcasem, _, _⟩ :=
        scanQueue_spec r.evictable r.lru_cache_queue
          (scanQueue r.evictable r.preliminary_queue (-1, r.clock + 1))
      have hmacc : scanQueue r.evictable r.lru_cache_queue
          (scanQueue r.evictable r.preliminary_queue (-1, r.clock + 1)) =
          (-1, r.clock + 1) := by
        rcases hcasem with hacc | ⟨hmev, hh, hmmem, _⟩
        · rw [hacc, hpacc]
        · exact absurd hmev (hno _ (List.mem_append.2 (Or.inr hmmem)))
      have h3 : ¬(scanQueue r.evictable r.lru_cache_queue
          (scanQueue r.evictable r.preliminary_queue (-1, r.clock + 1))).1 ≠ -1 := by
        rw [hmacc]
        simp
      rw [Evict_eq, if_neg h1, if_neg h2, if_neg h3]
  · intro f r' h
    obtain ⟨hev, hcase⟩ := Evict_some_cases hp1 h
    rcases hcase with ⟨hh, hmem, hrec⟩ | ⟨hh, hmem, hrec⟩
    · subst hrec
      refine ⟨?_, ?_, ?_⟩
      · intro hc
        exact ((mem_keysOf_eraseKey _ _ _).1 hc).2 rfl
      · intro hc
        exact hw5 f (mem_keysOf.2 ⟨hh, hmem⟩) hc
      · intro hc
        exact ((mem_removeAll _ _ _).1 hc).2 rfl
    · subst hrec
      refine ⟨?_, ?_, ?_⟩
      · intro hc
        exact hw5 f hc (mem_keysOf.2 ⟨hh, hmem⟩)
      · intro hc
        exact ((mem_keysOf_eraseKey _ _ _).1 hc).2 rfl
      · intro hc
        exact ((mem_removeAll _ _ _).1 hc).2 rfl

/-- Witness for C1 at the concrete replacer exampleReplacer. -/
theorem claim_C1_witness :
    ReplacerWF exampleReplacer ∧
    ((∀ f r', exampleReplacer.Evict = (some f, r') →
        f ∈ exampleReplacer.evictable ∧ f ∈ exampleReplacer.trackedKeys) ∧
     ((∃ e ∈ exampleReplacer.preliminary_queue, e.1 ∈ exampleReplacer.evictable) →
       ∃ f hh r', exampleReplacer.Evict = (some f, r') ∧
         (f, hh) ∈ exampleReplacer.preliminary_queue ∧
         f ∈ exampleReplacer.evictable ∧
         ∀ e ∈ exampleReplacer.preliminary_queue, e.1 ∈ exampleReplacer.evictable →
           e.1 ≠ f → front hh < front e.2) ∧
     ((∀ e ∈ exampleReplacer.preliminary_queue, e.1 ∉ exampleReplacer.evictable) →
       (∃ e ∈ exampleReplacer.lru_cache_queue, e.1 ∈ exampleReplacer.evictable) →
       ∃ f hh r', exampleReplacer.Evict = (some f, r') ∧
         (f, hh) ∈ exampleReplacer.lru_cache_queue ∧
         f ∈ exampleReplacer.evictable ∧
         ∀ e ∈ exampleReplacer.lru_cache_queue, e.1 ∈ exampleReplacer.evictable →
           e.1 ≠ f → front hh < front e.2) ∧
     ((∀ e ∈ exampleReplacer.preliminary_queue ++ exampleReplacer.lru_cache_queue,
         e.1 ∉ exampleReplacer.evictable) →
       exampleReplacer.Evict.1 = none) ∧
     (∀ f r', exampleReplacer.Evict = (some f, r') →
       f ∉ keysOf r'.preliminary_queue ∧ f ∉ keysOf r'.lru_cache_queue ∧
         f ∉ r'.evictable)) :=
  ⟨by unfold ReplacerWF; decide, claim_C1_evict_policy exampleReplacer (by unfold ReplacerWF; decide)⟩

/-- What a successful (pin-decrementing) UnpinPgImp does to the state. -/
theorem Unpin_pos_state (s : BufferPoolManagerInstance) (pid : PageId) (fid : FrameId)
    (d : Bool) (h : lookupKey s.page_table pid = some fid)
    (hp : ¬ (getPageAt s fid).pin_count ≤ 0) :
    (UnpinPgImp s pid d).1 = true ∧
    (UnpinPgImp s pid d).2.page_table = s.page_table ∧
    (UnpinPgImp s pid d).2.pages.length = s.pages.length ∧
    getPageAt (UnpinPgImp s pid d).2 fid =
      { getPageAt s fid with is_dirty := d || (getPageAt s fid).is_dirty,
                             pin_count := (getPageAt s fid).pin_count - 1 } ∧
    (UnpinPgImp s pid d).2.replacer =
      (if (getPageAt s fid).pin_count - 1 = 0 then s.replacer.SetEvictable fid true
       else s.replacer) := by
  have hrange : 0 ≤ fid ∧ fid.toNat < s.pages.length := by
    by_contra hc
    rw [getPageAt_out_of_range hc] at hp
    exact hp (by decide)
  rw [UnpinPgImp_pos d h hp]
  by_cases hz : (getPageAt s fid).pin_count - 1 = 0
  · rw [if_pos hz, if_pos hz]
    refine ⟨rfl, ?_, ?_, ?_, rfl⟩
    · show (setPageAt s fid _).page_table = s.page_table
      exact setPageAt_page_table _ _ _
    · show (setPageAt s fid _).pages.length = s.pages.length
      exact setPageAt_pages_length _ _ _
    · have hpg : ({ setPageAt s fid
          { getPageAt s fid with is_dirty := d || (getPageAt s fid).is_dirty,
                                 pin_count := (getPageAt s fid).pin_count - 1 } with
           replacer := s.replacer.SetEvictable fid true } :
          BufferPoolManagerInstance).pages =
          (setPageAt s fid
            { getPageAt s fid with is_dirty := d || (getPageAt s fid).is_dirty,
                                   pin_count := (getPageAt s fid).pin_count - 1 }).pages :=
        rfl
      rw [getPageAt_pages_congr hpg]
      exact getPageAt_setPageAt_self _ hrange.1 hrange.2
  · rw [if_neg hz, if_neg hz]
    refine ⟨rfl, setPageAt_page_table _ _ _, setPageAt_pages_length _ _ _, ?_,
      setPageAt_replacer _ _ _⟩
    exact getPageAt_setPageAt_self _ hrange.1 hrange.2

/-- C2: In every state reachable by any sequence of pool operations, a frame
is marked evictable in the replacer only if its pin_count is 0; consequently
every frame the replacer's Evict hands back to the pool has pin_count == 0 at
the moment of eviction — a pinned frame is never evicted. -/
theorem claim_C2_no_pinned_eviction (s : BufferPoolManagerInstance)
    (hr : ReachableAny s) :
    (∀ fid ∈ s.replacer.evictable, (getPageAt s fid).pin_count = 0) ∧
    (∀ fid r', s.replacer.Evict = (some fid, r') →
      (getPageAt s fid).pin_count = 0) := by
  have inv := ReachableAny_PoolInv hr
  have hp1 : -1 ∉ keysOf s.replacer.preliminary_queue := by
    intro hmem
    have := inv.tracked_range (-1) (List.mem_append.2 (Or.inl hmem))
    exact absurd this.1 (by decide)
  refine ⟨inv.evictable_pin0, ?_⟩
  intro fid r' h
  exact inv.evictable_pin0 fid (Evict_some_cases hp1 h).1

/-- Witness for C2 at a one-frame pool after NewPage and UnpinPage. -/
theorem claim_C2_witness :
    (∀ fid ∈ smallPool2.replacer.evictable,
      (getPageAt smallPool2 fid).pin_count = 0) ∧
    (∀ fid r', smallPool2.replacer.Evict = (some fid, r') →
      (getPageAt smallPool2 fid).pin_count = 0) :=
  claim_C2_no_pinned_eviction smallPool2
    (ReachableAny.step (PoolOp.unpinPage 0 false)
      (ReachableAny.step PoolOp.newPage (ReachableAny.init 1 2)))

/-- C3: For every execution, whenever NewPage or FetchPage reuses a frame
obtained by eviction (free list empty) and that frame's dirty bit is set,
exactly one WritePage call with the evicted frame's PageId and its current
bytes happens before the frame is reused for the new page; if the evicted
frame is clean, no WritePage call happens on that eviction path.  Stated as
exact trace equations: the dirty eviction path appends exactly the one write
(before the fetch path's read), the clean path appends no write. -/
theorem claim_C3_eviction_writeback (s : BufferPoolManagerInstance)
    (hr : ReachableAny s) (hfl : s.free_list = []) :
    (∀ pid fid s', NewPgImp s = (some (pid, fid), s') →
      ((getPageAt s fid).is_dirty = true →
        s'.trace = s.trace ++
          [DiskEvent.write (getPageAt s fid).page_id (getPageAt s fid).data]) ∧
      ((getPageAt s fid).is_dirty = false → s'.trace = s.trace)) ∧
    (∀ q fid s', lookupKey s.page_table q = none →
      FetchPgImp s q = (some fid, s') →
      ((getPageAt s fid).is_dirty = true →
        s'.trace = s.trace ++
          [DiskEvent.write (getPageAt s fid).page_id (getPageAt s fid).data,
           DiskEvent.read q]) ∧
      ((getPageAt s fid).is_dirty = false →
        s'.trace = s.trace ++ [DiskEvent.read q])) := by
  have inv := ReachableAny_PoolInv hr
  constructor
  · intro pid fid s' hsucc
    by_cases hn : numFreePages s = 0
    · rw [NewPgImp_fail hn] at hsucc
      simp only [Prod.mk.injEq] at hsucc
      exact absurd hsucc.1 (by simp)
    · have inv' : PoolInv { s with next_page_id := s.next_page_id + 1 } :=
        @PoolInv_congr s { s with next_page_id := s.next_page_id + 1 }
          rfl rfl rfl rfl rfl inv
      have hn' : ¬ numFreePages { s with next_page_id := s.next_page_id + 1 } = 0 := hn
      have hfl1 : ({ s with next_page_id := s.next_page_id + 1 } :
          BufferPoolManagerInstance).free_list = [] := hfl
      obtain ⟨e, rep', hev, he0, heub, helen⟩ := evict_ready inv' hn' hfl1
      rw [NewPgImp_succeed hn, pickFrame_evict hfl1,
        evictAndPrepare_spec hev he0 helen] at hsucc
      dsimp only at hsucc
      simp only [Prod.mk.injEq, Option.some.injEq] at hsucc
      obtain ⟨⟨hpid, hfid⟩, hs'⟩ := hsucc
      subst hpid
      subst hfid
      subst hs'
      have hlen2 : e.toNat <
          ({ { s with next_page_id := s.next_page_id + 1 } with
              replacer := rep',
              pages := ({ s with next_page_id := s.next_page_id + 1 } :
                BufferPoolManagerInstance).pages.set e.toNat
                { getPageAt { s with next_page_id := s.next_page_id + 1 } e with
                   is_dirty := false, data := zeroPageData },
              disk := if (getPageAt { s with next_page_id := s.next_page_id + 1 } e).is_dirty
                  then setKey ({ s with next_page_id := s.next_page_id + 1 } :
                    BufferPoolManagerInstance).disk
                    (getPageAt { s with next_page_id := s.next_page_id + 1 } e).page_id
                    (getPageAt { s with next_page_id := s.next_page_id + 1 } e).data
                  else ({ s with next_page_id := s.next_page_id + 1 } :
                    BufferPoolManagerInstance).disk,
              trace := if (getPageAt { s with next_page_id := s.next_page_id + 1 } e).is_dirty
                  then ({ s with next_page_id := s.next_page_id + 1 } :
                    BufferPoolManagerInstance).trace ++
                    [DiskEvent.write
                      (getPageAt { s with next_page_id := s.next_page_id + 1 } e).page_id
                      (getPageAt { s with next_page_id := s.next_page_id + 1 } e).data]
                  else ({ s with next_page_id := s.next_page_id + 1 } :
                    BufferPoolManagerInstance).trace,
              page_table := eraseKey ({ s with next_page_id := s.next_page_id + 1 } :
                BufferPoolManagerInstance).page_table
                (getPageAt { s with next_page_id := s.next_page_id + 1 } e).page_id } :
            BufferPoolManagerInstance).pages.length := by
        show e.toNat < (({ s with next_page_id := s.next_page_id + 1 } :
          BufferPoolManagerInstance).pages.set e.toNat _).length
        rw [List.length_set]
        exact helen
      obtain ⟨_, _, _, _, _, _, _, _, _, f10⟩ :=
        installed_state_facts _ e s.next_page_id he0 hlen2
      have htr : (finishInstall
          (installPage _ e s.next_page_id) e).trace =
          (if (getPageAt s e).is_dirty then
            s.trace ++ [DiskEvent.write (getPageAt s e).page_id (getPageAt s e).data]
          else s.trace) := f10
      constructor
      · intro hd
        rw [htr, if_pos hd]
      · intro hd
        rw [htr, if_neg (by rw [hd]; exact Bool.false_ne_true)]
  · intro q fid s' hlook hsucc
    by_cases hn : numFreePages s = 0
    · rw [FetchPgImp_fail hlook hn] at hsucc
      simp only [Prod.mk.injEq] at hsucc
      exact absurd hsucc.1 (by simp)
    · obtain ⟨e, rep', hev, he0, heub, helen⟩ := evict_ready inv hn hfl
      rw [FetchPgImp_miss hlook hn, pickFrame_evict hfl,
        evictAndPrepare_spec hev he0 helen] at hsucc
      dsimp only at hsucc
      simp only [Prod.mk.injEq, Option.some.injEq] at hsucc
      obtain ⟨hfid, hs'⟩ := hsucc
      subst hfid
      subst hs'
      have hlen2 : e.toNat <
          ({ s with
              replacer := rep',
              pages := s.pages.set e.toNat
                { getPageAt s e with is_dirty := false, data := zeroPageData },
              disk := if (getPageAt s e).is_dirty
                then setKey s.disk (getPageAt s e).page_id (getPageAt s e).data
                else s.disk,
              trace := if (getPageAt s e).is_dirty
                then s.trace ++
                  [DiskEvent.write (getPageAt s e).page_id (getPageAt s e).data]
                else s.trace,
              page_table := eraseKey s.page_table (getPageAt s e).page_id } :
            BufferPoolManagerInstance).pages.length := by
        show e.toNat < (s.pages.set e.toNat _).length
        rw [List.length_set]
        exact helen
      obtain ⟨_, _, _, _, _, _, _, _, _, f10⟩ :=
        fetch_installed_state_facts _ e q he0 hlen2
      have htr : (finishInstall
          (setPageAt
            { installPage _ e q with
               trace := (installPage _ e q).trace ++ [DiskEvent.read q] }
            e
            { getPageAt (installPage _ e q) e with
               data := readDisk (installPage _ e q).disk q }) e).trace =
          (if (getPageAt s e).is_dirty then
            s.trace ++ [DiskEvent.write (getPageAt s e).page_id (getPageAt s e).data]
          else s.trace) ++ [DiskEvent.read q] := f10
      constructor
      · intro hd
        rw [htr, if_pos hd, List.append_assoc]
        rfl
      · intro hd
        rw [htr, if_neg (by rw [hd]; exact Bool.false_ne_true)]

/-- Witness for C3 at the one-frame pool with an empty free list. -/
theorem claim_C3_witness :
    smallPool2.free_list = [] ∧
    ((∀ pid fid s', NewPgImp smallPool2 = (some (pid, fid), s') →
       ((getPageAt smallPool2 fid).is_dirty = true →
         s'.trace = smallPool2.trace ++
           [DiskEvent.write (getPageAt smallPool2 fid).page_id
             (getPageAt smallPool2 fid).data]) ∧
       ((getPageAt smallPool2 fid).is_dirty = false → s'.trace = smallPool2.trace)) ∧
     (∀ q fid s', lookupKey smallPool2.page_table q = none →
       FetchPgImp smallPool2 q = (some fid, s') →
       ((getPageAt smallPool2 fid).is_dirty = true →
         s'.trace = smallPool2.trace ++
           [DiskEvent.write (getPageAt smallPool2 fid).page_id
             (getPageAt smallPool2 fid).data,
            DiskEvent.read q]) ∧
       ((getPageAt smallPool2 fid).is_dirty = false →
         s'.trace = smallPool2.trace ++ [DiskEvent.read q]))) :=
  ⟨by decide,
   claim_C3_eviction_writeback smallPool2
     (ReachableAny.step (PoolOp.unpinPage 0 false)
       (ReachableAny.step PoolOp.newPage (ReachableAny.init 1 2)))
     (by decide)⟩

/-- C4: For every resident page p whose frame's dirty bit is set, calling
UnpinPage(p, is_dirty=false) leaves the dirty bit set; in particular, after a
successful UnpinPage(p, true), a subsequent UnpinPage(p, false) within the
same residency leaves the frame dirty (the dirty bit is sticky). -/
theorem claim_C4_sticky_dirty (s : BufferPoolManagerInstance) (pid : PageId)
    (fid : FrameId) (h : lookupKey s.page_table pid = some fid) :
    ((getPageAt s fid).is_dirty = true →
      (getPageAt (UnpinPgImp s pid false).2 fid).is_dirty = true) ∧
    ((UnpinPgImp s pid true).1 = true →
      (getPageAt (UnpinPgImp (UnpinPgImp s pid true).2 pid false).2 fid).is_dirty =
        true) := by
  constructor
  · intro hd
    by_cases hp : (getPageAt s fid).pin_count ≤ 0
    · rw [UnpinPgImp_zero false h hp]
      exact hd
    · obtain ⟨_, _, _, hfr, _⟩ := Unpin_pos_state s pid fid false h hp
      rw [hfr]
      simp [hd]
  · intro hsucc
    have hp : ¬ (getPageAt s fid).pin_count ≤ 0 := by
      intro hle
      rw [UnpinPgImp_zero true h hle] at hsucc
      exact Bool.false_ne_true hsucc
    obtain ⟨_, htab1, _, hfr1, _⟩ := Unpin_pos_state s pid fid true h hp
    have hlk1 : lookupKey (UnpinPgImp s pid true).2.page_table pid = some fid := by
      rw [htab1]
      exact h
    have hd1 : (getPageAt (UnpinPgImp s pid true).2 fid).is_dirty = true := by
      rw [hfr1]
      simp
    by_cases hp1 : (getPageAt (UnpinPgImp s pid true).2 fid).pin_count ≤ 0
    · rw [UnpinPgImp_zero false hlk1 hp1]
      exact hd1
    · obtain ⟨_, _, _, hfr2, _⟩ :=
        Unpin_pos_state (UnpinPgImp s pid true).2 pid fid false hlk1 hp1
      rw [hfr2]
      simp [hd1]

/-- Witness for C4 at the one-frame pool with page 0 pinned. -/
theorem claim_C4_witness :
    lookupKey smallPool1.page_table 0 = some 0 ∧
    (((getPageAt smallPool1 (0 : Int)).is_dirty = true →
       (getPageAt (UnpinPgImp smallPool1 0 false).2 (0 : Int)).is_dirty = true) ∧
     ((UnpinPgImp smallPool1 0 true).1 = true →
       (getPageAt (UnpinPgImp (UnpinPgImp smallPool1 0 true).2 0 false).2
         (0 : Int)).is_dirty = true)) :=
  ⟨by decide, claim_C4_sticky_dirty smallPool1 0 0 (by decide)⟩

/-- C5 (amended): RecordAccess rejects silently exactly when
frame_id ≥ replacer_size or frame_id = -1; the claimed guard over the whole
range [0, pool_size) does not hold for negative frame ids other than -1. -/
theorem claim_C5_record_access_reject (r : LRUKReplacer) (fid : FrameId)
    (h : (r.replacer_size : Int) ≤ fid ∨ fid = -1) :
    r.RecordAccess fid = r :=
  RecordAccess_reject h

/-- Witness for C5 at the concrete replacer and frame id 5 ≥ replacer_size. -/
theorem claim_C5_witness :
    ((exampleReplacer.replacer_size : Int) ≤ 5 ∨ (5 : Int) = -1) ∧
    exampleReplacer.RecordAccess 5 = exampleReplacer :=
  ⟨by decide, claim_C5_record_access_reject exampleReplacer 5 (by decide)⟩

/-- Counterexample for C5 as claimed: frame id -2 is outside [0, pool_size)
for a replacer of 4 frames, yet RecordAccess(-2) is not rejected — it creates
a preliminary-queue entry for -2 with the current timestamp. -/
theorem claim_C5_counterexample :
    ¬((0 : Int) ≤ -2 ∧ (-2 : Int) < ((LRUKReplacer.mk0 4 2).replacer_size : Int)) ∧
    (LRUKReplacer.mk0 4 2).RecordAccess (-2) ≠ LRUKReplacer.mk0 4 2 ∧
    lookupKey ((LRUKReplacer.mk0 4 2).RecordAccess (-2)).preliminary_queue (-2) =
      some [0] := by decide

/-- C6: For every page_id and boolean is_dirty, UnpinPage(page_id, is_dirty)
returns false if page_id is not in the page table, returns false if the
resident frame's pin_count is already zero, and otherwise decrements
pin_count by one, returns true, and marks the frame evictable in the replacer
exactly when the decrement brings pin_count to zero; pin_count never goes
below zero (stated over states reachable by any operation sequence, where
pin counts are non-negative). -/
theorem claim_C6_unpin_contract (s : BufferPoolManagerInstance)
    (hr : ReachableAny s) (pid : PageId) (d : Bool) :
    (lookupKey s.page_table pid = none → UnpinPgImp s pid d = (false, s)) ∧
    (∀ fid, lookupKey s.page_table pid = some fid →
      (getPageAt s fid).pin_count = 0 → UnpinPgImp s pid d = (false, s)) ∧
    (∀ fid, lookupKey s.page_table pid = some fid →
      (getPageAt s fid).pin_count ≠ 0 →
      (UnpinPgImp s pid d).1 = true ∧
      (getPageAt (UnpinPgImp s pid d).2 fid).pin_count =
        (getPageAt s fid).pin_count - 1 ∧
      0 ≤ (getPageAt (UnpinPgImp s pid d).2 fid).pin_count ∧
      (fid ∈ (UnpinPgImp s pid d).2.replacer.evictable ↔
        (getPageAt s fid).pin_count - 1 = 0)) ∧
    (∀ i : Nat, i < s.pool_size → 0 ≤ (getPageAt s (i : Int)).pin_count) := by
  have inv := ReachableAny_PoolInv hr
  refine ⟨?_, ?_, ?_, inv.pins_nonneg⟩
  · intro hlk
    exact UnpinPgImp_not_resident d hlk
  · intro fid hlk hp0
    exact UnpinPgImp_zero d hlk (le_of_eq hp0)
  · intro fid hlk hpnz
    obtain ⟨h0f, hubf, _⟩ := inv.table_frame (pid, fid) (lookupKey_some_mem hlk)
    have hpin0 : 0 ≤ (getPageAt s fid).pin_count := by
      have := inv.pins_nonneg fid.toNat (toNat_lt_of_int_lt h0f hubf)
      rwa [Int.toNat_of_nonneg h0f] at this
    have hp : ¬ (getPageAt s fid).pin_count ≤ 0 := by
      intro hle
      exact hpnz (le_antisymm hle hpin0)
    obtain ⟨h1t, _, _, hfr, hrep⟩ := Unpin_pos_state s pid fid d hlk hp
    refine ⟨h1t, ?_, ?_, ?_⟩
    · rw [hfr]
    · rw [hfr]
      show 0 ≤ (getPageAt s fid).pin_count - 1
      omega
    · rw [hrep]
      have htr : fid ∈ s.replacer.trackedKeys :=
        inv.resident_tracked (pid, fid) (lookupKey_some_mem hlk)
      by_cases hz : (getPageAt s fid).pin_count - 1 = 0
      · rw [if_pos hz]
        refine iff_of_true ?_ hz
        rw [SetEvictable_tracked_true htr]
        show fid ∈ (if fid ∈ s.replacer.evictable then s.replacer.evictable
          else fid :: s.replacer.evictable)
        by_cases hev : fid ∈ s.replacer.evictable
        · rw [if_pos hev]
          exact hev
        · rw [if_neg hev]
          exact List.mem_cons_self _ _
      · rw [if_neg hz]
        refine iff_of_false ?_ hz
        intro hev
        exact hpnz (inv.evictable_pin0 fid hev)

/-- Witness for C6 at the one-frame pool with page 0 pinned. -/
theorem claim_C6_witness :
    (lookupKey smallPool1.page_table 0 = none →
      UnpinPgImp smallPool1 0 false = (false, smallPool1)) ∧
    (∀ fid, lookupKey smallPool1.page_table 0 = some fid →
      (getPageAt smallPool1 fid).pin_count = 0 →
      UnpinPgImp smallPool1 0 false = (false, smallPool1)) ∧
    (∀ fid, lookupKey smallPool1.page_table 0 = some fid →
      (getPageAt smallPool1 fid).pin_count ≠ 0 →
      (UnpinPgImp smallPool1 0 false).1 = true ∧
      (getPageAt (UnpinPgImp smallPool1 0 false).2 fid).pin_count =
        (getPageAt smallPool1 fid).pin_count - 1 ∧
      0 ≤ (getPageAt (UnpinPgImp smallPool1 0 false).2 fid).pin_count ∧
      (fid ∈ (UnpinPgImp smallPool1 0 false).2.replacer.evictable ↔
        (getPageAt smallPool1 fid).pin_count - 1 = 0)) ∧
    (∀ i : Nat, i < smallPool1.pool_size →
      0 ≤ (getPageAt smallPool1 (i : Int)).pin_count) :=
  claim_C6_unpin_contract smallPool1
    (ReachableAny.step PoolOp.newPage (ReachableAny.init 1 2)) 0 false

/-- C7: For every page_id, DeletePage(page_id) returns true when the page is
not resident (nothing to do); returns false when the page is resident with
pin_count > 0; and otherwise removes the frame from the replacer, resets the
frame's bytes and metadata (page_id = INVALID_PAGE_ID, pin_count = 0,
dirty = false), removes the entry from the page table, pushes the frame onto
the free list, informs the DiskManager that the PageId may be deallocated,
and returns true. -/
theorem claim_C7_delete_contract (s : BufferPoolManagerInstance)
    (hr : ReachableAny s) (pid : PageId) :
    (lookupKey s.page_table pid = none → DeletePgImp s pid = (true, s)) ∧
    (∀ fid, lookupKey s.page_table pid = some fid →
      0 < (getPageAt s fid).pin_count → DeletePgImp s pid = (false, s)) ∧
    (∀ fid, lookupKey s.page_table pid = some fid →
      ¬ 0 < (getPageAt s fid).pin_count →
      (DeletePgImp s pid).1 = true ∧
      getPageAt (DeletePgImp s pid).2 fid = defaultPage ∧
      (getPageAt (DeletePgImp s pid).2 fid).page_id = INVALID_PAGE_ID ∧
      (getPageAt (DeletePgImp s pid).2 fid).pin_count = 0 ∧
      (getPageAt (DeletePgImp s pid).2 fid).is_dirty = false ∧
      (getPageAt (DeletePgImp s pid).2 fid).data = zeroPageData ∧
      lookupKey (DeletePgImp s pid).2.page_table pid = none ∧
      (DeletePgImp s pid).2.free_list = s.free_list ++ [fid] ∧
      fid ∉ (DeletePgImp s pid).2.replacer.trackedKeys ∧
      fid ∉ (DeletePgImp s pid).2.replacer.evictable ∧
      (DeletePgImp s pid).2.trace = s.trace ++ [DiskEvent.deallocate pid]) := by
  have inv := ReachableAny_PoolInv hr
  refine ⟨?_, ?_, ?_⟩
  · intro hlk
    exact DeletePgImp_not_resident hlk
  · intro fid hlk hp
    exact DeletePgImp_pinned hlk hp
  · intro fid hlk hp
    obtain ⟨h0f, hubf, _⟩ := inv.table_frame (pid, fid) (lookupKey_some_mem hlk)
    have hlen : fid.toNat < s.pages.length := by
      rw [inv.frames_len]
      exact toNat_lt_of_int_lt h0f hubf
    have hrw := DeletePgImp_ok hlk hp h0f
    have hdef : getPageAt (DeletePgImp s pid).2 fid = defaultPage := by
      rw [hrw]
      show (if (0 : Int) ≤ fid then
        (s.pages.set fid.toNat defaultPage).getD fid.toNat defaultPage
        else defaultPage) = defaultPage
      rw [if_pos h0f]
      exact getD_set_self _ _ _ _ hlen
    refine ⟨?_, hdef, ?_, ?_, ?_, ?_, ?_, ?_, ?_, ?_, ?_⟩
    · rw [hrw]
    · rw [hdef]
      rfl
    · rw [hdef]
      rfl
    · rw [hdef]
      rfl
    · rw [hdef]
      rfl
    · rw [hrw]
      exact lookupKey_eraseKey_self _ _
    · rw [hrw]
    · rw [hrw]
      show fid ∉ keysOf (eraseKey s.replacer.preliminary_queue fid) ++
        keysOf (eraseKey s.replacer.lru_cache_queue fid)
      intro hc
      rcases List.mem_append.1 hc with hc | hc
      · exact ((mem_keysOf_eraseKey _ _ _).1 hc).2 rfl
      · exact ((mem_keysOf_eraseKey _ _ _).1 hc).2 rfl
    · rw [hrw]
      show fid ∉ removeAll s.replacer.evictable fid
      intro hc
      exact ((mem_removeAll _ _ _).1 hc).2 rfl
    · rw [hrw]

/-- Witness for C7 at the one-frame pool with page 0 unpinned. -/
theorem claim_C7_witness :
    (lookupKey smallPool2.page_table 0 = none →
      DeletePgImp smallPool2 0 = (true, smallPool2)) ∧
    (∀ fid, lookupKey smallPool2.page_table 0 = some fid →
      0 < (getPageAt smallPool2 fid).pin_count →
      DeletePgImp smallPool2 0 = (false, smallPool2)) ∧
    (∀ fid, lookupKey smallPool2.page_table 0 = some fid →
      ¬ 0 < (getPageAt smallPool2 fid).pin_count →
      (DeletePgImp smallPool2 0).1 = true ∧
      getPageAt (DeletePgImp smallPool2 0).2 fid = defaultPage ∧
      (getPageAt (DeletePgImp smallPool2 0).2 fid).page_id = INVALID_PAGE_ID ∧
      (getPageAt (DeletePgImp smallPool2 0).2 fid).pin_count = 0 ∧
      (getPageAt (DeletePgImp smallPool2 0).2 fid).is_dirty = false ∧
      (getPageAt (DeletePgImp smallPool2 0).2 fid).data = zeroPageData ∧
      lookupKey (DeletePgImp smallPool2 0).2.page_table 0 = none ∧
      (DeletePgImp smallPool2 0).2.free_list = smallPool2.free_list ++ [fid] ∧
      fid ∉ (DeletePgImp smallPool2 0).2.replacer.trackedKeys ∧
      fid ∉ (DeletePgImp smallPool2 0).2.replacer.evictable ∧
      (DeletePgImp smallPool2 0).2.trace =
        smallPool2.trace ++ [DiskEvent.deallocate 0]) :=
  claim_C7_delete_contract smallPool2
    (ReachableAny.step (PoolOp.unpinPage 0 false)
      (ReachableAny.step PoolOp.newPage (ReachableAny.init 1 2))) 0

/-- C8 (amended): in every state reachable by a legal call sequence (FetchPage
asked only for already-allocated page ids), the page table contains an entry
(p, f) if and only if frames[f].page_id = p and p ≠ INVALID_PAGE_ID; each
resident PageId maps to exactly one frame.  As claimed — over arbitrary
operation sequences — the equivalence fails (see the counterexample). -/
theorem claim_C8_table_frame_agreement (s : BufferPoolManagerInstance)
    (hr : Reachable s) (p : PageId) (f : FrameId) :
    ((p, f) ∈ s.page_table ↔
      ((getPageAt s f).page_id = p ∧ p ≠ INVALID_PAGE_ID)) ∧
    (∀ f', (p, f) ∈ s.page_table → (p, f') ∈ s.page_table → f = f') := by
  have inv := ReachableAny_PoolInv (Reachable_ReachableAny hr)
  have invL := Reachable_PoolInvL hr
  constructor
  · constructor
    · intro hmem
      obtain ⟨_, _, hpg⟩ := inv.table_frame (p, f) hmem
      refine ⟨hpg, ?_⟩
      intro hplow
      have h0p : (0 : Int) ≤ p := (invL.table_pid (p, f) hmem).1
      rw [hplow] at h0p
      exact absurd h0p (by decide)
    · rintro ⟨hpg, hpne⟩
      by_cases hrange : 0 ≤ f ∧ f.toNat < s.pages.length
      · have hps : f.toNat < s.pool_size := by
          rw [← inv.frames_len]
          exact hrange.2
        have hcast : ((f.toNat : Nat) : Int) = f := Int.toNat_of_nonneg hrange.1
        have hcomplete := invL.table_complete f.toNat hps
        rw [hcast, hpg] at hcomplete
        exact hcomplete hpne
      · exfalso
        rw [getPageAt_out_of_range hrange] at hpg
        exact hpne (by rw [← hpg]; rfl)
  · intro f' hmem hmem'
    have h1 := lookupKey_nodup_mem inv.table_keys_nodup hmem
    have h2 := lookupKey_nodup_mem inv.table_keys_nodup hmem'
    rw [h1] at h2
    exact Option.some.inj h2

/-- Witness for C8 at the one-frame pool after a legal NewPage. -/
theorem claim_C8_witness :
    (((0 : PageId), (0 : FrameId)) ∈ smallPool1.page_table ↔
      ((getPageAt smallPool1 (0 : Int)).page_id = 0 ∧
        (0 : PageId) ≠ INVALID_PAGE_ID)) ∧
    (∀ f', ((0 : PageId), (0 : FrameId)) ∈ smallPool1.page_table →
      ((0 : PageId), f') ∈ smallPool1.page_table → (0 : FrameId) = f') :=
  claim_C8_table_frame_agreement smallPool1
    (Reachable.step PoolOp.newPage (Reachable.init 1 2) True.intro) 0 0

/-- Counterexample for C8 as claimed: after the single operation
FetchPage(-1) on a fresh one-frame pool — a state reachable by a pool
operation sequence — the page table holds the entry (-1, 0), although
-1 = INVALID_PAGE_ID, so the claimed equivalence fails. -/
theorem claim_C8_counterexample :
    ReachableAny (applyOp (mkBufferPool 1 2) (PoolOp.fetchPage (-1))) ∧
    ((-1 : PageId), (0 : FrameId)) ∈
      (applyOp (mkBufferPool 1 2) (PoolOp.fetchPage (-1))).page_table ∧
    ¬((getPageAt (applyOp (mkBufferPool 1 2) (PoolOp.fetchPage (-1))) 0).page_id =
        -1 ∧ (-1 : PageId) ≠ INVALID_PAGE_ID) :=
  ⟨ReachableAny.step (PoolOp.fetchPage (-1)) (ReachableAny.init 1 2),
   by decide, by decide⟩

/-- C9 (amended): under legal call sequences, every successful NewPage call
returns a frame initialized with page_id equal to the freshly allocated
PageId, pin_count = 1, dirty = false, and all bytes zeroed, inserts
(new_page_id -> frame_id) into the page table, and the PageIds returned by
successive successful NewPage calls are strictly increasing.  As claimed —
over arbitrary operation sequences — the page-table insertion can silently
fail (see the counterexample). -/
theorem claim_C9_newpage_contract (s : BufferPoolManagerInstance) (hr : Reachable s)
    (pid : PageId) (fid : FrameId) (s' : BufferPoolManagerInstance)
    (hsucc : NewPgImp s = (some (pid, fid), s')) :
    getPageAt s' fid =
      { page_id := pid, pin_count := 1, is_dirty := false, data := zeroPageData } ∧
    lookupKey s'.page_table pid = some fid ∧
    pid = s.next_page_id ∧
    s'.next_page_id = pid + 1 ∧
    (∀ ops pid' fid' s'', NewPgImp (applyOps ops s') = (some (pid', fid'), s'') →
      pid < pid') := by
  have inv := ReachableAny_PoolInv (Reachable_ReachableAny hr)
  have invL := Reachable_PoolInvL hr
  by_cases hn : numFreePages s = 0
  · rw [NewPgImp_fail hn] at hsucc
    simp only [Prod.mk.injEq] at hsucc
    exact absurd hsucc.1 (by simp)
  · have inv' : PoolInv { s with next_page_id := s.next_page_id + 1 } :=
      @PoolInv_congr s { s with next_page_id := s.next_page_id + 1 }
        rfl rfl rfl rfl rfl inv
    have hn' : ¬ numFreePages { s with next_page_id := s.next_page_id + 1 } = 0 := hn
    have po := pickFrame_ok inv' hn'
    have hlen : (pickFrame { s with next_page_id := s.next_page_id + 1 }).1.toNat <
        (pickFrame { s with next_page_id := s.next_page_id + 1 }).2.pages.length := by
      rw [po.pages_len]
      have h2 : ({ s with next_page_id := s.next_page_id + 1 } :
          BufferPoolManagerInstance).pages.length = s.pool_size := inv.frames_len
      rw [h2]
      exact toNat_lt_of_int_lt po.fid_lb po.fid_ub
    obtain ⟨f1, f2, f3, f4, f5, f6, f7, f8, f9, f10⟩ :=
      installed_state_facts (pickFrame { s with next_page_id := s.next_page_id + 1 }).2
        (pickFrame { s with next_page_id := s.next_page_id + 1 }).1 s.next_page_id
        po.fid_lb hlen
    have hf3 : getPageAt
        (finishInstall
          (installPage (pickFrame { s with next_page_id := s.next_page_id + 1 }).2
            (pickFrame { s with next_page_id := s.next_page_id + 1 }).1 s.next_page_id)
          (pickFrame { s with next_page_id := s.next_page_id + 1 }).1)
        (pickFrame { s with next_page_id := s.next_page_id + 1 }).1 =
        { page_id := s.next_page_id, pin_count := 1, is_dirty := false,
          data := zeroPageData } := by
      rw [f3]
      have heta : getPageAt (pickFrame { s with next_page_id := s.next_page_id + 1 }).2
          (pickFrame { s with next_page_id := s.next_page_id + 1 }).1 =
          { page_id := (getPageAt (pickFrame { s with next_page_id := s.next_page_id + 1 }).2
              (pickFrame { s with next_page_id := s.next_page_id + 1 }).1).page_id,
            pin_count := (getPageAt (pickFrame { s with next_page_id := s.next_page_id + 1 }).2
              (pickFrame { s with next_page_id := s.next_page_id + 1 }).1).pin_count,
            is_dirty := false, data := zeroPageData } := by
        rw [← po.frame_dirty, ← po.frame_data]
      rw [heta]
    rw [NewPgImp_succeed hn] at hsucc
    simp only [Prod.mk.injEq, Option.some.injEq] at hsucc
    obtain ⟨⟨hpid, hfid⟩, hs'⟩ := hsucc
    have habs : lookupKey
        (pickFrame { s with next_page_id := s.next_page_id + 1 }).2.page_table
        s.next_page_id = none := by
      rw [lookupKey_eq_none]
      intro hmemk
      obtain ⟨v, hv⟩ := mem_keysOf.1 (po.table_keys_sub _ hmemk)
      have hv' : (s.next_page_id, v) ∈ s.page_table := hv
      have hlt : (s.next_page_id, v).1 < s.next_page_id := (invL.table_pid _ hv').2
      exact absurd hlt (lt_irrefl _)
    have htab : (finishInstall
        (installPage (pickFrame { s with next_page_id := s.next_page_id + 1 }).2
          (pickFrame { s with next_page_id := s.next_page_id + 1 }).1 s.next_page_id)
        (pickFrame { s with next_page_id := s.next_page_id + 1 }).1).page_table =
        (s.next_page_id, (pickFrame { s with next_page_id := s.next_page_id + 1 }).1) ::
          (pickFrame { s with next_page_id := s.next_page_id + 1 }).2.page_table := by
      rw [f5, emplaceKey_of_absent _ habs]
    have hnext4 : s'.next_page_id = pid + 1 := by
      rw [← hs', ← hpid, f8]
      exact po.next_eq
    refine ⟨?_, ?_, hpid.symm, hnext4, ?_⟩
    · rw [← hs', ← hfid, ← hpid]
      exact hf3
    · rw [← hs', ← hfid, ← hpid, htab]
      simp [lookupKey]
    · intro ops pid' fid' s'' hsucc2
      by_cases hn2 : numFreePages (applyOps ops s') = 0
      · rw [NewPgImp_fail hn2] at hsucc2
        simp only [Prod.mk.injEq] at hsucc2
        exact absurd hsucc2.1 (by simp)
      · rw [NewPgImp_succeed hn2] at hsucc2
        simp only [Prod.mk.injEq, Option.some.injEq] at hsucc2
        obtain ⟨⟨hpid2, _⟩, _⟩ := hsucc2
        have hmono := applyOps_next_le ops s'
        rw [hnext4, hpid2] at hmono
        exact lt_of_lt_of_le (lt_add_one pid) hmono

/-- Witness for C9: the first NewPage on a fresh one-frame pool. -/
theorem claim_C9_witness :
    getPageAt (NewPgImp (mkBufferPool 1 2)).2 0 =
      { page_id := 0, pin_count := 1, is_dirty := false, data := zeroPageData } ∧
    lookupKey (NewPgImp (mkBufferPool 1 2)).2.page_table 0 = some 0 ∧
    (0 : PageId) = (mkBufferPool 1 2).next_page_id ∧
    (NewPgImp (mkBufferPool 1 2)).2.next_page_id = 0 + 1 ∧
    (∀ ops pid' fid' s'',
      NewPgImp (applyOps ops (NewPgImp (mkBufferPool 1 2)).2) =
        (some (pid', fid'), s'') → (0 : PageId) < pid') :=
  claim_C9_newpage_contract (mkBufferPool 1 2) (Reachable.init 1 2) 0 0
    (NewPgImp (mkBufferPool 1 2)).2 rfl

/-- Counterexample for C9 as claimed: in the reachable state emplaceClashState
(an early FetchPage(7) left a stale (7, 0) page-table entry), the next NewPage
succeeds and returns page 7 in frame 1, but the insertion of (7 -> 1) into the
page table silently fails — unordered_map::emplace does not overwrite the
existing key 7, which still maps to frame 0. -/
theorem claim_C9_counterexample :
    ReachableAny emplaceClashState ∧
    (NewPgImp emplaceClashState).1 = some (7, 1) ∧
    ((7 : PageId), (1 : FrameId)) ∉ (NewPgImp emplaceClashState).2.page_table ∧
    lookupKey (NewPgImp emplaceClashState).2.page_table 7 = some 0 :=
  ⟨ReachableAny_applyOps (ReachableAny.init 2 2)
     [PoolOp.fetchPage 7,
      PoolOp.newPage, PoolOp.unpinPage 0 false,
      PoolOp.newPage, PoolOp.unpinPage 1 false,
      PoolOp.newPage, PoolOp.unpinPage 2 false,
      PoolOp.newPage, PoolOp.unpinPage 3 false,
      PoolOp.newPage, PoolOp.unpinPage 4 false,
      PoolOp.newPage, PoolOp.unpinPage 5 false,
      PoolOp.newPage, PoolOp.unpinPage 6 false],
   by decide, by decide, by decide⟩

/-- C10: For every page_id, FlushPage(page_id) leaves the entire in-memory
pool state unchanged — the page table, the free list, the replacer state, and
every frame's bytes, page_id, pin_count, and dirty bit (in particular it
never clears the dirty bit); its only effect is the WritePage disk call it
performs when the page is resident and page_id is not INVALID_PAGE_ID. -/
theorem claim_C10_flush_frame_effect (s : BufferPoolManagerInstance) (pid : PageId) :
    (FlushPgImp s pid).2.pool_size = s.pool_size ∧
    (FlushPgImp s pid).2.pages = s.pages ∧
    (FlushPgImp s pid).2.page_table = s.page_table ∧
    (FlushPgImp s pid).2.free_list = s.free_list ∧
    (FlushPgImp s pid).2.replacer = s.replacer ∧
    (FlushPgImp s pid).2.next_page_id = s.next_page_id ∧
    (pid = INVALID_PAGE_ID → FlushPgImp s pid = (false, s)) ∧
    (pid ≠ INVALID_PAGE_ID → lookupKey s.page_table pid = none →
      FlushPgImp s pid = (false, s)) ∧
    (∀ fid, pid ≠ INVALID_PAGE_ID → lookupKey s.page_table pid = some fid →
      (FlushPgImp s pid).1 = true ∧
      (FlushPgImp s pid).2.disk = setKey s.disk pid (getPageAt s fid).data ∧
      (FlushPgImp s pid).2.trace =
        s.trace ++ [DiskEvent.write pid (getPageAt s fid).data]) := by
  obtain ⟨h1, h2, h3, h4, h5, h6⟩ := FlushPgImp_core s pid
  refine ⟨h1, h2, h3, h4, h5, h6, ?_, ?_, ?_⟩
  · intro h0
    subst h0
    exact FlushPgImp_invalid s
  · intro h0 hlk
    exact FlushPgImp_not_resident h0 hlk
  · intro fid h0 hlk
    rw [FlushPgImp_resident h0 hlk]
    exact ⟨rfl, rfl, rfl⟩
